import Mathlib

/-!
PIO distance-vector routing protocol (`src/model/pior.cc`, `src/model/pior.h`).

A shallow embedding of the route table of `PIORoutingProtocol`, of the
operations that add, invalidate and delete routes, of the timers they
schedule and of the lookup engine (`LookupRoute`, `RouteOutput`,
`RouteInput`), followed by the properties proved about them.

Conventions of the embedding.

* `Ptr<T>` is `Option T`; dereferencing a null pointer and a failed
  `NS_ASSERT` are faults, so fallible functions return `Except Fault`.
* An `Ipv4Address` / `Ipv4Mask` is the 32-bit value it wraps, a `Nat`.
* A `PIORoutingEntry*` is an address (`ptr`) together with the object it
  points to. `new` returns the address the heap chooses (`heapNew`): in a
  move it is never the address of an entry of the table, but it can be an
  address that `delete route` has freed, also while a scheduled event still
  carries it.
* `Simulator::Schedule` appends an event to the simulator's event list and
  returns its uid; the default-constructed `EventId ()` is `none`. The
  scheduler runs the events in the order of their time, then of their uid;
  a cancelled event leaves the list at its time without running.
* The value drawn by `m_rng->GetValue (0, 5)`, converted by `Seconds`, is an
  argument (`rnd`) of the operation that draws it.
-/

namespace PIO

/-! Library types used by the protocol. -/

/-- A smart pointer `Ptr<T>`: `none` is the null pointer. -/
abbrev Ptr (α : Type) := Option α

/-- The 32-bit value held by an `Ipv4Address`. -/
abbrev Ipv4Address := Nat

/-- The 32-bit value held by an `Ipv4Mask`. -/
abbrev Ipv4Mask := Nat

/-- A net device, by identity. -/
abbrev NetDevice := Nat

/-- A packet, by identity. -/
abbrev Packet := Nat

/-- A socket, by identity. -/
abbrev Socket := Nat

/-- Simulation time (`Time`), in the simulator's resolution unit. -/
abbrev Time := Int

/-- Ways in which a call can end without returning. -/
inductive Fault where
  | assertFailed
  | nullDeref
  deriving DecidableEq, Repr

/-- Modelled from the spec: `Ipv4Address::GetZero ()` of ns3/ipv4-address.h,
which is not among the sources: the address 0.0.0.0. -/
def Ipv4Address.GetZero : Ipv4Address := 0

/-- Modelled from the spec: `Ipv4Mask::GetZero ()` of ns3/ipv4-address.h,
which is not among the sources: the mask /0. -/
def Ipv4Mask.GetZero : Ipv4Mask := 0

/-- Modelled from the spec: `Ipv4Mask::GetOnes ()` of ns3/ipv4-address.h,
which is not among the sources: the mask /32. -/
def Ipv4Mask.GetOnes : Ipv4Mask := 0xffffffff

/-- The address 127.0.0.1, written `"127.0.0.1"` in the source. -/
def loopbackAddress : Ipv4Address := 0x7f000001

/-- Modelled from the spec: `Ipv4Address::IsMulticast` of ns3/ipv4-address.h,
which is not among the sources: the class D range 224.0.0.0 to
239.255.255.255. -/
def IsMulticast (a : Ipv4Address) : Bool :=
  decide (0xe0000000 ≤ a ∧ a ≤ 0xefffffff)

/-- Modelled from the spec: `Ipv4Address::IsLocalMulticast` of
ns3/ipv4-address.h, which is not among the sources: the link-local
multicast block 224.0.0.0/24. -/
def IsLocalMulticast (a : Ipv4Address) : Bool :=
  decide (a &&& 0xffffff00 = 0xe0000000)

/-- Modelled from the spec: `Ipv4Mask::IsMatch (a, b)` of ns3/ipv4-address.h,
which is not among the sources: "destination falls within the entry's
network/mask", that is both addresses agree on the bits of the mask. -/
def IsMatch (mask : Ipv4Mask) (a b : Ipv4Address) : Bool :=
  decide (a &&& mask = b &&& mask)

/-- The header fields of `Ipv4Header` read by the protocol. -/
structure Ipv4Header where
  source : Ipv4Address
  destination : Ipv4Address
  deriving DecidableEq, Repr

/-- The values of `Socket::SocketErrno` assigned by the protocol. -/
inductive SocketErrno where
  | ERROR_NOTERROR
  | ERROR_NOROUTETOHOST
  deriving DecidableEq, Repr

/-- The scope argument of `SelectSourceAddress`. -/
inductive Scope where
  | LINK
  | GLOBAL
  deriving DecidableEq, Repr

/-- The forwarding decision `Ipv4Route` filled in by `LookupRoute`. -/
structure Ipv4Route where
  source : Ipv4Address
  destination : Ipv4Address
  gateway : Ipv4Address
  outputDevice : Ptr NetDevice
  deriving DecidableEq, Repr

/-- The IPv4 stack `m_ipv4` points to. Its class is not among the sources:
the member functions the protocol calls are taken as parameters. -/
structure Ipv4 where
  GetNInterfaces : Nat
  GetNAddresses : Nat → Nat
  /-- Stands for `GetAddress (j, i).GetLocal ()`. -/
  GetLocal : Nat → Nat → Ipv4Address
  IsForwarding : Nat → Bool
  IsUp : Nat → Bool
  GetNetDevice : Nat → Ptr NetDevice
  GetInterfaceForDevice : Ptr NetDevice → Int
  SelectSourceAddress : Ptr NetDevice → Ipv4Address → Scope → Ipv4Address

/-! Route entries (`pior.h`). -/

/-- The `enum Validity` of `pior.h`. -/
inductive Validity where
  | VALID
  | INVALID
  | LHOST
  deriving DecidableEq, Repr

/-- A `PIORoutingEntry`: the four fields inherited from
`Ipv4RoutingTableEntry` and the four members declared in `pior.h`. -/
structure PIORoutingEntry where
  m_dest : Ipv4Address
  m_destNetworkMask : Ipv4Mask
  m_gateway : Ipv4Address
  m_interface : Nat
  m_sequenceNo : Nat
  m_metric : Nat
  m_changed : Bool
  m_validity : Validity
  deriving DecidableEq, Repr

/-- Constructor `PIORoutingEntry (network, networkMask, nextHop, interface)`. -/
def PIORoutingEntry.mkNetworkVia (network : Ipv4Address) (networkMask : Ipv4Mask)
    (nextHop : Ipv4Address) (interface : Nat) : PIORoutingEntry :=
  { m_dest := network, m_destNetworkMask := networkMask, m_gateway := nextHop,
    m_interface := interface, m_sequenceNo := 0, m_metric := 0, m_changed := false,
    m_validity := Validity.INVALID }

/-- Constructor `PIORoutingEntry (network, networkMask, interface)`: a route
without gateway. -/
def PIORoutingEntry.mkNetwork (network : Ipv4Address) (networkMask : Ipv4Mask)
    (interface : Nat) : PIORoutingEntry :=
  { m_dest := network, m_destNetworkMask := networkMask, m_gateway := Ipv4Address.GetZero,
    m_interface := interface, m_sequenceNo := 0, m_metric := 0, m_changed := false,
    m_validity := Validity.INVALID }

/-- Constructor `PIORoutingEntry (host, interface)`: a host route, with the
all-ones mask and no gateway. -/
def PIORoutingEntry.mkHost (host : Ipv4Address) (interface : Nat) : PIORoutingEntry :=
  { m_dest := host, m_destNetworkMask := Ipv4Mask.GetOnes, m_gateway := Ipv4Address.GetZero,
    m_interface := interface, m_sequenceNo := 0, m_metric := 0, m_changed := false,
    m_validity := Validity.INVALID }

/-! The simulator and the protocol state. -/

/-- The member function a scheduled event calls, with its argument. -/
inductive Action where
  | InvalidateRoute (route : Nat)
  | DeleteRoute (route : Nat)
  deriving DecidableEq, Repr

/-- An event held by the simulator. -/
structure ScheduledEvent where
  uid : Nat
  ts : Time
  action : Action
  cancelled : Bool
  deriving DecidableEq, Repr

/-- An `EventId`: `none` is the default-constructed `EventId ()`, `some uid`
refers to the event scheduled under that uid. -/
abbrev EventId := Option Nat

/-- The part of the simulator the protocol acts on. -/
structure Simulator where
  now : Time
  nextUid : Nat
  events : List ScheduledEvent
  deriving DecidableEq, Repr

/-- `Simulator::Schedule (delay, action)`: the event, due at `now + delay`,
joins the event list; the result is its `EventId`. -/
def Simulator.Schedule (sim : Simulator) (delay : Time) (action : Action) :
    Simulator × EventId :=
  ({ sim with
      nextUid := sim.nextUid + 1
      events := sim.events ++
        [{ uid := sim.nextUid, ts := sim.now + delay, action := action, cancelled := false }] },
   some sim.nextUid)

/-- A `RouteTableRecord`, `std::pair <PIORoutingEntry*, EventId>`: `ptr` is
the address held by the pointer `first`, `route` the entry it points to and
`event` the member `second`. -/
structure RouteTableRecord where
  ptr : Nat
  route : PIORoutingEntry
  event : EventId
  deriving DecidableEq, Repr

/-- `enum SplitHorizonType` (`pior.h`). -/
inductive SplitHorizonType where
  | NO_SPLIT_HORIZON
  | SPLIT_HORIZON
  | POISON_REVERSE
  deriving DecidableEq, Repr

/-- `enum PrintingOption` (`pior.h`). -/
inductive PrintingOption where
  | DONT_PRINT
  | MAIN_R_TABLE
  | N_TABLE
  deriving DecidableEq, Repr

/-- The state of one `PIORoutingProtocol` instance (the members the modelled
functions read or write), with the simulator it schedules on and the heap
its entries are allocated on. -/
structure PIORoutingProtocol where
  m_routing : List RouteTableRecord
  m_ipv4 : Ptr Ipv4
  m_initialized : Bool
  m_garbageCollectionDelay : Time
  /-- The map `m_sendSocketList` (socket, interface index), in iteration order. -/
  m_sendSocketList : List (Socket × Nat)
  m_recvSocket : Ptr Socket
  m_nextKeepAliveMessage : EventId
  m_nextTriggeredUpdate : EventId
  m_nextPeriodicUpdate : EventId
  m_print : PrintingOption
  m_splitHorizonStrategy : SplitHorizonType
  /-- The heap: `heapNew k` is the address that the `k`-th `new PIORoutingEntry`
  of the run returns. Nothing keeps it from being an address that
  `delete route` has freed, whether or not a scheduled event still carries
  that address. -/
  heapNew : Nat → Nat
  /-- The number of entries allocated so far. -/
  heapCount : Nat
  sim : Simulator

/-- The address the next `new PIORoutingEntry` returns: any address the heap
chooses, a freed one included. -/
def PIORoutingProtocol.nextPtr (p : PIORoutingProtocol) : Nat := p.heapNew p.heapCount

/-! Adding routes (`pior.cc`). -/

/-- `PIORoutingProtocol::AddNetworkRouteTo`, the overload with a gateway
(`nextHop`). `routePtr` is the address `new PIORoutingEntry` returns, which
the heap chooses. `rnd` is `Seconds (m_rng->GetValue (0, 5))`, drawn in the
branch that schedules. -/
def AddNetworkRouteTo (p : PIORoutingProtocol) (network : Ipv4Address)
    (networkMask : Ipv4Mask) (nextHop : Ipv4Address) (interface : Nat) (metric : Nat)
    (sequenceNo : Nat) (timeoutTime : Time) (_garbageCollectionTime : Time) (rnd : Time) :
    PIORoutingProtocol :=
  let routePtr := p.nextPtr
  let route : PIORoutingEntry :=
    { PIORoutingEntry.mkNetworkVia network networkMask nextHop interface with
      m_sequenceNo := sequenceNo
      m_metric := metric
      m_validity := Validity.VALID
      m_changed := true }
  if network = 0 ∧ networkMask = Ipv4Mask.GetZero then
    { p with
      heapCount := p.heapCount + 1
      m_routing := { ptr := routePtr, route := route, event := none } :: p.m_routing }
  else
    let delay := timeoutTime + rnd
    let scheduled := p.sim.Schedule delay (Action.InvalidateRoute routePtr)
    { p with
      heapCount := p.heapCount + 1
      sim := scheduled.1
      m_routing := { ptr := routePtr, route := route, event := scheduled.2 } :: p.m_routing }

/-- `PIORoutingProtocol::AddNetworkRouteTo`, the overload without gateway.
`routePtr` is the address `new PIORoutingEntry` returns, which the heap
chooses. In the scheduling branch the source declares a second, inner
variable `invalidateEvent` for the scheduled event, so the record pushed on
the table holds the outer one, still `EventId ()`. -/
def AddNetworkRouteToInterface (p : PIORoutingProtocol) (network : Ipv4Address)
    (networkMask : Ipv4Mask) (interface : Nat) (metric : Nat) (sequenceNo : Nat)
    (timeoutTime : Time) (garbageCollectionTime : Time) (rnd : Time) : PIORoutingProtocol :=
  let routePtr := p.nextPtr
  let route : PIORoutingEntry :=
    { PIORoutingEntry.mkNetwork network networkMask interface with
      m_sequenceNo := sequenceNo
      m_metric := metric
      m_validity := Validity.VALID
      m_changed := true }
  let invalidateEvent : EventId := none
  if timeoutTime = 0 ∧ garbageCollectionTime = 0 then
    { p with
      heapCount := p.heapCount + 1
      m_routing := { ptr := routePtr, route := route, event := invalidateEvent } :: p.m_routing }
  else
    let delay := timeoutTime + rnd
    let scheduled := p.sim.Schedule delay (Action.InvalidateRoute routePtr)
    { p with
      heapCount := p.heapCount + 1
      sim := scheduled.1
      m_routing := { ptr := routePtr, route := route, event := invalidateEvent } :: p.m_routing }

/-- `PIORoutingProtocol::AddHostRouteTo`. `routePtr` is the address
`new PIORoutingEntry` returns, which the heap chooses. -/
def AddHostRouteTo (p : PIORoutingProtocol) (host : Ipv4Address) (interface : Nat)
    (metric : Nat) (sequenceNo : Nat) (timeoutTime : Time) (_garbageCollectionTime : Time)
    (rnd : Time) : PIORoutingProtocol :=
  let routePtr := p.nextPtr
  let route := PIORoutingEntry.mkHost host interface
  if host = loopbackAddress then
    let route := { route with
      m_validity := Validity.LHOST
      m_sequenceNo := 0
      m_metric := 0
      m_changed := false }
    { p with
      heapCount := p.heapCount + 1
      m_routing := { ptr := routePtr, route := route, event := none } :: p.m_routing }
  else
    let route := { route with
      m_validity := Validity.VALID
      m_sequenceNo := sequenceNo
      m_metric := metric
      m_changed := true }
    let delay := timeoutTime + rnd
    let scheduled := p.sim.Schedule delay (Action.InvalidateRoute routePtr)
    { p with
      heapCount := p.heapCount + 1
      sim := scheduled.1
      m_routing := { ptr := routePtr, route := route, event := scheduled.2 } :: p.m_routing }

/-- `PIORoutingProtocol::AddDefaultRouteTo`. The call it makes never reaches
the scheduling branch, so no random value is drawn (`rnd` is passed as 0). -/
def AddDefaultRouteTo (p : PIORoutingProtocol) (nextHop : Ipv4Address) (interface : Nat) :
    PIORoutingProtocol :=
  AddNetworkRouteTo p 0 Ipv4Mask.GetZero nextHop interface 0 0 0 0 0

/-! The lookup engine (`pior.cc`). -/

/-- The `Ipv4Route` built inside the loop of `LookupRoute` from the entry
that was selected. -/
def routeOfEntry (ipv4 : Ipv4) (route : PIORoutingEntry) : Ipv4Route :=
  let interfaceIndex := route.m_interface
  { destination := route.m_dest
    gateway := route.m_gateway
    outputDevice := ipv4.GetNetDevice interfaceIndex
    source := ipv4.SelectSourceAddress (ipv4.GetNetDevice interfaceIndex) route.m_dest
      Scope.GLOBAL }

/-- The `for` loop of `LookupRoute` over `m_routing`, from the front. The
stack `m_ipv4` is dereferenced only where the source does. -/
def lookupLoop (m_ipv4 : Ptr Ipv4) (address : Ipv4Address) (dev : Ptr NetDevice) :
    List RouteTableRecord → Except Fault (Ptr Ipv4Route)
  | [] => Except.ok none
  | it :: rest =>
    let routeEntry := it.route
    if routeEntry.m_validity = Validity.VALID then
      let destination := routeEntry.m_dest
      let mask := routeEntry.m_destNetworkMask
      if IsMatch mask address destination then
        match dev, m_ipv4 with
        | none, none => Except.error Fault.nullDeref
        | none, some ipv4 => Except.ok (some (routeOfEntry ipv4 routeEntry))
        | some _, none => Except.error Fault.nullDeref
        | some d, some ipv4 =>
          if some d = ipv4.GetNetDevice routeEntry.m_interface then
            Except.ok (some (routeOfEntry ipv4 routeEntry))
          else lookupLoop m_ipv4 address dev rest
      else lookupLoop m_ipv4 address dev rest
    else lookupLoop m_ipv4 address dev rest

/-- `PIORoutingProtocol::LookupRoute (address, dev)`; `dev = none` is the
default argument `dev = 0`. -/
def LookupRoute (p : PIORoutingProtocol) (address : Ipv4Address) (dev : Ptr NetDevice) :
    Except Fault (Ptr Ipv4Route) :=
  if IsLocalMulticast address then
    match p.m_ipv4 with
    | none => Except.error Fault.nullDeref
    | some ipv4 =>
      if ipv4.GetInterfaceForDevice dev = 0 then Except.error Fault.assertFailed
      else
        Except.ok (some
          { source := ipv4.SelectSourceAddress dev address Scope.LINK
            destination := address
            gateway := Ipv4Address.GetZero
            outputDevice := dev })
  else lookupLoop p.m_ipv4 address dev p.m_routing

/-- `PIORoutingProtocol::RouteOutput`: the route returned and the value left
in `sockerr`. -/
def RouteOutput (p : PIORoutingProtocol) (header : Ipv4Header) (oif : Ptr NetDevice) :
    Except Fault (Ptr Ipv4Route × SocketErrno) :=
  let destination := header.destination
  match LookupRoute p destination oif with
  | Except.error e => Except.error e
  | Except.ok (some rtEntry) => Except.ok (some rtEntry, SocketErrno.ERROR_NOTERROR)
  | Except.ok none => Except.ok (none, SocketErrno.ERROR_NOROUTETOHOST)

/-- One invocation of a callback handed to `RouteInput`, with its arguments. -/
inductive CallbackCall where
  | ucb (route : Ipv4Route) (p : Packet) (header : Ipv4Header)
  | mcb (p : Packet) (header : Ipv4Header)
  | lcb (p : Packet) (header : Ipv4Header) (iif : Nat)
  | ecb (p : Packet) (header : Ipv4Header) (sockErrno : SocketErrno)
  deriving DecidableEq, Repr

/-- The two nested `for` loops of `RouteInput` over the addresses of all the
interfaces: whether some `GetAddress (j, i).GetLocal ()` equals the
destination. The body run on the first hit does not depend on `j` or `i`. -/
def isLocalDestination (ipv4 : Ipv4) (dst : Ipv4Address) : Bool :=
  (List.range ipv4.GetNInterfaces).any fun j =>
    (List.range (ipv4.GetNAddresses j)).any fun i => decide (ipv4.GetLocal j i = dst)

/-- `PIORoutingProtocol::RouteInput`: the value returned and the callbacks
invoked, in order. -/
def RouteInput (p : PIORoutingProtocol) (pkt : Packet) (header : Ipv4Header)
    (idev : Ptr NetDevice) : Except Fault (Bool × List CallbackCall) :=
  match p.m_ipv4 with
  | none => Except.error Fault.assertFailed
  | some ipv4 =>
    if ipv4.GetInterfaceForDevice idev < 0 then Except.error Fault.assertFailed
    else
      let iif := (ipv4.GetInterfaceForDevice idev).toNat
      let dst := header.destination
      if IsMulticast dst then Except.ok (false, [])
      else if isLocalDestination ipv4 header.destination then
        Except.ok (true, [CallbackCall.lcb pkt header iif])
      else if ipv4.IsForwarding iif = false then
        Except.ok (false, [CallbackCall.ecb pkt header SocketErrno.ERROR_NOROUTETOHOST])
      else
        match LookupRoute p header.destination none with
        | Except.error e => Except.error e
        | Except.ok (some route) => Except.ok (true, [CallbackCall.ucb route pkt header])
        | Except.ok none => Except.ok (false, [])

/-! Invalidating and deleting routes (`pior.cc`), and the firing of timers. -/

/-- The entry pointer a scheduled event passes to its member function. -/
def Action.route : Action → Nat
  | Action.InvalidateRoute route => route
  | Action.DeleteRoute route => route

/-- `EventId::Cancel ()`: the event the handle refers to, if the simulator
still holds it, is marked cancelled; on `EventId ()`, and on an event that
has already run, nothing happens. -/
def Simulator.Cancel (sim : Simulator) (id : EventId) : Simulator :=
  match id with
  | none => sim
  | some uid =>
    { sim with
      events := sim.events.map fun e => if e.uid = uid then { e with cancelled := true } else e }

/-- The four statements that `InvalidateRoute` and the three bulk
invalidations run on a record `it`: `SetValidity (INVALID)`,
`SetRouteChanged (true)`, `it->second.Cancel ()` and
`it->second = Simulator::Schedule (m_garbageCollectionDelay, DeleteRoute, it->first)`. -/
def invalidateRecord (m_garbageCollectionDelay : Time) (sim : Simulator)
    (it : RouteTableRecord) : RouteTableRecord × Simulator :=
  let route := { it.route with m_validity := Validity.INVALID, m_changed := true }
  let sim1 := sim.Cancel it.event
  let scheduled := sim1.Schedule m_garbageCollectionDelay (Action.DeleteRoute it.ptr)
  ({ ptr := it.ptr, route := route, event := scheduled.2 }, scheduled.1)

/-- The loop of `InvalidateRoute`: the first record whose pointer is `route`
is invalidated and the loop returns; the validity of the entry is not
tested. -/
def invalidateRouteLoop (m_garbageCollectionDelay : Time) (route : Nat) (sim : Simulator) :
    List RouteTableRecord → List RouteTableRecord × Simulator
  | [] => ([], sim)
  | it :: rest =>
    if it.ptr = route then
      let r := invalidateRecord m_garbageCollectionDelay sim it
      (r.1 :: rest, r.2)
    else
      let r := invalidateRouteLoop m_garbageCollectionDelay route sim rest
      (it :: r.1, r.2)

/-- `PIORoutingProtocol::InvalidateRoute (route)`. -/
def InvalidateRoute (p : PIORoutingProtocol) (route : Nat) : PIORoutingProtocol :=
  let r := invalidateRouteLoop p.m_garbageCollectionDelay route p.sim p.m_routing
  { p with m_routing := r.1, sim := r.2 }

/-- The loop of `DeleteRoute`: the first record whose pointer is `route` is
erased (its `EventId` is dropped, not cancelled) and the loop returns. The
entry is freed by `delete route`: a later `new PIORoutingEntry` can return
its address, and no event that carries the address is cancelled. -/
def deleteRouteLoop (route : Nat) : List RouteTableRecord → List RouteTableRecord
  | [] => []
  | it :: rest => if it.ptr = route then rest else it :: deleteRouteLoop route rest

/-- `PIORoutingProtocol::DeleteRoute (route)`. -/
def DeleteRoute (p : PIORoutingProtocol) (route : Nat) : PIORoutingProtocol :=
  { p with m_routing := deleteRouteLoop route p.m_routing }

/-- The loop shared, statement for statement, by the three bulk
invalidations; `cond` is the condition of the `if` in the function at hand
and `retVal` the variable of that name. -/
def bulkInvalidateLoop (m_garbageCollectionDelay : Time) (cond : PIORoutingEntry → Bool) :
    List RouteTableRecord → Simulator → Bool → List RouteTableRecord × Simulator × Bool
  | [], sim, retVal => ([], sim, retVal)
  | it :: rest, sim, retVal =>
    if cond it.route then
      let r := invalidateRecord m_garbageCollectionDelay sim it
      let tail := bulkInvalidateLoop m_garbageCollectionDelay cond rest r.2 true
      (r.1 :: tail.1, tail.2.1, tail.2.2)
    else
      let tail := bulkInvalidateLoop m_garbageCollectionDelay cond rest sim retVal
      (it :: tail.1, tail.2.1, tail.2.2)

/-- The condition of `InvalidateRoutesForInterface`. -/
def condInterface (interface : Nat) (e : PIORoutingEntry) : Bool :=
  decide (e.m_interface = interface) && decide (e.m_validity = Validity.VALID)

/-- The condition of `InvalidateBrokenRoutes`. -/
def condBroken (destination : Ipv4Address) (destinationMask : Ipv4Mask)
    (e : PIORoutingEntry) : Bool :=
  decide (e.m_dest = destination) && decide (e.m_destNetworkMask = destinationMask) &&
    decide (e.m_validity = Validity.VALID)

/-- The condition of `InvalidateRoutesForGateway`. -/
def condGateway (gateway : Ipv4Address) (e : PIORoutingEntry) : Bool :=
  decide (e.m_gateway = gateway) && decide (e.m_validity = Validity.VALID)

/-- A bulk invalidation with condition `cond`: the state left and the value
returned. -/
def bulkInvalidate (p : PIORoutingProtocol) (cond : PIORoutingEntry → Bool) :
    PIORoutingProtocol × Bool :=
  let r := bulkInvalidateLoop p.m_garbageCollectionDelay cond p.m_routing p.sim false
  ({ p with m_routing := r.1, sim := r.2.1 }, r.2.2)

/-- `PIORoutingProtocol::InvalidateRoutesForInterface (interface)`. -/
def InvalidateRoutesForInterface (p : PIORoutingProtocol) (interface : Nat) :
    PIORoutingProtocol × Bool :=
  bulkInvalidate p (condInterface interface)

/-- `PIORoutingProtocol::InvalidateBrokenRoutes (destination, destinationMask)`. -/
def InvalidateBrokenRoutes (p : PIORoutingProtocol) (destination : Ipv4Address)
    (destinationMask : Ipv4Mask) : PIORoutingProtocol × Bool :=
  bulkInvalidate p (condBroken destination destinationMask)

/-- `PIORoutingProtocol::InvalidateRoutesForGateway (gateway)`. -/
def InvalidateRoutesForGateway (p : PIORoutingProtocol) (gateway : Ipv4Address) :
    PIORoutingProtocol × Bool :=
  bulkInvalidate p (condGateway gateway)

/-- Modelled from the spec: the order in which the scheduler of
ns3/simulator.h, which is not among the sources, runs events: by time, then
by uid ("sequential callbacks ordered by simulated time"). -/
def ScheduledEvent.before (a b : ScheduledEvent) : Bool :=
  decide (a.ts < b.ts) || (decide (a.ts = b.ts) && decide (a.uid ≤ b.uid))

/-- Modelled from the spec: the event the scheduler runs next, the first in
the order `before`. -/
def nextEvent : List ScheduledEvent → Option ScheduledEvent
  | [] => none
  | e :: es =>
    match nextEvent es with
    | none => some e
    | some m => if e.before m then some e else some m

/-- Modelled from the spec: the scheduler of ns3/simulator.h, which is not
among the sources, taking the event `e` off the event list and moving the
clock to its time. -/
def dequeue (p : PIORoutingProtocol) (e : ScheduledEvent) : PIORoutingProtocol :=
  { p with
    sim :=
      { p.sim with
        now := e.ts
        events := p.sim.events.filter fun x => decide (x.uid ≠ e.uid) } }

/-- Modelled from the spec: one turn of the scheduler of ns3/simulator.h,
which is not among the sources. The next event leaves the event list and the
clock moves to its time; unless it was cancelled ("firing an
already-canceled callback must be impossible") its member function runs.
The result is `none` when no event is left. -/
def ProcessOneEvent (p : PIORoutingProtocol) : Option PIORoutingProtocol :=
  match nextEvent p.sim.events with
  | none => none
  | some e =>
    let p1 := dequeue p e
    if e.cancelled then some p1
    else
      match e.action with
      | Action.InvalidateRoute route => some (InvalidateRoute p1 route)
      | Action.DeleteRoute route => some (DeleteRoute p1 route)

/-- One move of the protocol: an add operation (with a random draw in
[0, 5 s), in nanoseconds, and with `new` returning any address that is not
the address of an entry of the table, be it one that `delete route` has
freed and that a pending event still carries), a bulk invalidation, the
firing of the next scheduled event, or the clock advancing up to the next
event. -/
inductive Step : PIORoutingProtocol → PIORoutingProtocol → Prop where
  | addHost (p : PIORoutingProtocol) (host : Ipv4Address) (interface metric sequenceNo : Nat)
      (timeoutTime garbageCollectionTime rnd : Time) (h0 : 0 ≤ rnd) (h5 : rnd < 5000000000)
      (hfree : ∀ r ∈ p.m_routing, r.ptr ≠ p.nextPtr) :
      Step p (AddHostRouteTo p host interface metric sequenceNo timeoutTime
        garbageCollectionTime rnd)
  | addNetwork (p : PIORoutingProtocol) (network : Ipv4Address) (networkMask : Ipv4Mask)
      (nextHop : Ipv4Address) (interface metric sequenceNo : Nat)
      (timeoutTime garbageCollectionTime rnd : Time) (h0 : 0 ≤ rnd) (h5 : rnd < 5000000000)
      (hfree : ∀ r ∈ p.m_routing, r.ptr ≠ p.nextPtr) :
      Step p (AddNetworkRouteTo p network networkMask nextHop interface metric sequenceNo
        timeoutTime garbageCollectionTime rnd)
  | addInterface (p : PIORoutingProtocol) (network : Ipv4Address) (networkMask : Ipv4Mask)
      (interface metric sequenceNo : Nat) (timeoutTime garbageCollectionTime rnd : Time)
      (h0 : 0 ≤ rnd) (h5 : rnd < 5000000000) (hfree : ∀ r ∈ p.m_routing, r.ptr ≠ p.nextPtr) :
      Step p (AddNetworkRouteToInterface p network networkMask interface metric sequenceNo
        timeoutTime garbageCollectionTime rnd)
  | addDefault (p : PIORoutingProtocol) (nextHop : Ipv4Address) (interface : Nat)
      (hfree : ∀ r ∈ p.m_routing, r.ptr ≠ p.nextPtr) :
      Step p (AddDefaultRouteTo p nextHop interface)
  | invalidateInterface (p : PIORoutingProtocol) (interface : Nat) :
      Step p (InvalidateRoutesForInterface p interface).1
  | invalidateBroken (p : PIORoutingProtocol) (destination : Ipv4Address)
      (destinationMask : Ipv4Mask) :
      Step p (InvalidateBrokenRoutes p destination destinationMask).1
  | invalidateGateway (p : PIORoutingProtocol) (gateway : Ipv4Address) :
      Step p (InvalidateRoutesForGateway p gateway).1
  | fire (p q : PIORoutingProtocol) (h : ProcessOneEvent p = some q) : Step p q
  | elapse (p : PIORoutingProtocol) (t : Time) (hnow : p.sim.now ≤ t)
      (hnext : ∀ e ∈ p.sim.events, t ≤ e.ts) :
      Step p { p with sim := { p.sim with now := t } }

/-- The states reachable from a state by a finite number of moves. -/
inductive Reachable (p : PIORoutingProtocol) : PIORoutingProtocol → Prop where
  | refl : Reachable p p
  | step (q r : PIORoutingProtocol) (hq : Reachable p q) (hs : Step q r) : Reachable p r

/-- A state with an empty table and no scheduled event. -/
def Initial (p : PIORoutingProtocol) : Prop :=
  p.m_routing = [] ∧ p.sim.events = []

/-- The outstanding events of an entry: those the simulator holds, not
cancelled, whose member function will be called on the entry's pointer. -/
def outstanding (p : PIORoutingProtocol) (route : Nat) : List ScheduledEvent :=
  p.sim.events.filter fun e => !e.cancelled && decide (e.action.route = route)

/-! Attachment, notifications and teardown (`pior.cc`). -/

/-- The fields of `Ipv4InterfaceAddress` the notifications are handed. -/
structure Ipv4InterfaceAddress where
  m_local : Ipv4Address
  m_mask : Ipv4Mask
  deriving DecidableEq, Repr

/-- `PIORoutingProtocol::NotifyInterfaceUp`: the body only logs. -/
def NotifyInterfaceUp (p : PIORoutingProtocol) (_interface : Nat) : PIORoutingProtocol := p

/-- `PIORoutingProtocol::NotifyInterfaceDown`: the body only logs. -/
def NotifyInterfaceDown (p : PIORoutingProtocol) (_interface : Nat) : PIORoutingProtocol := p

/-- `PIORoutingProtocol::NotifyAddAddress`: the body only logs. -/
def NotifyAddAddress (p : PIORoutingProtocol) (_interface : Nat)
    (_address : Ipv4InterfaceAddress) : PIORoutingProtocol := p

/-- `PIORoutingProtocol::NotifyRemoveAddress`: the body only logs. -/
def NotifyRemoveAddress (p : PIORoutingProtocol) (_interface : Nat)
    (_address : Ipv4InterfaceAddress) : PIORoutingProtocol := p

/-- `PIORoutingProtocol::SetIpv4`: the assertion
`m_ipv4 == 0 && ipv4 != 0`, the assignment, and the loop that notifies each
interface as up or down. -/
def SetIpv4 (p : PIORoutingProtocol) (ipv4 : Ptr Ipv4) : Except Fault PIORoutingProtocol :=
  match p.m_ipv4, ipv4 with
  | none, some stack =>
    let p1 := { p with m_ipv4 := some stack }
    Except.ok ((List.range stack.GetNInterfaces).foldl
      (fun q i => if stack.IsUp i then NotifyInterfaceUp q i else NotifyInterfaceDown q i) p1)
  | _, _ => Except.error Fault.assertFailed

/-- What `DoDispose` does, step by step, to the things outside the state. -/
inductive DisposeEffect where
  | tableCleared
  | socketClosed (socket : Socket)
  | timerCancelled (id : EventId)
  deriving DecidableEq, Repr

/-- `PIORoutingProtocol::DoDispose`: the state left and the effects in the
order of the source. `m_routing.clear ()` drops the records with their
`EventId`s; no `Cancel` is called on them. -/
def DoDispose (p : PIORoutingProtocol) : PIORoutingProtocol × List DisposeEffect :=
  let sim1 := p.sim.Cancel p.m_nextKeepAliveMessage
  let sim2 := sim1.Cancel p.m_nextTriggeredUpdate
  let sim3 := sim2.Cancel p.m_nextPeriodicUpdate
  let closeRecv : List DisposeEffect :=
    match p.m_recvSocket with
    | some s => [DisposeEffect.socketClosed s]
    | none => []
  ({ p with
      m_routing := []
      m_sendSocketList := []
      m_recvSocket := none
      m_nextKeepAliveMessage := none
      m_nextTriggeredUpdate := none
      m_nextPeriodicUpdate := none
      m_ipv4 := none
      sim := sim3 },
    [DisposeEffect.tableCleared] ++
      p.m_sendSocketList.map (fun s => DisposeEffect.socketClosed s.1) ++ closeRecv ++
      [DisposeEffect.timerCancelled p.m_nextKeepAliveMessage,
        DisposeEffect.timerCancelled p.m_nextTriggeredUpdate,
        DisposeEffect.timerCancelled p.m_nextPeriodicUpdate])

/-! The helper (`pior-helper.cc`). -/

/-- A member of an `Ipv4ListRouting`, as `DynamicCast<PIORoutingProtocol>`
sees it: a PIO instance or something else. -/
inductive ListedProtocol where
  | pio (p : PIORoutingProtocol)
  | other

/-- The object behind a `Ptr<Ipv4RoutingProtocol>`, as the two dynamic casts
of the helper see it: a PIO instance, a list routing protocol, or something
else. -/
inductive Ipv4RoutingProtocol where
  | pio (p : PIORoutingProtocol)
  | list (members : List ListedProtocol)
  | other

/-- The `Ipv4` object aggregated to a node: the helper calls only
`GetRoutingProtocol ()`. -/
structure NodeIpv4 where
  routingProtocol : Ptr Ipv4RoutingProtocol

/-- A node, as `node->GetObject<Ipv4> ()` sees it. -/
structure Node where
  ipv4 : Ptr NodeIpv4

/-- The loop of `SetDefRoute` over the members of the list: at the first
member that is a PIO instance the source calls
`PIO->AddDefaultRouteTo (nextHop, interface)`, on the pointer `PIO` and not
on `listPIO`, and leaves the loop. -/
def setDefRouteLoop ( PIO : Ptr PIORoutingProtocol) (nextHop : Ipv4Address)
    (interface : Nat) :
    List ListedProtocol → Except Fault (Ptr PIORoutingProtocol)
  | [] => Except.ok PIO
  | listIpv4Proto :: rest =>
    match listIpv4Proto with
    | ListedProtocol.pio _ =>
      match PIO with
      | none => Except.error Fault.nullDeref
      | some pio => Except.ok (some (AddDefaultRouteTo pio nextHop interface))
    | ListedProtocol.other => setDefRouteLoop PIO nextHop interface rest

/-- `PIOHelper::SetDefRoute (node, nextHop, interface)`: the node with the
routing protocol as the call leaves it. `PIO` is the result of
`DynamicCast<PIORoutingProtocol> (rProto)`, null unless the routing
protocol of the node is itself a PIO instance. -/
def SetDefRoute (node : Node) (nextHop : Ipv4Address) (interface : Nat) : Except Fault Node :=
  match node.ipv4 with
  | none => Except.error Fault.assertFailed
  | some ipv4 =>
    match ipv4.routingProtocol with
    | none => Except.error Fault.assertFailed
    | some (Ipv4RoutingProtocol.pio pio) =>
      Except.ok
        { ipv4 := some
            { routingProtocol :=
                some (Ipv4RoutingProtocol.pio (AddDefaultRouteTo pio nextHop interface)) } }
    | some (Ipv4RoutingProtocol.list members) =>
      match setDefRouteLoop none nextHop interface members with
      | Except.error e => Except.error e
      | Except.ok _ => Except.ok node
    | some Ipv4RoutingProtocol.other => Except.ok node

/-! Moves that spare an entry. -/

/-- The state `t` is what a bulk invalidation whose condition the entry `e`
satisfies makes of the state `s`. -/
def BulkMatch (s t : PIORoutingProtocol) (e : PIORoutingEntry) : Prop :=
  (∃ i, condInterface i e = true ∧ t = (InvalidateRoutesForInterface s i).1) ∨
    (∃ d m, condBroken d m e = true ∧ t = (InvalidateBrokenRoutes s d m).1) ∨
    (∃ g, condGateway g e = true ∧ t = (InvalidateRoutesForGateway s g).1)

/-- The states reachable from a state by moves none of which is a bulk
invalidation whose condition the entry `e` satisfies. -/
inductive ReachableSparing (e : PIORoutingEntry) (p : PIORoutingProtocol) :
    PIORoutingProtocol → Prop where
  | refl : ReachableSparing e p p
  | step (q r : PIORoutingProtocol) (hq : ReachableSparing e p q) (hs : Step q r)
      (hspare : ¬ BulkMatch q r e) : ReachableSparing e p r

/-! The table dump (`pior.cc`). -/

/-- Modelled from the spec: `Simulator::GetDelayLeft` of ns3/simulator.h,
which is not among the sources: the time remaining until the event the handle
refers to ("seconds remaining until the entry's next scheduled event"), and
zero when the handle refers to no pending event (an empty handle, an event
that has run or was cancelled). -/
def Simulator.GetDelayLeft (sim : Simulator) (id : EventId) : Time :=
  match id with
  | none => 0
  | some uid =>
    match sim.events.find? fun e => decide (e.uid = uid) with
    | none => 0
    | some e => if e.cancelled then 0 else e.ts - sim.now

/-- One line of the dump of `PrintRoutingTable`, column by column; the last
column is the result of `Simulator::GetDelayLeft (it->second)`. -/
structure DumpRow where
  destination : Ipv4Address
  mask : Ipv4Mask
  gateway : Ipv4Address
  interface : Nat
  sequenceNo : Nat
  metric : Nat
  validity : String
  changed : Bool
  expireIn : Time
  deriving DecidableEq, Repr

/-- `PIORoutingProtocol::PrintRoutingTable`, a `const` member function: the
lines written for the records of the table when `m_print` is `MAIN_R_TABLE`
(the header lines are left out), and none otherwise. -/
def PrintRoutingTable (p : PIORoutingProtocol) : List DumpRow :=
  match p.m_print with
  | PrintingOption.MAIN_R_TABLE =>
    p.m_routing.map fun it =>
      { destination := it.route.m_dest
        mask := it.route.m_destNetworkMask
        gateway := it.route.m_gateway
        interface := it.route.m_interface
        sequenceNo := it.route.m_sequenceNo
        metric := it.route.m_metric
        validity :=
          match it.route.m_validity with
          | Validity.VALID => "VALID"
          | Validity.INVALID => "INVALID"
          | Validity.LHOST => "Loc. Host"
        changed := it.route.m_changed
        expireIn := p.sim.GetDelayLeft it.event }
  | _ => []

/-! The split-horizon policy. -/

/-- Modelled from the spec: the selection of the entries to advertise out an
interface. The sources declare `SplitHorizonType` and the member
`m_splitHorizonStrategy` and set it from the attribute `SplitHorizon`; the
function that reads it is not among them. In the words of the spec:
`NoSplitHorizon` advertises every entry regardless of learned interface,
`SplitHorizon` suppresses entries learned via that interface, and
`PoisonReverse` still advertises them but with a poisoned metric
(`poisonedMetric`, the maximum/invalid metric, is a parameter). -/
def selectAdvertised (strategy : SplitHorizonType) (poisonedMetric : Nat) (interface : Nat)
    (entries : List PIORoutingEntry) : List PIORoutingEntry :=
  match strategy with
  | SplitHorizonType.NO_SPLIT_HORIZON => entries
  | SplitHorizonType.SPLIT_HORIZON =>
    entries.filter fun e => decide (e.m_interface ≠ interface)
  | SplitHorizonType.POISON_REVERSE =>
    entries.map fun e =>
      if e.m_interface = interface then { e with m_metric := poisonedMetric } else e

/-! Moves that add no route on an interface. -/

/-- The state `t` is what an add operation called with the interface `i`
makes of the state `s`. -/
def AddsOn (s t : PIORoutingProtocol) (i : Nat) : Prop :=
  (∃ host metric sequenceNo timeoutTime garbageCollectionTime rnd,
    t = AddHostRouteTo s host i metric sequenceNo timeoutTime garbageCollectionTime rnd) ∨
  (∃ network networkMask nextHop metric sequenceNo timeoutTime garbageCollectionTime rnd,
    t = AddNetworkRouteTo s network networkMask nextHop i metric sequenceNo timeoutTime
      garbageCollectionTime rnd) ∨
  (∃ network networkMask metric sequenceNo timeoutTime garbageCollectionTime rnd,
    t = AddNetworkRouteToInterface s network networkMask i metric sequenceNo timeoutTime
      garbageCollectionTime rnd) ∨
  (∃ nextHop, t = AddDefaultRouteTo s nextHop i)

/-- The states reachable from a state by moves none of which adds a route on
the interface `i`. -/
inductive ReachableAvoiding (i : Nat) (p : PIORoutingProtocol) :
    PIORoutingProtocol → Prop where
  | refl : ReachableAvoiding i p p
  | step (q r : PIORoutingProtocol) (hq : ReachableAvoiding i p q) (hs : Step q r)
      (havoid : ¬ AddsOn q r i) : ReachableAvoiding i p r

/-! The queue discipline (`aqm.cc`). -/

/-- The constants that the header of the queue, which is not among the
sources, defines, taken as parameters: the two shifts, and the width in bits
of the member `m_recInvSqrt`. -/
structure AqmHeader where
  AQM_SHIFT : Nat
  REC_INV_SQRT_SHIFT : Nat
  REC_INV_SQRT_BITS : Nat
  deriving DecidableEq, Repr

/-- A value brought into `uint32_t`. The counters, limits and times of the
queue are 32 bits wide (`MakeUintegerChecker<uint32_t>`, `Uint32Callback` and
the `uint32_t` signatures of `aqm.cc`). -/
def u32 (n : Nat) : Nat := n % 2 ^ 32

/-- The difference of two `uint32_t`. -/
def u32sub (a b : Nat) : Nat := (a % 2 ^ 32 + 2 ^ 32 - b % 2 ^ 32) % 2 ^ 32

/-- A value brought into `uint64_t`. -/
def u64 (n : Nat) : Nat := n % 2 ^ 64

/-- The difference of two `uint64_t`. -/
def u64sub (a b : Nat) : Nat := (a % 2 ^ 64 + 2 ^ 64 - b % 2 ^ 64) % 2 ^ 64

/-- The conversion `(int)(a)` of a `uint32_t`. -/
def toInt32 (a : Nat) : Int :=
  if a % 2 ^ 32 < 2 ^ 31 then ((a % 2 ^ 32 : Nat) : Int) else ((a % 2 ^ 32 : Nat) : Int) - 2 ^ 32

/-- An integer brought into `int`: the result of an `int` operation, taken
with two's-complement wrap-around. -/
def wrapInt32 (x : Int) : Int := (x + 2 ^ 31) % 2 ^ 32 - 2 ^ 31

/-- An integer converted to `uint32_t`. -/
def u32OfInt (x : Int) : Nat := (x % 2 ^ 32).toNat

/-- `AqmQueue::AqmTimeAfter`: `(int)(a) - (int)(b) > 0`. -/
def AqmTimeAfter (a b : Nat) : Bool := decide (wrapInt32 (toInt32 a - toInt32 b) > 0)

/-- `AqmQueue::AqmTimeAfterEq`: `(int)(a) - (int)(b) >= 0`. -/
def AqmTimeAfterEq (a b : Nat) : Bool := decide (wrapInt32 (toInt32 a - toInt32 b) ≥ 0)

/-- `AqmQueue::AqmTimeBefore`: `(int)(a) - (int)(b) < 0`. -/
def AqmTimeBefore (a b : Nat) : Bool := decide (wrapInt32 (toInt32 a - toInt32 b) < 0)

/-- `AqmQueue::AqmTimeBeforeEq`: `(int)(a) - (int)(b) <= 0`. -/
def AqmTimeBeforeEq (a b : Nat) : Bool := decide (wrapInt32 (toInt32 a - toInt32 b) ≤ 0)

/-- `ReciprocalDivide (A, R)`: `(uint32_t)(((uint64_t)A * R) >> 32)`. -/
def ReciprocalDivide (A R : Nat) : Nat := u32 (u64 (u32 A * u32 R) / 2 ^ 32)

/-- `AqmGetTime ()`: the nanoseconds of `Simulator::Now ()`, as `uint64_t`,
shifted right and returned as `uint32_t`. -/
def AqmGetTime (h : AqmHeader) (simNow : Time) : Nat :=
  u32 ((simNow % 2 ^ 64).toNat / 2 ^ h.AQM_SHIFT)

/-- `AqmQueue::Time2Aqm (t)`: the nanoseconds of `t`, a signed 64-bit
integer, shifted right and returned as `uint32_t`. -/
def Time2Aqm (h : AqmHeader) (t : Time) : Nat :=
  u32OfInt (t / 2 ^ h.AQM_SHIFT)

/-- What the queue reads of a `Packet`: its identity, `GetSize ()`, and the
creation time of the `AqmTimestampTag` in its packet tag list, if there is
one. -/
structure AqmPacket where
  uid : Nat
  size : Nat
  packetTag : Option Time
  deriving DecidableEq, Repr

/-- `Queue::QueueMode`. -/
inductive QueueMode where
  | QUEUE_MODE_PACKETS
  | QUEUE_MODE_BYTES
  deriving DecidableEq, Repr

/-- The two functions `OkToDrop` hands to the simulator. -/
inductive AqmCallback where
  | AqmSetWait
  | AqmSetNoWait
  deriving DecidableEq, Repr

/-- The state of one `AqmQueue`, with the static members `sm_lowDelay` and
`sm_highDelay`, the variable `randv`, and what the queue has handed to the
outside: `dropped` lists the packets passed to `Drop`, in order, and
`scheduled` the calls of `Simulator::ScheduleNow` and `Simulator::Schedule`
with the time passed. The front of `m_packets` is the head of the list.
`randv`, declared in the header, is taken as `uint32_t` (the comment at its
test reads 1% * 2^32). -/
structure AqmQueue where
  m_mode : QueueMode
  m_packets : List AqmPacket
  m_maxPackets : Nat
  m_maxBytes : Nat
  m_minBytes : Nat
  m_bytesInQueue : Nat
  m_count : Nat
  m_dropCount : Nat
  m_lastCount : Nat
  m_dropping : Bool
  m_recInvSqrt : Nat
  m_firstAboveTime : Nat
  m_dropNext : Nat
  m_state1 : Nat
  m_state2 : Nat
  m_state3 : Nat
  m_states : Nat
  m_dropOverLimit : Nat
  m_sojourn : Time
  m_interval : Time
  m_target : Time
  m_lowDelay : Time
  m_highDelay : Time
  sm_lowDelay : Time
  sm_highDelay : Time
  randv : Nat
  dropped : List AqmPacket
  scheduled : List (Time × AqmCallback)
  deriving DecidableEq, Repr

/-- `AqmQueue::NewtonStep`. -/
def NewtonStep (h : AqmHeader) (q : AqmQueue) : AqmQueue :=
  let invsqrt := u32 (u32 q.m_recInvSqrt * 2 ^ h.REC_INV_SQRT_SHIFT)
  let invsqrt2 := u32 (u64 (invsqrt * invsqrt) / 2 ^ 32)
  let val := u64sub (3 * 2 ^ 32) (u64 (q.m_count * invsqrt2))
  let val := val / 4
  let val := u64 (val * invsqrt) / 2 ^ (32 - 2 + 1)
  { q with m_recInvSqrt := (val / 2 ^ h.REC_INV_SQRT_SHIFT) % 2 ^ h.REC_INV_SQRT_BITS }

/-- `AqmQueue::ControlLaw (t)`. -/
def ControlLaw (h : AqmHeader) (q : AqmQueue) (t : Nat) : Nat :=
  u32 (t + ReciprocalDivide (Time2Aqm h q.m_interval)
    (u32 (q.m_recInvSqrt * 2 ^ h.REC_INV_SQRT_SHIFT)))

/-- `AqmQueue::DoEnqueue (p)` at the simulation time `simNow`: the state left
and the value returned. -/
def DoEnqueue (q : AqmQueue) (simNow : Time) (p : AqmPacket) : AqmQueue × Bool :=
  let q := { q with sm_lowDelay := q.m_lowDelay, sm_highDelay := q.m_highDelay }
  if q.m_mode = QueueMode.QUEUE_MODE_PACKETS ∧ q.m_packets.length + 1 > q.m_maxPackets then
    ({ q with dropped := q.dropped ++ [p], m_dropOverLimit := u32 (q.m_dropOverLimit + 1) },
      false)
  else if q.m_mode = QueueMode.QUEUE_MODE_BYTES ∧
      u32 (q.m_bytesInQueue + p.size) > q.m_maxBytes then
    ({ q with dropped := q.dropped ++ [p], m_dropOverLimit := u32 (q.m_dropOverLimit + 1) },
      false)
  else
    let p := { p with packetTag := some simNow }
    ({ q with
        m_bytesInQueue := u32 (q.m_bytesInQueue + p.size)
        m_packets := q.m_packets ++ [p] },
      true)

/-- `AqmQueue::OkToDrop (p, now)` at the simulation time `simNow`: the state
left, the packet with its tag removed, and the value returned. The assertion
that the tag is found is a fault. -/
def OkToDrop (h : AqmHeader) (q : AqmQueue) (p : AqmPacket) (now : Nat) (simNow : Time) :
    Except Fault (AqmQueue × AqmPacket × Bool) :=
  let q := { q with randv := u32 (q.randv * 1664525 + 1013904223) }
  match p.packetTag with
  | none => Except.error Fault.assertFailed
  | some txTime =>
    let p := { p with packetTag := none }
    let delta := simNow - txTime
    let q := { q with m_sojourn := delta }
    let sojournTime := Time2Aqm h delta
    if AqmTimeBefore sojournTime (Time2Aqm h q.m_target) ||
        decide (q.m_bytesInQueue < q.m_minBytes) then
      Except.ok ({ q with m_firstAboveTime := 0 }, p, false)
    else
      let q :=
        if q.m_firstAboveTime = 0 then
          { q with m_firstAboveTime := u32 (now + Time2Aqm h q.m_interval) }
        else if AqmTimeAfter now q.m_firstAboveTime then
          { q with m_state1 := u32 (q.m_state1 + 1) }
        else q
      let okToDrop := decide (q.randv < 42949673)
      let q :=
        if okToDrop = true ∧ q.m_highDelay > 0 then
          { q with
            scheduled := q.scheduled ++
              [(0, AqmCallback.AqmSetWait), (simNow + 500000000, AqmCallback.AqmSetNoWait)] }
        else q
      Except.ok (q, p, okToDrop)

/-- The `while` loop of `DoDequeue`, entered with the packet `p` in hand;
`packets` is `m_packets`. The result is `none` where the loop returns 0. -/
def dropLoop (h : AqmHeader) (simNow : Time) (now : Nat) :
    List AqmPacket → AqmQueue → AqmPacket → Except Fault (AqmQueue × Option AqmPacket)
  | packets, q, p =>
    if q.m_dropping = true ∧ AqmTimeAfterEq now q.m_dropNext = true then
      let q := NewtonStep h
        { q with
          dropped := q.dropped ++ [p]
          m_dropCount := u32 (q.m_dropCount + 1)
          m_count := u32 (q.m_count + 1) }
      match packets with
      | [] => Except.ok ({ q with m_dropping := false, m_states := u32 (q.m_states + 1) }, none)
      | front :: rest =>
        let q := { q with
          m_packets := rest
          m_bytesInQueue := u32sub q.m_bytesInQueue front.size }
        match OkToDrop h q front now simNow with
        | Except.error e => Except.error e
        | Except.ok (q, p, okToDrop) =>
          let q :=
            if okToDrop then { q with m_dropNext := ControlLaw h q q.m_dropNext }
            else { q with m_dropping := false }
          dropLoop h simNow now rest q p
    else Except.ok (q, some p)

/-- The end of the branch of `DoDequeue` that enters the dropping state:
from `++m_state3` to the assignment of `m_dropNext`. -/
def enterDropping (h : AqmHeader) (q : AqmQueue) (now : Nat) : AqmQueue :=
  let q := { q with m_state3 := u32 (q.m_state3 + 1) }
  let delta := toInt32 (u32sub q.m_count q.m_lastCount)
  let q :=
    if delta > 1 ∧
        AqmTimeBefore (u32sub now q.m_dropNext) (u32 (16 * Time2Aqm h q.m_interval)) = true then
      NewtonStep h { q with m_count := u32OfInt delta }
    else
      { q with
        m_count := 1
        m_recInvSqrt := ((2 ^ 32 - 1) / 2 ^ h.REC_INV_SQRT_SHIFT) % 2 ^ h.REC_INV_SQRT_BITS }
  let q := { q with m_lastCount := q.m_count }
  { q with m_dropNext := ControlLaw h q now }

/-- `AqmQueue::DoDequeue ()` at the simulation time `simNow`: the state left
and the packet returned (`none` is 0). -/
def DoDequeue (h : AqmHeader) (q : AqmQueue) (simNow : Time) :
    Except Fault (AqmQueue × Option AqmPacket) :=
  match q.m_packets with
  | [] => Except.ok ({ q with m_dropping := false, m_firstAboveTime := 0 }, none)
  | front :: rest =>
    let now := AqmGetTime h simNow
    let q := { q with
      m_packets := rest
      m_bytesInQueue := u32sub q.m_bytesInQueue front.size }
    match OkToDrop h q front now simNow with
    | Except.error e => Except.error e
    | Except.ok (q, p, okToDrop) =>
      if q.m_dropping then
        if !okToDrop then
          Except.ok ({ q with m_dropping := false, m_states := u32 (q.m_states + 1) }, some p)
        else if AqmTimeAfterEq now q.m_dropNext then
          let q := { q with m_state2 := u32 (q.m_state2 + 1) }
          match dropLoop h simNow now q.m_packets q p with
          | Except.error e => Except.error e
          | Except.ok (q, none) => Except.ok (q, none)
          | Except.ok (q, some p) =>
            Except.ok ({ q with m_states := u32 (q.m_states + 1) }, some p)
        else Except.ok ({ q with m_states := u32 (q.m_states + 1) }, some p)
      else if okToDrop then
        let q := { q with m_dropCount := u32 (q.m_dropCount + 1), dropped := q.dropped ++ [p] }
        match q.m_packets with
        | [] =>
          let q := { q with m_dropping := false, m_states := u32 (q.m_states + 1) }
          let q := enterDropping h q now
          Except.ok ({ q with m_states := u32 (q.m_states + 1) }, some p)
        | next :: rest =>
          let q := { q with
            m_packets := rest
            m_bytesInQueue := u32sub q.m_bytesInQueue next.size }
          match OkToDrop h q next now simNow with
          | Except.error e => Except.error e
          | Except.ok (q, p, _) =>
            let q := enterDropping h { q with m_dropping := true } now
            Except.ok ({ q with m_states := u32 (q.m_states + 1) }, some p)
      else Except.ok ({ q with m_states := u32 (q.m_states + 1) }, some p)

/-- A call of the queue: `DoEnqueue (p)` or `DoDequeue ()`, at a simulation
time. -/
inductive AqmCall where
  | enqueue (p : AqmPacket) (simNow : Time)
  | dequeue (simNow : Time)
  deriving DecidableEq, Repr

/-- A sequence of calls of `DoEnqueue` and `DoDequeue`, one after the other:
the state left. -/
def runCalls (h : AqmHeader) : AqmQueue → List AqmCall → Except Fault AqmQueue
  | q, [] => Except.ok q
  | q, AqmCall.enqueue p simNow :: calls => runCalls h (DoEnqueue q simNow p).1 calls
  | q, AqmCall.dequeue simNow :: calls =>
    match DoDequeue h q simNow with
    | Except.error e => Except.error e
    | Except.ok (q, _) => runCalls h q calls

/-- The number of bytes held in the queue: the sum of the sizes of the
packets of `m_packets`. -/
def bytesHeld (q : AqmQueue) : Nat := (q.m_packets.map fun p => p.size).sum

/-! A sample node, used to instantiate the results below. -/

/-- A stack with the loopback interface 0 and three more interfaces; the
device of interface `i` is `100 + i`, and every interface but the last is up
and has forwarding enabled. -/
def sampleIpv4 : Ipv4 :=
  { GetNInterfaces := 4
    GetNAddresses := fun _ => 1
    GetLocal := fun j _ =>
      match j with
      | 0 => 0x7f000001
      | 1 => 0xc0a81001
      | 2 => 0x0f101001
      | _ => 0xcb0f1301
    IsForwarding := fun i => decide (i < 3)
    IsUp := fun i => decide (i ≠ 3)
    GetNetDevice := fun i => if i < 4 then some (100 + i) else none
    GetInterfaceForDevice := fun dev =>
      match dev with
      | none => -1
      | some d => if 100 ≤ d ∧ d < 104 then (d : Int) - 100 else -1
    SelectSourceAddress := fun _ _ _ => 0 }

/-- A protocol instance as its constructor leaves it, with the default
`GarbageCollection` attribute (10 s, in nanoseconds). -/
def freshProtocol : PIORoutingProtocol :=
  { m_routing := []
    m_ipv4 := none
    m_initialized := false
    m_garbageCollectionDelay := 10000000000
    m_sendSocketList := []
    m_recvSocket := none
    m_nextKeepAliveMessage := none
    m_nextTriggeredUpdate := none
    m_nextPeriodicUpdate := none
    m_print := PrintingOption.DONT_PRINT
    m_splitHorizonStrategy := SplitHorizonType.SPLIT_HORIZON
    heapNew := fun k => k
    heapCount := 0
    sim := { now := 0, nextUid := 4, events := [] } }

/-- The instance once attached to the sample stack. -/
def attachedProtocol : PIORoutingProtocol :=
  { freshProtocol with m_ipv4 := some sampleIpv4 }

/-- The table `DoInitialize` builds on node 2 (first the loopback host
route, then three interface routes, then four routes through gateways with
a 500 s timeout), every random draw being 0. -/
def node2 : PIORoutingProtocol :=
  let p0 := AddHostRouteTo attachedProtocol 0x7f000001 0 0 2 0 0 0
  let p1 := AddNetworkRouteToInterface p0 0xc0a81000 0xfffffffc 1 0 2 0 0 0
  let p2 := AddNetworkRouteToInterface p1 0x0f101000 0xffffff00 2 0 2 0 0 0
  let p3 := AddNetworkRouteToInterface p2 0xcb0f1300 0xffffff00 3 0 2 0 0 0
  let p4 := AddNetworkRouteTo p3 0xac100100 0xfffffffc 0xcb0f1302 3 3 4 500000000000
    500000000000 0
  let p5 := AddNetworkRouteTo p4 0x0a0a0a00 0xffffff00 0x0f101002 2 2 4 500000000000
    500000000000 0
  let p6 := AddNetworkRouteTo p5 0x0b767e00 0xffffff00 0x0f101002 2 1 2 500000000000
    500000000000 0
  AddNetworkRouteTo p6 0xc90d0f00 0xffffff00 0x0f101002 2 1 2 500000000000 500000000000 0

/-- Node 2 with a default route through 15.16.16.2 on interface 2 added to
its table. -/
def node2WithDefault : PIORoutingProtocol :=
  AddDefaultRouteTo node2 0x0f101002 2

/-- A table built by two additions: first a default route through
15.16.16.2 on interface 2, then a route for 224.0.0.0/24 through 10.0.0.1 on
interface 1. -/
def overlapTable : PIORoutingProtocol :=
  AddNetworkRouteTo (AddDefaultRouteTo attachedProtocol 0x0f101002 2) 0xe0000000 0xffffff00
    0x0a000001 1 4 2 500000000000 500000000000 0

/-- A table holding twice the same route (10.10.10.0/24 through 15.16.16.2
on interface 2, metric 2, sequence number 4), added by two calls. -/
def twinTable : PIORoutingProtocol :=
  AddNetworkRouteTo
    (AddNetworkRouteTo attachedProtocol 0x0a0a0a00 0xffffff00 0x0f101002 2 2 4 500000000000
      500000000000 0)
    0x0a0a0a00 0xffffff00 0x0f101002 2 2 4 500000000000 500000000000 0

/-- The state after two calls on a fresh instance: the overload of
`AddNetworkRouteTo` without gateway for 193.168.16.0/30 on interface 1 with
metric 42, sequence number 8 and both times 500 s (random draw 0), then
`InvalidateRoutesForInterface (1)`. -/
def leakState : PIORoutingProtocol :=
  (InvalidateRoutesForInterface
    (AddNetworkRouteToInterface freshProtocol 0xc1a81000 0xfffffffc 1 42 8 500000000000
      500000000000 0) 1).1

/-- The state the next turn of the scheduler leaves (the state itself when
no event is left). -/
def runNext (p : PIORoutingProtocol) : PIORoutingProtocol :=
  (ProcessOneEvent p).getD p

/-- A fresh attached instance on a heap where the second
`new PIORoutingEntry` of the run returns the address the first one returned,
address 0. -/
def recyclingProtocol : PIORoutingProtocol :=
  { attachedProtocol with heapNew := fun k => k - 1 }

/-- The state at 10 s after three moves on that heap: the overload of
`AddNetworkRouteTo` without gateway for 193.168.16.0/30 on interface 1 with
both times 500 s (random draw 0), which allocates the entry at address 0;
`InvalidateRoutesForInterface (1)`; and the scheduler running the
`DeleteRoute` event, due at 10 s, which removes the entry and frees address
0. -/
def staleState : PIORoutingProtocol :=
  runNext (InvalidateRoutesForInterface
    (AddNetworkRouteToInterface recyclingProtocol 0xc1a81000 0xfffffffc 1 42 8 500000000000
      500000000000 0) 1).1

/-- The state after `AddHostRouteTo (127.0.0.1, 0, ...)` is called in
`staleState`. -/
def loopbackOnStale : PIORoutingProtocol :=
  AddHostRouteTo staleState loopbackAddress 0 0 2 0 0 0

/-- The state after the overload of `AddNetworkRouteTo` without gateway is
called in `staleState` for 15.16.16.0/24 on interface 2 with `timeoutTime`
and `garbageCollectionTime` both zero. -/
def interfaceOnStale : PIORoutingProtocol :=
  AddNetworkRouteToInterface staleState 0x0f101000 0xffffff00 2 0 2 0 0 0

/-- The state after the overload of `AddNetworkRouteTo` with gateway is
called in `staleState` for 10.10.10.0/24 through 15.16.16.2 on interface 2
with a timeout of 500 s (random draw 0). -/
def gatewayOnStale : PIORoutingProtocol :=
  AddNetworkRouteTo staleState 0x0a0a0a00 0xffffff00 0x0f101002 2 2 4 500000000000
    500000000000 0

/-- The record `AddHostRouteTo` builds for 127.0.0.1 on an interface. -/
def localHostRecord (ptr interface : Nat) : RouteTableRecord :=
  { ptr := ptr
    route :=
      { m_dest := loopbackAddress, m_destNetworkMask := Ipv4Mask.GetOnes,
        m_gateway := Ipv4Address.GetZero, m_interface := interface, m_sequenceNo := 0,
        m_metric := 0, m_changed := false, m_validity := Validity.LHOST }
    event := none }

/-- The record of node 2 for 172.16.1.0/30 through 203.15.19.2 on interface
3 (metric 3, sequence number 4): the fifth entry added, whose invalidation
event was the first event scheduled. -/
def node2GatewayRecord : RouteTableRecord :=
  { ptr := 4
    route :=
      { m_dest := 0xac100100, m_destNetworkMask := 0xfffffffc, m_gateway := 0xcb0f1302,
        m_interface := 3, m_sequenceNo := 4, m_metric := 3, m_changed := true,
        m_validity := Validity.VALID }
    event := some 4 }

/-- The older of the two records of `twinTable`. -/
def twinOlder : RouteTableRecord :=
  { ptr := 0
    route :=
      { m_dest := 0x0a0a0a00, m_destNetworkMask := 0xffffff00, m_gateway := 0x0f101002,
        m_interface := 2, m_sequenceNo := 4, m_metric := 2, m_changed := true,
        m_validity := Validity.VALID }
    event := some 4 }

/-- The newer of the two records of `twinTable`. -/
def twinNewer : RouteTableRecord :=
  { ptr := 1
    route :=
      { m_dest := 0x0a0a0a00, m_destNetworkMask := 0xffffff00, m_gateway := 0x0f101002,
        m_interface := 2, m_sequenceNo := 4, m_metric := 2, m_changed := true,
        m_validity := Validity.VALID }
    event := some 5 }

/-- The state after one call on a fresh attached instance: the overload of
`AddNetworkRouteTo` with gateway for 10.10.10.0/24 through 15.16.16.2 on
interface 2, with `timeoutTime` and `garbageCollectionTime` both zero and a
random draw of 2 s. -/
def zeroTimeoutState : PIORoutingProtocol :=
  AddNetworkRouteTo attachedProtocol 0x0a0a0a00 0xffffff00 0x0f101002 2 2 4 0 0 2000000000

/-- The state after one call on a fresh attached instance, whose
`m_garbageCollectionDelay` is 10 s: the overload of `AddNetworkRouteTo` with
gateway for 172.16.1.0/30 through 203.15.19.2 on interface 3, with
`timeoutTime` and `garbageCollectionTime` both 500 s and a random draw of 0,
as `DoInitialize` calls it on node 2. -/
def gcState : PIORoutingProtocol :=
  AddNetworkRouteTo attachedProtocol 0xac100100 0xfffffffc 0xcb0f1302 3 3 4 500000000000
    500000000000 0

/-- A node whose IPv4 routing protocol is a list routing protocol holding
one PIO instance, as the example script installs it. -/
def listNode : Node :=
  ⟨some ⟨some (Ipv4RoutingProtocol.list [ListedProtocol.pio attachedProtocol])⟩⟩

/-- A node whose IPv4 routing protocol is a PIO instance. -/
def directNode : Node :=
  ⟨some ⟨some (Ipv4RoutingProtocol.pio attachedProtocol)⟩⟩

/-- The route table of the PIO instance that is the routing protocol of a
node, when there is one. -/
def Node.pioTable (node : Node) : Option (List RouteTableRecord) :=
  match node.ipv4 with
  | none => none
  | some ipv4 =>
    match ipv4.routingProtocol with
    | some (Ipv4RoutingProtocol.pio p) => some p.m_routing
    | _ => none

/-- A record with a `VALID`, changed entry, as the add operations build it. -/
def validRecord (ptr : Nat) (dest : Ipv4Address) (mask : Ipv4Mask) (gateway : Ipv4Address)
    (interface metric sequenceNo : Nat) (event : EventId) : RouteTableRecord :=
  { ptr := ptr
    route :=
      { m_dest := dest, m_destNetworkMask := mask, m_gateway := gateway,
        m_interface := interface, m_sequenceNo := sequenceNo, m_metric := metric,
        m_changed := true, m_validity := Validity.VALID }
    event := event }

/-- Node 2 with two send sockets (7 on interface 1, 8 on interface 2) and
the receive socket 9 open. -/
def node2WithSockets : PIORoutingProtocol :=
  { node2 with m_sendSocketList := [(7, 1), (8, 2)], m_recvSocket := some 9 }

/-- The state after one call on a fresh instance that prints its main
table: the overload of `AddNetworkRouteTo` without gateway for
193.168.16.0/30 on interface 1 with metric 42, sequence number 8 and both
times 500 s (random draw 0). -/
def leakAdded : PIORoutingProtocol :=
  AddNetworkRouteToInterface { freshProtocol with m_print := PrintingOption.MAIN_R_TABLE }
    0xc1a81000 0xfffffffc 1 42 8 500000000000 500000000000 0

/-- The state after the same call of the overload with gateway (through
15.16.16.2). -/
def keptAdded : PIORoutingProtocol :=
  AddNetworkRouteTo { freshProtocol with m_print := PrintingOption.MAIN_R_TABLE }
    0xc1a81000 0xfffffffc 0x0f101002 1 42 8 500000000000 500000000000 0

/-- Five entries to advertise: two learned on interface 1, two on interface
2 and one on interface 3. -/
def sampleEntries : List PIORoutingEntry :=
  [(validRecord 0 0xac100100 0xfffffffc 0xcb0f1302 3 3 4 none).route,
    (validRecord 1 0x0a0a0a00 0xffffff00 0x0f101002 2 2 4 none).route,
    (validRecord 2 0x0b767e00 0xffffff00 0x0f101002 2 1 2 none).route,
    (validRecord 3 0xc0a81000 0xfffffffc 0 1 0 2 none).route,
    (validRecord 4 0xc90d0f00 0xffffff00 0xc0a81002 1 1 2 none).route]

/-- Sample values for the constants of the header: shifts of 10 and 16 bits
and a 16-bit `m_recInvSqrt`. -/
def sampleHeader : AqmHeader :=
  { AQM_SHIFT := 10, REC_INV_SQRT_SHIFT := 16, REC_INV_SQRT_BITS := 16 }

/-- An empty queue as the constructor leaves it, in byte mode, with
`MaxPackets` 1000, `MaxBytes` 1500000, `MinBytes` 1500, an interval of
100 ms, a target of 5 ms, a low delay of 5 ms and a high delay of 200 ms;
`randv` is 0. -/
def emptyQueue : AqmQueue :=
  { m_mode := QueueMode.QUEUE_MODE_BYTES
    m_packets := []
    m_maxPackets := 1000
    m_maxBytes := 1500000
    m_minBytes := 1500
    m_bytesInQueue := 0
    m_count := 0
    m_dropCount := 0
    m_lastCount := 0
    m_dropping := false
    m_recInvSqrt := 65535
    m_firstAboveTime := 0
    m_dropNext := 0
    m_state1 := 0
    m_state2 := 0
    m_state3 := 0
    m_states := 0
    m_dropOverLimit := 0
    m_sojourn := 0
    m_interval := 100000000
    m_target := 5000000
    m_lowDelay := 5000000
    m_highDelay := 200000000
    sm_lowDelay := 0
    sm_highDelay := 0
    randv := 0
    dropped := []
    scheduled := [] }

/-- The empty queue with `MinBytes` set to 0 and `randv` at 3801544430, the
value it has after fourteen calls of `OkToDrop` from 0, holding one packet of
1000 bytes enqueued at time 0. -/
def lastPacketQueue : AqmQueue :=
  (DoEnqueue { emptyQueue with m_minBytes := 0, randv := 3801544430 } 0 ⟨7, 1000, none⟩).1

/-! Predicates used in the statements. -/

/-- Every packet held in the queue carries its timestamp tag, and the byte
counter is the number of bytes held, modulo 2^32. -/
def QueueInv (q : AqmQueue) : Prop :=
  (∀ p ∈ q.m_packets, p.packetTag ≠ none) ∧ q.m_bytesInQueue = bytesHeld q % 2 ^ 32


/-- No `VALID` entry of the table is on the interface `i`. -/
def NoValidOn (i : Nat) (p : PIORoutingProtocol) : Prop :=
  ∀ r ∈ p.m_routing, r.route.m_validity = Validity.VALID → r.route.m_interface ≠ i


/-- The three conditions under which the loop of `LookupRoute` stops at a
record: the entry is `VALID`, its mask matches the address against its
network, and no device was hinted or the hinted device is the device of the
entry's interface. -/
def StopsAt (ipv4 : Ipv4) (address : Ipv4Address) (dev : Ptr NetDevice)
    (r : RouteTableRecord) : Prop :=
  r.route.m_validity = Validity.VALID ∧
    IsMatch r.route.m_destNetworkMask address r.route.m_dest = true ∧
    (dev = none ∨ dev = ipv4.GetNetDevice r.route.m_interface)

/-- The state `q` is `p` with one record pushed on the front of the table:
the table of `q` is a new record followed by the table of `p`, so the length
grows by one and the record at position `i` is found at position `i + 1`
with the same entry and the same `EventId`; and every event the simulator
held is still held, unchanged, in the same order. -/
def PushedFront (p q : PIORoutingProtocol) : Prop :=
  (∃ r, q.m_routing = r :: p.m_routing) ∧
    q.m_routing.length = p.m_routing.length + 1 ∧
    (∀ i, q.m_routing[i + 1]? = p.m_routing[i]?) ∧
    p.sim.events <+: q.sim.events ∧
    q.sim.now = p.sim.now

/-- What holds of a table and a simulator that the protocol has built: the
pointers of the table, addresses of live entries, are pairwise distinct; the
uids of the events and of the handles kept in the table were handed out by
the simulator; and the event a handle refers to carries the pointer of the
record that keeps the handle. Nothing is said of the pointer an event
carries when no handle refers to the event: it can be the address of an
entry that was deleted, and of the entry allocated there since. -/
structure TableInv (tbl : List RouteTableRecord) (sim : Simulator) : Prop where
  ptr_nodup : (tbl.map fun r => r.ptr).Nodup
  uid_lt : ∀ e ∈ sim.events, e.uid < sim.nextUid
  handle_lt : ∀ r ∈ tbl, ∀ u, r.event = some u → u < sim.nextUid
  handle_own : ∀ r ∈ tbl, ∀ e ∈ sim.events, r.event = some e.uid → e.action.route = r.ptr

/-- A well-formed state of the protocol. -/
def WellFormed (p : PIORoutingProtocol) : Prop :=
  TableInv p.m_routing p.sim

/-- Distinct records of the table hold distinct pointers. -/
def DistinctPtrs (p : PIORoutingProtocol) : Prop :=
  (p.m_routing.map fun r => r.ptr).Nodup

/-- The pointers, in table order, of the records whose entry satisfies
`cond`. -/
def matchingPtrs (cond : PIORoutingEntry → Bool) (tbl : List RouteTableRecord) : List Nat :=
  (tbl.filter fun r => cond r.route).map fun r => r.ptr

/-- `InvalidateRoute` applied in turn to each pointer of a list. -/
def invalidateEach (p : PIORoutingProtocol) (routes : List Nat) : PIORoutingProtocol :=
  routes.foldl InvalidateRoute p

/-- The entry of a record once invalidated. -/
def invalidated (e : PIORoutingEntry) : PIORoutingEntry :=
  { e with m_validity := Validity.INVALID, m_changed := true }

/-- `InvalidateRoute` on a table and a simulator taken as a pair. -/
def invalidateRouteStep (gc : Time) (ts : List RouteTableRecord × Simulator) (route : Nat) :
    List RouteTableRecord × Simulator :=
  invalidateRouteLoop gc route ts.2 ts.1

/-- The predicate of `InvalidateRoutesForInterface` in the words of the
specification: the entry is `Valid` and its interface equals the given id. -/
def validOnInterface (interface : Nat) (e : PIORoutingEntry) : Bool :=
  decide (e.m_validity = Validity.VALID ∧ e.m_interface = interface)

/-- The predicate of `InvalidateBrokenRoutes` in the words of the
specification: the entry is `Valid` and its destination network and mask
both equal the given pair. -/
def validForPrefix (destination : Ipv4Address) (destinationMask : Ipv4Mask)
    (e : PIORoutingEntry) : Bool :=
  decide (e.m_validity = Validity.VALID ∧ e.m_dest = destination ∧
    e.m_destNetworkMask = destinationMask)

/-- The predicate of `InvalidateRoutesForGateway` in the words of the
specification: the entry is `Valid` and its gateway equals the given
address. -/
def validViaGateway (gateway : Ipv4Address) (e : PIORoutingEntry) : Bool :=
  decide (e.m_validity = Validity.VALID ∧ e.m_gateway = gateway)

/-- A bulk invalidation in the words of the specification:
`InvalidateRoute` applied, in table order, to exactly the entries that
satisfy the predicate, and to no others. -/
def invalidateMatching (p : PIORoutingProtocol) (pred : PIORoutingEntry → Bool) :
    PIORoutingProtocol :=
  invalidateEach p (matchingPtrs pred p.m_routing)

/-- What a bulk invalidation with predicate `pred` that takes `p` to `q` does
to each record of `p`: a record that satisfies the predicate is found in `q`
invalidated (validity `INVALID`, changed = true) with the handle of a
deletion event of its own, due at now plus `m_garbageCollectionDelay` and
not cancelled; a record that does not is found in `q` as it was. -/
def EachMatchInvalidated (p q : PIORoutingProtocol) (pred : PIORoutingEntry → Bool) : Prop :=
  ∀ r ∈ p.m_routing,
    (pred r.route = true →
      ∃ u, (⟨r.ptr, invalidated r.route, some u⟩ : RouteTableRecord) ∈ q.m_routing ∧
        (⟨u, p.sim.now + p.m_garbageCollectionDelay, Action.DeleteRoute r.ptr, false⟩ :
          ScheduledEvent) ∈ q.sim.events) ∧
    (pred r.route = false → r ∈ q.m_routing)

/-- The uids of the events the simulator holds are pairwise distinct and
were handed out by it. -/
def FreshUids (sim : Simulator) : Prop :=
  (sim.events.map fun e => e.uid).Nodup ∧ ∀ e ∈ sim.events, e.uid < sim.nextUid

/-- The record `r` is in the table and no event of the simulator carries its
pointer: the entry has no timer. -/
def Untimed (s : PIORoutingProtocol) (r : RouteTableRecord) : Prop :=
  r ∈ s.m_routing ∧ ∀ e ∈ s.sim.events, e.action.route ≠ r.ptr

/-- The record `r` is in the table, unchanged since it was added, and its
invalidation event `e0` is held by the simulator, as it was scheduled; `e0`
is the only event that carries the pointer of `r`. The state is well
formed. -/
def TimerPending (s : PIORoutingProtocol) (r : RouteTableRecord) (e0 : ScheduledEvent) :
    Prop :=
  WellFormed s ∧ FreshUids s.sim ∧ r ∈ s.m_routing ∧ e0 ∈ s.sim.events ∧
    ∀ e ∈ s.sim.events, e.action.route = r.ptr → e = e0

/-- The state `q` is what an add operation that schedules an invalidation
timer makes of `p`, for a route with timeout `timeoutTime` and a random draw
`rnd`: `AddHostRouteTo` for a host other than 127.0.0.1, the overload of
`AddNetworkRouteTo` with gateway for a destination other than 0.0.0.0/0, or
the overload without gateway when the two times are not both zero. -/
def SchedulingAdd (p q : PIORoutingProtocol) (timeoutTime rnd : Time) : Prop :=
  (∃ host interface metric sequenceNo garbageCollectionTime,
    host ≠ loopbackAddress ∧
      q = AddHostRouteTo p host interface metric sequenceNo timeoutTime
        garbageCollectionTime rnd) ∨
  (∃ network networkMask nextHop interface metric sequenceNo garbageCollectionTime,
    ¬ (network = 0 ∧ networkMask = Ipv4Mask.GetZero) ∧
      q = AddNetworkRouteTo p network networkMask nextHop interface metric sequenceNo
        timeoutTime garbageCollectionTime rnd) ∨
  (∃ network networkMask interface metric sequenceNo garbageCollectionTime,
    ¬ (timeoutTime = 0 ∧ garbageCollectionTime = 0) ∧
      q = AddNetworkRouteToInterface p network networkMask interface metric sequenceNo
        timeoutTime garbageCollectionTime rnd)

/-- Every event of `b` has the uid of an event of `a` or a uid that `a` had
not handed out yet, and `b` has handed out at least the uids `a` had. -/
def UidOrigin (a b : Simulator) : Prop :=
  a.nextUid ≤ b.nextUid ∧
    ∀ x ∈ b.events, (∃ y ∈ a.events, y.uid = x.uid) ∨ a.nextUid ≤ x.uid

/-- The uid `u` was handed out and no event of the simulator has it: the
event has left the event list. -/
def Gone (sim : Simulator) (u : Nat) : Prop :=
  u < sim.nextUid ∧ ∀ e ∈ sim.events, e.uid ≠ u

/-! Properties of the lookup engine. -/

theorem lookupLoop_cons_stop (ipv4 : Ipv4) (address : Ipv4Address) (dev : Ptr NetDevice)
    (r : RouteTableRecord) (rest : List RouteTableRecord) (h : StopsAt ipv4 address dev r) :
    lookupLoop (some ipv4) address dev (r :: rest) =
      Except.ok (some (routeOfEntry ipv4 r.route)) := by
  obtain ⟨hv, hm, hd⟩ := h
  cases dev with
  | none => simp [lookupLoop, hv, hm]
  | some d =>
    rcases hd with hd | hd
    · cases hd
    · simp [lookupLoop, hv, hm, hd]

theorem lookupLoop_cons_skip (ipv4 : Ipv4) (address : Ipv4Address) (dev : Ptr NetDevice)
    (r : RouteTableRecord) (rest : List RouteTableRecord) (h : ¬ StopsAt ipv4 address dev r) :
    lookupLoop (some ipv4) address dev (r :: rest) =
      lookupLoop (some ipv4) address dev rest := by
  unfold StopsAt at h
  by_cases hv : r.route.m_validity = Validity.VALID
  · by_cases hm : IsMatch r.route.m_destNetworkMask address r.route.m_dest = true
    · cases dev with
      | none => exact absurd ⟨hv, hm, Or.inl rfl⟩ h
      | some d =>
        have hd : ¬ (some d = ipv4.GetNetDevice r.route.m_interface) :=
          fun hd => h ⟨hv, hm, Or.inr hd⟩
        simp [lookupLoop, hv, hm, hd]
    · simp [lookupLoop, hv, hm]
  · simp [lookupLoop, hv]

/-- The loop returns the route of the first record it stops at, and no route
when it stops at none; with the stack attached it does not fault. -/
theorem lookupLoop_spec (ipv4 : Ipv4) (address : Ipv4Address) (dev : Ptr NetDevice)
    (tbl : List RouteTableRecord) :
    ((∀ r ∈ tbl, ¬ StopsAt ipv4 address dev r) ∧
        lookupLoop (some ipv4) address dev tbl = Except.ok none) ∨
      ∃ pre r post, tbl = pre ++ r :: post ∧ (∀ x ∈ pre, ¬ StopsAt ipv4 address dev x) ∧
        StopsAt ipv4 address dev r ∧
        lookupLoop (some ipv4) address dev tbl =
          Except.ok (some (routeOfEntry ipv4 r.route)) := by
  induction tbl with
  | nil => exact Or.inl ⟨by simp, rfl⟩
  | cons r rest ih =>
    by_cases h : StopsAt ipv4 address dev r
    · exact Or.inr ⟨[], r, rest, rfl, by simp, h, lookupLoop_cons_stop ipv4 address dev r rest h⟩
    · rw [lookupLoop_cons_skip ipv4 address dev r rest h]
      rcases ih with ⟨hall, hres⟩ | ⟨pre, r', post, htbl, hpre, hstop, hres⟩
      · refine Or.inl ⟨?_, hres⟩
        intro x hx
        rcases List.mem_cons.mp hx with rfl | hx
        · exact h
        · exact hall x hx
      · refine Or.inr ⟨r :: pre, r', post, by simp [htbl], ?_, hstop, hres⟩
        intro x hx
        rcases List.mem_cons.mp hx with rfl | hx
        · exact h
        · exact hpre x hx

/-- With the stack attached and an address outside 224.0.0.0/24,
`LookupRoute` is the loop over the table. -/
theorem LookupRoute_eq_loop (p : PIORoutingProtocol) (ipv4 : Ipv4) (address : Ipv4Address)
    (dev : Ptr NetDevice) (hip : p.m_ipv4 = some ipv4)
    (hm : IsLocalMulticast address = false) :
    LookupRoute p address dev = lookupLoop (some ipv4) address dev p.m_routing := by
  simp [LookupRoute, hm, hip]

/-- C1. For every route table and every destination that is not local
multicast, on a protocol attached to its stack, `LookupRoute` without
interface hint returns a route iff some entry is `VALID` and its mask
matches the address against its network; the route returned is built from
the first such entry in table order (gateway of the entry, device of the
entry's interface), and when there is no such entry the result is no route.
The choice reads neither metrics nor prefix lengths. -/
theorem C1_lookup_first_valid_match (p : PIORoutingProtocol) (ipv4 : Ipv4)
    (address : Ipv4Address) (hip : p.m_ipv4 = some ipv4)
    (hm : IsLocalMulticast address = false) :
    ((∃ rt, LookupRoute p address none = Except.ok (some rt)) ↔
        ∃ r ∈ p.m_routing, r.route.m_validity = Validity.VALID ∧
          IsMatch r.route.m_destNetworkMask address r.route.m_dest = true) ∧
      (∀ rt, LookupRoute p address none = Except.ok (some rt) →
        ∃ pre r post, p.m_routing = pre ++ r :: post ∧
          (∀ x ∈ pre, ¬ (x.route.m_validity = Validity.VALID ∧
            IsMatch x.route.m_destNetworkMask address x.route.m_dest = true)) ∧
          r.route.m_validity = Validity.VALID ∧
          IsMatch r.route.m_destNetworkMask address r.route.m_dest = true ∧
          rt.destination = r.route.m_dest ∧
          rt.gateway = r.route.m_gateway ∧
          rt.outputDevice = ipv4.GetNetDevice r.route.m_interface) ∧
      ((¬ ∃ r ∈ p.m_routing, r.route.m_validity = Validity.VALID ∧
          IsMatch r.route.m_destNetworkMask address r.route.m_dest = true) →
        LookupRoute p address none = Except.ok none) := by
  rw [LookupRoute_eq_loop p ipv4 address none hip hm]
  have key : ∀ r : RouteTableRecord, StopsAt ipv4 address none r ↔
      (r.route.m_validity = Validity.VALID ∧
        IsMatch r.route.m_destNetworkMask address r.route.m_dest = true) := by
    intro r
    simp [StopsAt]
  rcases lookupLoop_spec ipv4 address none p.m_routing with
    ⟨hall, hres⟩ | ⟨pre, r, post, htbl, hpre, hstop, hres⟩
  · rw [hres]
    refine ⟨⟨?_, ?_⟩, ?_, fun _ => rfl⟩
    · rintro ⟨rt, hrt⟩
      cases hrt
    · rintro ⟨r, hr, hvm⟩
      exact absurd ((key r).mpr hvm) (hall r hr)
    · intro rt hrt
      cases hrt
  · rw [hres]
    have hr : r ∈ p.m_routing := by simp [htbl]
    refine ⟨⟨fun _ => ⟨r, hr, (key r).mp hstop⟩, fun _ => ⟨_, rfl⟩⟩, ?_, ?_⟩
    · intro rt hrt
      have hrt' : routeOfEntry ipv4 r.route = rt := by
        simpa using hrt
      subst hrt'
      exact ⟨pre, r, post, htbl, fun x hx hvm => hpre x hx ((key x).mpr hvm),
        ((key r).mp hstop).1, ((key r).mp hstop).2, rfl, rfl, rfl⟩
    · intro hno
      exact absurd ⟨r, hr, (key r).mp hstop⟩ hno

/-- Witness of C1 on the table of node 2 for the address 172.16.1.1. -/
theorem C1_lookup_first_valid_match_witness :
    node2.m_ipv4 = some sampleIpv4 ∧ IsLocalMulticast 0xac100101 = false ∧
      ((∃ rt, LookupRoute node2 0xac100101 none = Except.ok (some rt)) ↔
        ∃ r ∈ node2.m_routing, r.route.m_validity = Validity.VALID ∧
          IsMatch r.route.m_destNetworkMask 0xac100101 r.route.m_dest = true) :=
  ⟨rfl, by decide,
    (C1_lookup_first_valid_match node2 sampleIpv4 0xac100101 rfl (by decide)).1⟩

/-! What the add operations do to the table and to the stack pointer. -/

theorem AddNetworkRouteTo_m_ipv4 (p : PIORoutingProtocol) (network : Ipv4Address)
    (networkMask : Ipv4Mask) (nextHop : Ipv4Address) (interface metric sequenceNo : Nat)
    (timeoutTime garbageCollectionTime rnd : Time) :
    (AddNetworkRouteTo p network networkMask nextHop interface metric sequenceNo timeoutTime
      garbageCollectionTime rnd).m_ipv4 = p.m_ipv4 := by
  unfold AddNetworkRouteTo
  split <;> rfl

theorem AddNetworkRouteToInterface_m_ipv4 (p : PIORoutingProtocol) (network : Ipv4Address)
    (networkMask : Ipv4Mask) (interface metric sequenceNo : Nat)
    (timeoutTime garbageCollectionTime rnd : Time) :
    (AddNetworkRouteToInterface p network networkMask interface metric sequenceNo timeoutTime
      garbageCollectionTime rnd).m_ipv4 = p.m_ipv4 := by
  unfold AddNetworkRouteToInterface
  split <;> rfl

/-- The gateway overload puts at the front a `VALID`, changed entry with the
arguments it was given. -/
theorem AddNetworkRouteTo_m_routing (p : PIORoutingProtocol) (network : Ipv4Address)
    (networkMask : Ipv4Mask) (nextHop : Ipv4Address) (interface metric sequenceNo : Nat)
    (timeoutTime garbageCollectionTime rnd : Time) :
    ∃ ev, (AddNetworkRouteTo p network networkMask nextHop interface metric sequenceNo
      timeoutTime garbageCollectionTime rnd).m_routing =
        { ptr := p.nextPtr
          route :=
            { m_dest := network, m_destNetworkMask := networkMask, m_gateway := nextHop,
              m_interface := interface, m_sequenceNo := sequenceNo, m_metric := metric,
              m_changed := true, m_validity := Validity.VALID }
          event := ev } :: p.m_routing := by
  unfold AddNetworkRouteTo
  split
  · exact ⟨none, rfl⟩
  · exact ⟨some p.sim.nextUid, rfl⟩

/-- The overload without gateway puts at the front a `VALID`, changed entry
with the arguments it was given and the gateway 0.0.0.0. -/
theorem AddNetworkRouteToInterface_m_routing (p : PIORoutingProtocol)
    (network : Ipv4Address) (networkMask : Ipv4Mask) (interface metric sequenceNo : Nat)
    (timeoutTime garbageCollectionTime rnd : Time) :
    (AddNetworkRouteToInterface p network networkMask interface metric sequenceNo
      timeoutTime garbageCollectionTime rnd).m_routing =
        { ptr := p.nextPtr
          route :=
            { m_dest := network, m_destNetworkMask := networkMask,
              m_gateway := Ipv4Address.GetZero, m_interface := interface,
              m_sequenceNo := sequenceNo, m_metric := metric, m_changed := true,
              m_validity := Validity.VALID }
          event := none } :: p.m_routing := by
  unfold AddNetworkRouteToInterface
  split <;> rfl

/-- A lookup without hint on a table whose front record is `VALID` and
matches stops at that record. -/
theorem LookupRoute_front (p : PIORoutingProtocol) (ipv4 : Ipv4) (address : Ipv4Address)
    (r : RouteTableRecord) (rest : List RouteTableRecord) (hip : p.m_ipv4 = some ipv4)
    (hm : IsLocalMulticast address = false) (htbl : p.m_routing = r :: rest)
    (hv : r.route.m_validity = Validity.VALID)
    (hmatch : IsMatch r.route.m_destNetworkMask address r.route.m_dest = true) :
    LookupRoute p address none = Except.ok (some (routeOfEntry ipv4 r.route)) := by
  rw [LookupRoute_eq_loop p ipv4 address none hip hm, htbl]
  exact lookupLoop_cons_stop ipv4 address none r rest ⟨hv, hmatch, Or.inl rfl⟩

/-- C2, as stated, fails for a local-multicast address. The table holds the
default route A and, added after it, the route B for 224.0.0.0/24 through
10.0.0.1 on interface 1, both `VALID`; 224.0.0.5 matches both prefixes, yet
the lookup without hint returns a synthesized route with gateway 0.0.0.0 and
no output device, not the route of B. -/
theorem C2_counterexample_local_multicast :
    overlapTable.m_routing.map
        (fun r => (r.route.m_dest, r.route.m_destNetworkMask, r.route.m_gateway,
          r.route.m_interface, r.route.m_validity)) =
      [(0xe0000000, 0xffffff00, 0x0a000001, 1, Validity.VALID),
        (0, 0, 0x0f101002, 2, Validity.VALID)] ∧
      IsMatch 0 0xe0000005 0 = true ∧
      IsMatch 0xffffff00 0xe0000005 0xe0000000 = true ∧
      LookupRoute overlapTable 0xe0000005 none =
        Except.ok (some ⟨0, 0xe0000005, 0, none⟩) ∧
      ¬ (∃ rt, LookupRoute overlapTable 0xe0000005 none = Except.ok (some rt) ∧
          rt.gateway = 0x0a000001) := by
  refine ⟨rfl, by decide, by decide, rfl, ?_⟩
  rintro ⟨rt, hrt, hgw⟩
  have h : LookupRoute overlapTable 0xe0000005 none =
      Except.ok (some ⟨0, 0xe0000005, 0, none⟩) := rfl
  rw [h] at hrt
  simp only [Except.ok.injEq, Option.some.injEq] at hrt
  subst hrt
  simp at hgw

/-- C2, amended. On a protocol attached to its stack, for every table and
every address that is not local multicast: right after a network route is
added (by either overload of `AddNetworkRouteTo`), a lookup without hint for
an address inside its prefix returns the route of the entry just added, with
the gateway given (0.0.0.0 for the overload without gateway) and the device
of the interface given, whatever the table held before and whatever the
prefix lengths and metrics are. -/
theorem C2_lookup_returns_latest_added (p : PIORoutingProtocol) (ipv4 : Ipv4)
    (network : Ipv4Address) (networkMask : Ipv4Mask) (nextHop : Ipv4Address)
    (interface metric sequenceNo : Nat) (timeoutTime garbageCollectionTime rnd : Time)
    (address : Ipv4Address) (hip : p.m_ipv4 = some ipv4)
    (hm : IsLocalMulticast address = false)
    (hmatch : IsMatch networkMask address network = true) :
    LookupRoute (AddNetworkRouteTo p network networkMask nextHop interface metric sequenceNo
        timeoutTime garbageCollectionTime rnd) address none =
      Except.ok (some
        { source := ipv4.SelectSourceAddress (ipv4.GetNetDevice interface) network Scope.GLOBAL
          destination := network
          gateway := nextHop
          outputDevice := ipv4.GetNetDevice interface }) ∧
    LookupRoute (AddNetworkRouteToInterface p network networkMask interface metric sequenceNo
        timeoutTime garbageCollectionTime rnd) address none =
      Except.ok (some
        { source := ipv4.SelectSourceAddress (ipv4.GetNetDevice interface) network Scope.GLOBAL
          destination := network
          gateway := Ipv4Address.GetZero
          outputDevice := ipv4.GetNetDevice interface }) := by
  constructor
  · obtain ⟨ev, htbl⟩ := AddNetworkRouteTo_m_routing p network networkMask nextHop interface
      metric sequenceNo timeoutTime garbageCollectionTime rnd
    have hip' := (AddNetworkRouteTo_m_ipv4 p network networkMask nextHop interface
      metric sequenceNo timeoutTime garbageCollectionTime rnd).trans hip
    exact LookupRoute_front _ ipv4 address _ _ hip' hm htbl rfl hmatch
  · have htbl := AddNetworkRouteToInterface_m_routing p network networkMask interface
      metric sequenceNo timeoutTime garbageCollectionTime rnd
    have hip' := (AddNetworkRouteToInterface_m_ipv4 p network networkMask interface
      metric sequenceNo timeoutTime garbageCollectionTime rnd).trans hip
    exact LookupRoute_front _ ipv4 address _ _ hip' hm htbl rfl hmatch

/-- Witness of C2: node 2 already holds a `VALID` route for 10.10.10.0/24
through 15.16.16.2 on interface 2 with metric 2; the shorter prefix
10.0.0.0/8 is added through 203.15.19.2 on interface 3 with metric 9, and the
address 10.10.10.5, which matches both, resolves through the route just
added. -/
theorem C2_lookup_returns_latest_added_witness :
    node2.m_ipv4 = some sampleIpv4 ∧ IsLocalMulticast 0x0a0a0a05 = false ∧
      IsMatch 0xff000000 0x0a0a0a05 0x0a000000 = true ∧
      LookupRoute (AddNetworkRouteTo node2 0x0a000000 0xff000000 0xcb0f1302 3 9 4
          500000000000 500000000000 0) 0x0a0a0a05 none =
        Except.ok (some
          { source := sampleIpv4.SelectSourceAddress (sampleIpv4.GetNetDevice 3) 0x0a000000
              Scope.GLOBAL
            destination := 0x0a000000
            gateway := 0xcb0f1302
            outputDevice := sampleIpv4.GetNetDevice 3 }) :=
  ⟨rfl, by decide, by decide,
    (C2_lookup_returns_latest_added node2 sampleIpv4 0x0a000000 0xff000000 0xcb0f1302 3 9 4
      500000000000 500000000000 0 0x0a0a0a05 rfl (by decide) (by decide)).1⟩

/-- C3, as stated, fails for a local-multicast address. On node 2 no entry is
`VALID`, matches 224.0.0.5 and sits on the hinted interface 1 (device 101),
yet the lookup returns a route: the synthesized one, bound to the hinted
device. -/
theorem C3_counterexample_local_multicast :
    (∀ r ∈ node2.m_routing, ¬ (r.route.m_validity = Validity.VALID ∧
        IsMatch r.route.m_destNetworkMask 0xe0000005 r.route.m_dest = true ∧
        some 101 = sampleIpv4.GetNetDevice r.route.m_interface)) ∧
      LookupRoute node2 0xe0000005 (some 101) =
        Except.ok (some ⟨0, 0xe0000005, 0, some 101⟩) ∧
      LookupRoute node2 0xe0000005 (some 101) ≠ Except.ok none := by
  refine ⟨by decide, rfl, ?_⟩
  intro h
  have h' : LookupRoute node2 0xe0000005 (some 101) =
      Except.ok (some ⟨0, 0xe0000005, 0, some 101⟩) := rfl
  rw [h'] at h
  simp at h

/-- C3, amended. On a protocol attached to its stack, for an address that is
not local multicast and a hinted device `d`: `LookupRoute` returns the route
of the first entry in table order that is `VALID`, matches the address and
whose interface has device `d`; every record before it fails one of the
three conditions (so a `VALID` matching entry on another interface is
skipped and the scan continues); and when no record satisfies all three the
result is no route. -/
theorem C3_lookup_with_hint (p : PIORoutingProtocol) (ipv4 : Ipv4) (address : Ipv4Address)
    (d : NetDevice) (hip : p.m_ipv4 = some ipv4) (hm : IsLocalMulticast address = false) :
    ((∀ r ∈ p.m_routing, ¬ (r.route.m_validity = Validity.VALID ∧
          IsMatch r.route.m_destNetworkMask address r.route.m_dest = true ∧
          some d = ipv4.GetNetDevice r.route.m_interface)) ∧
        LookupRoute p address (some d) = Except.ok none) ∨
      ∃ pre r post, p.m_routing = pre ++ r :: post ∧
        (∀ x ∈ pre, ¬ (x.route.m_validity = Validity.VALID ∧
          IsMatch x.route.m_destNetworkMask address x.route.m_dest = true ∧
          some d = ipv4.GetNetDevice x.route.m_interface)) ∧
        r.route.m_validity = Validity.VALID ∧
        IsMatch r.route.m_destNetworkMask address r.route.m_dest = true ∧
        some d = ipv4.GetNetDevice r.route.m_interface ∧
        LookupRoute p address (some d) =
          Except.ok (some
            { source := ipv4.SelectSourceAddress (ipv4.GetNetDevice r.route.m_interface)
                r.route.m_dest Scope.GLOBAL
              destination := r.route.m_dest
              gateway := r.route.m_gateway
              outputDevice := ipv4.GetNetDevice r.route.m_interface }) := by
  rw [LookupRoute_eq_loop p ipv4 address (some d) hip hm]
  have key : ∀ r : RouteTableRecord, StopsAt ipv4 address (some d) r ↔
      (r.route.m_validity = Validity.VALID ∧
        IsMatch r.route.m_destNetworkMask address r.route.m_dest = true ∧
        some d = ipv4.GetNetDevice r.route.m_interface) := by
    intro r
    simp [StopsAt]
  rcases lookupLoop_spec ipv4 address (some d) p.m_routing with
    ⟨hall, hres⟩ | ⟨pre, r, post, htbl, hpre, hstop, hres⟩
  · exact Or.inl ⟨fun r hr h => hall r hr ((key r).mpr h), hres⟩
  · obtain ⟨hv, hmt, hd⟩ := (key r).mp hstop
    exact Or.inr ⟨pre, r, post, htbl, fun x hx h => hpre x hx ((key x).mpr h), hv, hmt, hd,
      hres⟩

/-- Witness of C3 on node 2 with the default route added at the front, for
172.16.1.1 and the device of interface 3 hinted: the lookup ends with a
result, which is the route of the entry on interface 3 behind the default
route (interface 2). -/
theorem C3_lookup_with_hint_witness :
    node2WithDefault.m_ipv4 = some sampleIpv4 ∧ IsLocalMulticast 0xac100101 = false ∧
      (∃ res, LookupRoute node2WithDefault 0xac100101 (some 103) = Except.ok res) ∧
      LookupRoute node2WithDefault 0xac100101 (some 103) =
        Except.ok (some ⟨0, 0xac100100, 0xcb0f1302, some 103⟩) :=
  ⟨rfl, by decide,
    (C3_lookup_with_hint node2WithDefault sampleIpv4 0xac100101 103 rfl (by decide)).elim
      (fun h => ⟨none, h.2⟩)
      (fun ⟨_, _, _, _, _, _, _, _, h⟩ => ⟨_, h⟩),
    rfl⟩

/-! `RouteOutput`. -/

theorem RouteOutput_of_some (p : PIORoutingProtocol) (header : Ipv4Header)
    (oif : Ptr NetDevice) (rt : Ipv4Route)
    (h : LookupRoute p header.destination oif = Except.ok (some rt)) :
    RouteOutput p header oif = Except.ok (some rt, SocketErrno.ERROR_NOTERROR) := by
  simp [RouteOutput, h]

theorem RouteOutput_of_none (p : PIORoutingProtocol) (header : Ipv4Header)
    (oif : Ptr NetDevice) (h : LookupRoute p header.destination oif = Except.ok none) :
    RouteOutput p header oif = Except.ok (none, SocketErrno.ERROR_NOROUTETOHOST) := by
  simp [RouteOutput, h]

/-- C4, as stated, fails for local-multicast destinations. On node 2 no
`VALID` entry matches 224.0.0.5; with the device of interface 1 hinted
`RouteOutput` still returns a route, with `ERROR_NOTERROR`, and with the
device of interface 0 hinted the assertion of `LookupRoute` fails. -/
theorem C4_counterexample_local_multicast :
    (∀ r ∈ node2.m_routing, ¬ (r.route.m_validity = Validity.VALID ∧
        IsMatch r.route.m_destNetworkMask 0xe0000005 r.route.m_dest = true)) ∧
      RouteOutput node2 ⟨0xc0a81001, 0xe0000005⟩ (some 101) =
        Except.ok (some ⟨0, 0xe0000005, 0, some 101⟩, SocketErrno.ERROR_NOTERROR) ∧
      RouteOutput node2 ⟨0xc0a81001, 0xe0000005⟩ (some 100) =
        Except.error Fault.assertFailed :=
  ⟨by decide, rfl, rfl⟩

/-- C4, amended. On a protocol attached to its stack, for a destination that
is not local multicast and any hinted device: `RouteOutput` always returns;
when no `VALID` entry matches the destination it returns no route and
`ERROR_NOROUTETOHOST`; whenever it returns no route the error is
`ERROR_NOROUTETOHOST`; and whenever it returns a route the error is
`ERROR_NOTERROR` and the route was built from an entry of the table that is
`VALID` and matches, never from an `INVALID` or `LHOST` one. -/
theorem C4_route_output_errors (p : PIORoutingProtocol) (ipv4 : Ipv4) (header : Ipv4Header)
    (oif : Ptr NetDevice) (hip : p.m_ipv4 = some ipv4)
    (hm : IsLocalMulticast header.destination = false) :
    (∃ res, RouteOutput p header oif = Except.ok res) ∧
      ((∀ r ∈ p.m_routing, ¬ (r.route.m_validity = Validity.VALID ∧
          IsMatch r.route.m_destNetworkMask header.destination r.route.m_dest = true)) →
        RouteOutput p header oif = Except.ok (none, SocketErrno.ERROR_NOROUTETOHOST)) ∧
      (∀ e, RouteOutput p header oif = Except.ok (none, e) →
        e = SocketErrno.ERROR_NOROUTETOHOST) ∧
      (∀ rt e, RouteOutput p header oif = Except.ok (some rt, e) →
        e = SocketErrno.ERROR_NOTERROR ∧
        ∃ r ∈ p.m_routing, r.route.m_validity = Validity.VALID ∧
          IsMatch r.route.m_destNetworkMask header.destination r.route.m_dest = true ∧
          rt.destination = r.route.m_dest ∧ rt.gateway = r.route.m_gateway ∧
          rt.outputDevice = ipv4.GetNetDevice r.route.m_interface) := by
  have hL := LookupRoute_eq_loop p ipv4 header.destination oif hip hm
  rcases lookupLoop_spec ipv4 header.destination oif p.m_routing with
    ⟨hall, hres⟩ | ⟨pre, r, post, htbl, hpre, hstop, hres⟩
  · rw [RouteOutput_of_none p header oif (hL.trans hres)]
    refine ⟨⟨_, rfl⟩, fun _ => rfl, ?_, ?_⟩
    · intro e he
      simp only [Except.ok.injEq, Prod.mk.injEq, true_and] at he
      exact he.symm
    · intro rt e he
      simp at he
  · rw [RouteOutput_of_some p header oif _ (hL.trans hres)]
    have hr : r ∈ p.m_routing := by simp [htbl]
    refine ⟨⟨_, rfl⟩, ?_, ?_, ?_⟩
    · intro hno
      exact absurd ⟨hstop.1, hstop.2.1⟩ (hno r hr)
    · intro e he
      simp at he
    · intro rt e he
      simp only [Except.ok.injEq, Prod.mk.injEq, Option.some.injEq] at he
      obtain ⟨hrt, he⟩ := he
      subst hrt
      exact ⟨he.symm, r, hr, hstop.1, hstop.2.1, rfl, rfl, rfl⟩

/-- Witness of C4 on node 2 for 8.8.8.8, which no entry matches. -/
theorem C4_route_output_errors_witness :
    node2.m_ipv4 = some sampleIpv4 ∧
      IsLocalMulticast (Ipv4Header.mk 0xc0a81001 0x08080808).destination = false ∧
      RouteOutput node2 ⟨0xc0a81001, 0x08080808⟩ none =
        Except.ok (none, SocketErrno.ERROR_NOROUTETOHOST) :=
  ⟨rfl, by decide,
    (C4_route_output_errors node2 sampleIpv4 ⟨0xc0a81001, 0x08080808⟩ none rfl
      (by decide)).2.1 (by decide)⟩

/-- C5, as stated, fails. 239.1.1.1 is multicast but outside 224.0.0.0/24:
on node 2 with a default route, `RouteOutput` with the device of interface 2
hinted answers from the table (destination 0.0.0.0, gateway 15.16.16.2), and
on node 2 itself, where no entry matches, it returns no route. For the
local-multicast 224.0.0.5 with the device of interface 0 hinted, the
assertion of `LookupRoute` fails and nothing is returned. -/
theorem C5_counterexample_multicast_not_local :
    IsMulticast 0xef010101 = true ∧
      RouteOutput node2WithDefault ⟨0xc0a81001, 0xef010101⟩ (some 102) =
        Except.ok (some ⟨0, 0, 0x0f101002, some 102⟩, SocketErrno.ERROR_NOTERROR) ∧
      RouteOutput node2 ⟨0xc0a81001, 0xef010101⟩ (some 102) =
        Except.ok (none, SocketErrno.ERROR_NOROUTETOHOST) ∧
      IsMulticast 0xe0000005 = true ∧
      RouteOutput node2 ⟨0xc0a81001, 0xe0000005⟩ (some 100) =
        Except.error Fault.assertFailed :=
  ⟨by decide, rfl, rfl, by decide, rfl⟩

/-- C5, amended. On a protocol attached to its stack, for every
local-multicast destination (224.0.0.0/24) and every hinted device whose
interface index in the stack is not 0, `RouteOutput` bypasses the route
table: whatever the table contains it returns, with `ERROR_NOTERROR`, a
synthesized route whose destination is the address, whose gateway is
0.0.0.0 and whose output device is the hinted one. -/
theorem C5_route_output_local_multicast (p : PIORoutingProtocol) (ipv4 : Ipv4)
    (header : Ipv4Header) (oif : Ptr NetDevice) (hip : p.m_ipv4 = some ipv4)
    (hm : IsLocalMulticast header.destination = true)
    (hif : ipv4.GetInterfaceForDevice oif ≠ 0) :
    RouteOutput p header oif =
      Except.ok (some
        { source := ipv4.SelectSourceAddress oif header.destination Scope.LINK
          destination := header.destination
          gateway := Ipv4Address.GetZero
          outputDevice := oif }, SocketErrno.ERROR_NOTERROR) := by
  apply RouteOutput_of_some
  simp [LookupRoute, hm, hip, hif]

/-- Witness of C5 on node 2 for 224.0.0.5 with the device of interface 1
hinted. -/
theorem C5_route_output_local_multicast_witness :
    node2.m_ipv4 = some sampleIpv4 ∧
      IsLocalMulticast (Ipv4Header.mk 0xc0a81001 0xe0000005).destination = true ∧
      sampleIpv4.GetInterfaceForDevice (some 101) ≠ 0 ∧
      RouteOutput node2 ⟨0xc0a81001, 0xe0000005⟩ (some 101) =
        Except.ok (some
          { source := sampleIpv4.SelectSourceAddress (some 101)
              (Ipv4Header.mk 0xc0a81001 0xe0000005).destination Scope.LINK
            destination := (Ipv4Header.mk 0xc0a81001 0xe0000005).destination
            gateway := Ipv4Address.GetZero
            outputDevice := some 101 }, SocketErrno.ERROR_NOTERROR) :=
  ⟨rfl, by decide, by decide,
    C5_route_output_local_multicast node2 sampleIpv4 ⟨0xc0a81001, 0xe0000005⟩ (some 101) rfl
      (by decide) (by decide)⟩

/-! `RouteInput`. -/

/-- A 32-bit address in 224.0.0.0/24 lies in the multicast range. -/
theorem IsMulticast_of_IsLocalMulticast (a : Nat) (h32 : a < 2 ^ 32)
    (h : IsLocalMulticast a = true) : IsMulticast a = true := by
  have he : a &&& 0xffffff00 = 0xe0000000 := by simpa [IsLocalMulticast] using h
  have hlo : 0xe0000000 ≤ a := by
    have := @Nat.and_le_left a 0xffffff00
    omega
  have h28 : a.testBit 28 = false := by
    have h1 : (a &&& 0xffffff00).testBit 28 = Nat.testBit 0xe0000000 28 := by rw [he]
    rw [Nat.testBit_and] at h1
    have h2 : Nat.testBit 0xffffff00 28 = true := by decide
    have h3 : Nat.testBit 0xe0000000 28 = false := by decide
    rw [h2, h3] at h1
    simpa using h1
  rw [Nat.testBit_to_div_mod] at h28
  have h28' : a / 2 ^ 28 % 2 ≠ 1 := by simpa using h28
  norm_num at h28' h32
  have hhi : a ≤ 0xefffffff := by omega
  simp [IsMulticast, hlo, hhi]

/-- The nested loops find a local address iff some address of some interface
equals the destination. -/
theorem isLocalDestination_iff (ipv4 : Ipv4) (dst : Ipv4Address) :
    isLocalDestination ipv4 dst = true ↔
      ∃ j, j < ipv4.GetNInterfaces ∧ ∃ i, i < ipv4.GetNAddresses j ∧
        ipv4.GetLocal j i = dst := by
  simp [isLocalDestination, List.any_eq_true]

/-- `RouteInput` once its two assertions hold. -/
theorem RouteInput_attached (p : PIORoutingProtocol) (ipv4 : Ipv4) (pkt : Packet)
    (header : Ipv4Header) (idev : Ptr NetDevice) (hip : p.m_ipv4 = some ipv4)
    (hidev : 0 ≤ ipv4.GetInterfaceForDevice idev) :
    RouteInput p pkt header idev =
      if IsMulticast header.destination then Except.ok (false, [])
      else if isLocalDestination ipv4 header.destination then
        Except.ok (true,
          [CallbackCall.lcb pkt header (ipv4.GetInterfaceForDevice idev).toNat])
      else if ipv4.IsForwarding (ipv4.GetInterfaceForDevice idev).toNat = false then
        Except.ok (false, [CallbackCall.ecb pkt header SocketErrno.ERROR_NOROUTETOHOST])
      else
        match LookupRoute p header.destination none with
        | Except.error e => Except.error e
        | Except.ok (some route) => Except.ok (true, [CallbackCall.ucb route pkt header])
        | Except.ok none => Except.ok (false, []) := by
  simp only [RouteInput, hip, not_lt.mpr hidev, if_false]

/-- C6. On a protocol attached to its stack, for a packet arriving on a
device of the node with forwarding enabled on its interface, whose
destination is a 32-bit unicast address configured on no interface:
`LookupRoute (destination)` without hint ends with a result; if it finds a
route, `RouteInput` returns true and invokes the unicast-forward callback
once, with that route, and nothing else; if it finds none, `RouteInput`
returns false and invokes no callback. -/
theorem C6_route_input_forwards_iff_route (p : PIORoutingProtocol) (ipv4 : Ipv4)
    (pkt : Packet) (header : Ipv4Header) (idev : Ptr NetDevice)
    (hip : p.m_ipv4 = some ipv4) (hidev : 0 ≤ ipv4.GetInterfaceForDevice idev)
    (h32 : header.destination < 2 ^ 32) (hmc : IsMulticast header.destination = false)
    (hloc : ∀ j, j < ipv4.GetNInterfaces → ∀ i, i < ipv4.GetNAddresses j →
      ipv4.GetLocal j i ≠ header.destination)
    (hfwd : ipv4.IsForwarding (ipv4.GetInterfaceForDevice idev).toNat = true) :
    (∃ res, LookupRoute p header.destination none = Except.ok res) ∧
      (∀ route, LookupRoute p header.destination none = Except.ok (some route) →
        RouteInput p pkt header idev =
          Except.ok (true, [CallbackCall.ucb route pkt header])) ∧
      (LookupRoute p header.destination none = Except.ok none →
        RouteInput p pkt header idev = Except.ok (false, [])) := by
  have hnl : isLocalDestination ipv4 header.destination = false := by
    rw [Bool.eq_false_iff]
    intro h
    obtain ⟨j, hj, i, hi, heq⟩ := (isLocalDestination_iff ipv4 header.destination).mp h
    exact hloc j hj i hi heq
  have hlm : IsLocalMulticast header.destination = false := by
    rw [Bool.eq_false_iff]
    intro h
    have := IsMulticast_of_IsLocalMulticast header.destination h32 h
    rw [hmc] at this
    cases this
  rw [RouteInput_attached p ipv4 pkt header idev hip hidev]
  simp only [hmc, hnl, hfwd, Bool.false_eq_true, if_false]
  refine ⟨?_, ?_, ?_⟩
  · rw [LookupRoute_eq_loop p ipv4 header.destination none hip hlm]
    rcases lookupLoop_spec ipv4 header.destination none p.m_routing with
      ⟨_, hres⟩ | ⟨_, _, _, _, _, _, hres⟩
    · exact ⟨_, hres⟩
    · exact ⟨_, hres⟩
  · intro route h
    simp [h]
  · intro h
    simp [h]

/-- Witness of C6 on node 2: a packet for 172.16.1.1 arriving on the device
of interface 1 is forwarded through 203.15.19.2. -/
theorem C6_route_input_forwards_iff_route_witness :
    node2.m_ipv4 = some sampleIpv4 ∧ 0 ≤ sampleIpv4.GetInterfaceForDevice (some 101) ∧
      (Ipv4Header.mk 0xc0a81002 0xac100101).destination < 2 ^ 32 ∧
      IsMulticast (Ipv4Header.mk 0xc0a81002 0xac100101).destination = false ∧
      (∀ j, j < sampleIpv4.GetNInterfaces → ∀ i, i < sampleIpv4.GetNAddresses j →
        sampleIpv4.GetLocal j i ≠ (Ipv4Header.mk 0xc0a81002 0xac100101).destination) ∧
      sampleIpv4.IsForwarding (sampleIpv4.GetInterfaceForDevice (some 101)).toNat = true ∧
      RouteInput node2 7 ⟨0xc0a81002, 0xac100101⟩ (some 101) =
        Except.ok (true,
          [CallbackCall.ucb ⟨0, 0xac100100, 0xcb0f1302, some 103⟩ 7 ⟨0xc0a81002, 0xac100101⟩]) :=
  ⟨rfl, by decide, by decide, by decide, by decide, by decide,
    (C6_route_input_forwards_iff_route node2 sampleIpv4 7 ⟨0xc0a81002, 0xac100101⟩ (some 101)
      rfl (by decide) (by decide) (by decide) (by decide) (by decide)).2.1
      ⟨0, 0xac100100, 0xcb0f1302, some 103⟩ rfl⟩

/-- C7. On a protocol attached to its stack, for a packet arriving on a
device of the node whose destination is not multicast and equals an address
configured on some interface of the node (any interface, not only the
arrival one), `RouteInput` returns true and invokes the local-deliver
callback once, with the arrival interface, and no other callback, whatever
the table holds and whether or not forwarding is enabled. -/
theorem C7_route_input_local_deliver (p : PIORoutingProtocol) (ipv4 : Ipv4) (pkt : Packet)
    (header : Ipv4Header) (idev : Ptr NetDevice) (hip : p.m_ipv4 = some ipv4)
    (hidev : 0 ≤ ipv4.GetInterfaceForDevice idev)
    (hmc : IsMulticast header.destination = false)
    (hloc : ∃ j, j < ipv4.GetNInterfaces ∧ ∃ i, i < ipv4.GetNAddresses j ∧
      ipv4.GetLocal j i = header.destination) :
    RouteInput p pkt header idev =
      Except.ok (true,
        [CallbackCall.lcb pkt header (ipv4.GetInterfaceForDevice idev).toNat]) := by
  have hl : isLocalDestination ipv4 header.destination = true :=
    (isLocalDestination_iff ipv4 header.destination).mpr hloc
  rw [RouteInput_attached p ipv4 pkt header idev hip hidev]
  simp [hmc, hl]

/-- Witness of C7 on node 2: a packet for 15.16.16.1, the address of
interface 2, arrives on the device of interface 3, where forwarding is
disabled. -/
theorem C7_route_input_local_deliver_witness :
    node2.m_ipv4 = some sampleIpv4 ∧ 0 ≤ sampleIpv4.GetInterfaceForDevice (some 103) ∧
      IsMulticast (Ipv4Header.mk 0xc0a81002 0x0f101001).destination = false ∧
      (∃ j, j < sampleIpv4.GetNInterfaces ∧ ∃ i, i < sampleIpv4.GetNAddresses j ∧
        sampleIpv4.GetLocal j i = (Ipv4Header.mk 0xc0a81002 0x0f101001).destination) ∧
      sampleIpv4.IsForwarding 3 = false ∧
      RouteInput node2 7 ⟨0xc0a81002, 0x0f101001⟩ (some 103) =
        Except.ok (true,
          [CallbackCall.lcb 7 ⟨0xc0a81002, 0x0f101001⟩
            (sampleIpv4.GetInterfaceForDevice (some 103)).toNat]) :=
  ⟨rfl, by decide, by decide, ⟨2, by decide, 0, by decide, rfl⟩, by decide,
    C7_route_input_local_deliver node2 sampleIpv4 7 ⟨0xc0a81002, 0x0f101001⟩ (some 103) rfl
      (by decide) (by decide) ⟨2, by decide, 0, by decide, rfl⟩⟩

/-- C8. On a protocol attached to its stack, for a packet arriving on a
device of the node whose destination is not multicast and is configured on
no interface: when forwarding is disabled on the arrival interface,
`RouteInput` returns false and invokes the error callback once, with
`ERROR_NOROUTETOHOST`, and no other callback, whatever the table holds. -/
theorem C8_route_input_forwarding_disabled (p : PIORoutingProtocol) (ipv4 : Ipv4)
    (pkt : Packet) (header : Ipv4Header) (idev : Ptr NetDevice)
    (hip : p.m_ipv4 = some ipv4) (hidev : 0 ≤ ipv4.GetInterfaceForDevice idev)
    (hmc : IsMulticast header.destination = false)
    (hloc : ∀ j, j < ipv4.GetNInterfaces → ∀ i, i < ipv4.GetNAddresses j →
      ipv4.GetLocal j i ≠ header.destination)
    (hfwd : ipv4.IsForwarding (ipv4.GetInterfaceForDevice idev).toNat = false) :
    RouteInput p pkt header idev =
      Except.ok (false, [CallbackCall.ecb pkt header SocketErrno.ERROR_NOROUTETOHOST]) := by
  have hnl : isLocalDestination ipv4 header.destination = false := by
    rw [Bool.eq_false_iff]
    intro h
    obtain ⟨j, hj, i, hi, heq⟩ := (isLocalDestination_iff ipv4 header.destination).mp h
    exact hloc j hj i hi heq
  rw [RouteInput_attached p ipv4 pkt header idev hip hidev]
  simp [hmc, hnl, hfwd]

/-- Witness of C8 on node 2: a packet for 172.16.1.1, for which the table
holds a `VALID` matching entry, arrives on the device of interface 3, where
forwarding is disabled. -/
theorem C8_route_input_forwarding_disabled_witness :
    node2.m_ipv4 = some sampleIpv4 ∧ 0 ≤ sampleIpv4.GetInterfaceForDevice (some 103) ∧
      IsMulticast (Ipv4Header.mk 0xc0a81002 0xac100101).destination = false ∧
      (∀ j, j < sampleIpv4.GetNInterfaces → ∀ i, i < sampleIpv4.GetNAddresses j →
        sampleIpv4.GetLocal j i ≠ (Ipv4Header.mk 0xc0a81002 0xac100101).destination) ∧
      sampleIpv4.IsForwarding (sampleIpv4.GetInterfaceForDevice (some 103)).toNat = false ∧
      LookupRoute node2 0xac100101 none =
        Except.ok (some ⟨0, 0xac100100, 0xcb0f1302, some 103⟩) ∧
      RouteInput node2 7 ⟨0xc0a81002, 0xac100101⟩ (some 103) =
        Except.ok (false,
          [CallbackCall.ecb 7 ⟨0xc0a81002, 0xac100101⟩ SocketErrno.ERROR_NOROUTETOHOST]) :=
  ⟨rfl, by decide, by decide, by decide, by decide, rfl,
    C8_route_input_forwarding_disabled node2 sampleIpv4 7 ⟨0xc0a81002, 0xac100101⟩ (some 103)
      rfl (by decide) (by decide) (by decide) (by decide)⟩

/-- C9. On a protocol attached to its stack, for a packet arriving on a
device of the node with a multicast destination, `RouteInput` returns false
and invokes none of the four callbacks, whatever the table and the local
addresses are. -/
theorem C9_route_input_multicast (p : PIORoutingProtocol) (ipv4 : Ipv4) (pkt : Packet)
    (header : Ipv4Header) (idev : Ptr NetDevice) (hip : p.m_ipv4 = some ipv4)
    (hidev : 0 ≤ ipv4.GetInterfaceForDevice idev)
    (hmc : IsMulticast header.destination = true) :
    RouteInput p pkt header idev = Except.ok (false, []) := by
  rw [RouteInput_attached p ipv4 pkt header idev hip hidev]
  simp [hmc]

/-- Witness of C9 on node 2 with a default route: a packet for 239.1.1.1
arriving on the device of interface 1. -/
theorem C9_route_input_multicast_witness :
    node2WithDefault.m_ipv4 = some sampleIpv4 ∧
      0 ≤ sampleIpv4.GetInterfaceForDevice (some 101) ∧
      IsMulticast (Ipv4Header.mk 0xc0a81002 0xef010101).destination = true ∧
      RouteInput node2WithDefault 7 ⟨0xc0a81002, 0xef010101⟩ (some 101) =
        Except.ok (false, []) :=
  ⟨rfl, by decide, by decide,
    C9_route_input_multicast node2WithDefault sampleIpv4 7 ⟨0xc0a81002, 0xef010101⟩ (some 101)
      rfl (by decide) (by decide)⟩

/-! The add operations push on the front. -/

theorem PushedFront_of_cons (p q : PIORoutingProtocol) (r : RouteTableRecord)
    (htbl : q.m_routing = r :: p.m_routing) (hev : p.sim.events <+: q.sim.events)
    (hnow : q.sim.now = p.sim.now) : PushedFront p q := by
  refine ⟨⟨r, htbl⟩, by simp [htbl], ?_, hev, hnow⟩
  intro i
  simp [htbl]

/-- C10. Each of `AddHostRouteTo`, the two overloads of `AddNetworkRouteTo`
and `AddDefaultRouteTo` leaves a table that is exactly one new record
followed by the previous table, whatever the previous table holds (in
particular an entry with the same destination, mask and gateway): the length
grows by one, every earlier record keeps its place behind the new one with
its entry (validity, changed flag) and its timer handle, and the events
already scheduled stay scheduled, unchanged. -/
theorem C10_add_pushes_front (p : PIORoutingProtocol) (host network : Ipv4Address)
    (networkMask : Ipv4Mask) (nextHop : Ipv4Address) (interface metric sequenceNo : Nat)
    (timeoutTime garbageCollectionTime rnd : Time) :
    PushedFront p (AddHostRouteTo p host interface metric sequenceNo timeoutTime
        garbageCollectionTime rnd) ∧
      PushedFront p (AddNetworkRouteTo p network networkMask nextHop interface metric
        sequenceNo timeoutTime garbageCollectionTime rnd) ∧
      PushedFront p (AddNetworkRouteToInterface p network networkMask interface metric
        sequenceNo timeoutTime garbageCollectionTime rnd) ∧
      PushedFront p (AddDefaultRouteTo p nextHop interface) := by
  refine ⟨?_, ?_, ?_, ?_⟩
  · unfold AddHostRouteTo
    split
    · exact PushedFront_of_cons _ _ _ rfl (List.prefix_refl _) rfl
    · exact PushedFront_of_cons _ _ _ rfl (List.prefix_append _ _) rfl
  · unfold AddNetworkRouteTo
    split
    · exact PushedFront_of_cons _ _ _ rfl (List.prefix_refl _) rfl
    · exact PushedFront_of_cons _ _ _ rfl (List.prefix_append _ _) rfl
  · unfold AddNetworkRouteToInterface
    split
    · exact PushedFront_of_cons _ _ _ rfl (List.prefix_refl _) rfl
    · exact PushedFront_of_cons _ _ _ rfl (List.prefix_append _ _) rfl
  · unfold AddDefaultRouteTo AddNetworkRouteTo
    split
    · exact PushedFront_of_cons _ _ _ rfl (List.prefix_refl _) rfl
    · exact PushedFront_of_cons _ _ _ rfl (List.prefix_append _ _) rfl

/-! The simulator primitives. -/

theorem Cancel_events (sim : Simulator) (id : EventId) :
    (sim.Cancel id).events =
      sim.events.map fun e =>
        if some e.uid = id then { e with cancelled := true } else e := by
  cases id with
  | none => simp [Simulator.Cancel]
  | some u => simp [Simulator.Cancel]

theorem Cancel_now (sim : Simulator) (id : EventId) : (sim.Cancel id).now = sim.now := by
  cases id <;> rfl

theorem Cancel_nextUid (sim : Simulator) (id : EventId) :
    (sim.Cancel id).nextUid = sim.nextUid := by
  cases id <;> rfl

/-- An event of the simulator after `Cancel` is an event it held before,
with the same uid, time and action. -/
theorem mem_Cancel (sim : Simulator) (id : EventId) (e : ScheduledEvent)
    (h : e ∈ (sim.Cancel id).events) :
    ∃ e0 ∈ sim.events, e.uid = e0.uid ∧ e.ts = e0.ts ∧ e.action = e0.action ∧
      (e = e0 ∨ (some e0.uid = id ∧ e = { e0 with cancelled := true })) := by
  rw [Cancel_events, List.mem_map] at h
  obtain ⟨e0, he0, rfl⟩ := h
  refine ⟨e0, he0, ?_⟩
  by_cases hc : some e0.uid = id
  · simp [hc]
  · simp [hc]

/-- An event whose uid is not the one cancelled is left as it was. -/
theorem mem_Cancel_of_ne (sim : Simulator) (id : EventId) (e : ScheduledEvent)
    (h : e ∈ sim.events) (hne : some e.uid ≠ id) : e ∈ (sim.Cancel id).events := by
  rw [Cancel_events, List.mem_map]
  exact ⟨e, h, by simp [hne]⟩

theorem invalidateRecord_fst (gc : Time) (sim : Simulator) (it : RouteTableRecord) :
    (invalidateRecord gc sim it).1 =
      { ptr := it.ptr, route := invalidated it.route, event := some sim.nextUid } := by
  simp [invalidateRecord, Simulator.Schedule, Cancel_nextUid, invalidated]

theorem invalidateRecord_events (gc : Time) (sim : Simulator) (it : RouteTableRecord) :
    (invalidateRecord gc sim it).2.events =
      (sim.Cancel it.event).events ++
        [{ uid := sim.nextUid, ts := sim.now + gc, action := Action.DeleteRoute it.ptr,
           cancelled := false }] := by
  simp [invalidateRecord, Simulator.Schedule, Cancel_nextUid, Cancel_now]

theorem invalidateRecord_nextUid (gc : Time) (sim : Simulator) (it : RouteTableRecord) :
    (invalidateRecord gc sim it).2.nextUid = sim.nextUid + 1 := by
  simp [invalidateRecord, Simulator.Schedule, Cancel_nextUid]

theorem invalidateRecord_now (gc : Time) (sim : Simulator) (it : RouteTableRecord) :
    (invalidateRecord gc sim it).2.now = sim.now := by
  simp [invalidateRecord, Simulator.Schedule, Cancel_now]

/-! The loops of `InvalidateRoute` and `DeleteRoute`. -/

/-- The loop of `InvalidateRoute` leaves everything as it is when no record
holds the pointer, and otherwise invalidates the first record that holds it. -/
theorem invalidateRouteLoop_spec (gc : Time) (route : Nat) (sim : Simulator)
    (tbl : List RouteTableRecord) :
    ((∀ r ∈ tbl, r.ptr ≠ route) ∧ invalidateRouteLoop gc route sim tbl = (tbl, sim)) ∨
      ∃ pre it post, tbl = pre ++ it :: post ∧ (∀ r ∈ pre, r.ptr ≠ route) ∧ it.ptr = route ∧
        invalidateRouteLoop gc route sim tbl =
          (pre ++ (invalidateRecord gc sim it).1 :: post, (invalidateRecord gc sim it).2) := by
  induction tbl with
  | nil => exact Or.inl ⟨by simp, rfl⟩
  | cons it rest ih =>
    by_cases h : it.ptr = route
    · exact Or.inr ⟨[], it, rest, rfl, by simp, h, by simp [invalidateRouteLoop, h]⟩
    · rcases ih with ⟨hall, hres⟩ | ⟨pre, it', post, htbl, hpre, hit, hres⟩
      · refine Or.inl ⟨?_, by simp [invalidateRouteLoop, h, hres]⟩
        intro r hr
        rcases List.mem_cons.mp hr with rfl | hr
        · exact h
        · exact hall r hr
      · refine Or.inr ⟨it :: pre, it', post, by simp [htbl], ?_, hit,
          by simp [invalidateRouteLoop, h, hres]⟩
        intro r hr
        rcases List.mem_cons.mp hr with rfl | hr
        · exact h
        · exact hpre r hr

/-- The loop of `DeleteRoute` leaves the table as it is when no record holds
the pointer, and otherwise erases the first record that holds it. -/
theorem deleteRouteLoop_spec (route : Nat) (tbl : List RouteTableRecord) :
    ((∀ r ∈ tbl, r.ptr ≠ route) ∧ deleteRouteLoop route tbl = tbl) ∨
      ∃ pre it post, tbl = pre ++ it :: post ∧ (∀ r ∈ pre, r.ptr ≠ route) ∧ it.ptr = route ∧
        deleteRouteLoop route tbl = pre ++ post := by
  induction tbl with
  | nil => exact Or.inl ⟨by simp, rfl⟩
  | cons it rest ih =>
    by_cases h : it.ptr = route
    · exact Or.inr ⟨[], it, rest, rfl, by simp, h, by simp [deleteRouteLoop, h]⟩
    · rcases ih with ⟨hall, hres⟩ | ⟨pre, it', post, htbl, hpre, hit, hres⟩
      · refine Or.inl ⟨?_, by simp [deleteRouteLoop, h, hres]⟩
        intro r hr
        rcases List.mem_cons.mp hr with rfl | hr
        · exact h
        · exact hall r hr
      · refine Or.inr ⟨it :: pre, it', post, by simp [htbl], ?_, hit,
          by simp [deleteRouteLoop, h, hres]⟩
        intro r hr
        rcases List.mem_cons.mp hr with rfl | hr
        · exact h
        · exact hpre r hr

/-- In a table with pairwise distinct pointers, a record is the first one
that holds its pointer. -/
theorem split_of_mem_nodup (tbl : List RouteTableRecord) (r : RouteTableRecord)
    (hnodup : (tbl.map fun r => r.ptr).Nodup) (hr : r ∈ tbl) :
    ∃ pre post, tbl = pre ++ r :: post ∧ (∀ x ∈ pre, x.ptr ≠ r.ptr) ∧
      (∀ x ∈ post, x.ptr ≠ r.ptr) := by
  obtain ⟨pre, post, htbl⟩ := List.append_of_mem hr
  subst htbl
  refine ⟨pre, post, rfl, ?_, ?_⟩
  · intro x hx hxr
    rw [List.map_append, List.map_cons] at hnodup
    have hdisj := (List.nodup_append.mp hnodup).2.2
    exact hdisj (List.mem_map.mpr ⟨x, hx, rfl⟩) (by simp [hxr])
  · intro x hx hxr
    rw [List.map_append, List.map_cons] at hnodup
    have h2 := (List.nodup_append.mp hnodup).2.1
    have h3 := (List.nodup_cons.mp h2).1
    exact h3 (List.mem_map.mpr ⟨x, hx, hxr⟩)

/-! The invariant of the table is kept by every operation. -/

theorem ptr_ne_of_nodup (pre post : List RouteTableRecord) (it : RouteTableRecord)
    (hnodup : ((pre ++ it :: post).map fun r => r.ptr).Nodup) :
    (∀ x ∈ pre, x.ptr ≠ it.ptr) ∧ (∀ x ∈ post, x.ptr ≠ it.ptr) := by
  rw [List.map_append, List.map_cons] at hnodup
  constructor
  · intro x hx hxr
    have hdisj := (List.nodup_append.mp hnodup).2.2
    exact hdisj (List.mem_map.mpr ⟨x, hx, rfl⟩) (by simp [hxr])
  · intro x hx hxr
    have h2 := (List.nodup_append.mp hnodup).2.1
    exact (List.nodup_cons.mp h2).1 (List.mem_map.mpr ⟨x, hx, hxr⟩)

/-- Invalidating a record of the table keeps the invariant. -/
theorem TableInv_invalidate (pre post : List RouteTableRecord) (it : RouteTableRecord)
    (sim : Simulator) (gc : Time) (h : TableInv (pre ++ it :: post) sim) :
    TableInv (pre ++ (invalidateRecord gc sim it).1 :: post) (invalidateRecord gc sim it).2 := by
  have hold : ∀ r, r ∈ pre ∨ r ∈ post → r ∈ pre ++ it :: post := by
    intro r hr
    rcases hr with hr | hr
    · simp [hr]
    · simp [hr]
  have hev : ∀ e ∈ (invalidateRecord gc sim it).2.events,
      (∃ e0 ∈ sim.events, e.uid = e0.uid ∧ e.action = e0.action) ∨
        (e.uid = sim.nextUid ∧ e.action = Action.DeleteRoute it.ptr) := by
    intro e he
    rw [invalidateRecord_events, List.mem_append, List.mem_singleton] at he
    rcases he with he | rfl
    · obtain ⟨e0, he0, hu, _, ha, _⟩ := mem_Cancel sim it.event e he
      exact Or.inl ⟨e0, he0, hu, ha⟩
    · exact Or.inr ⟨rfl, rfl⟩
  rw [invalidateRecord_fst]
  have hmem : ∀ r, r ∈ pre ++
      ({ ptr := it.ptr, route := invalidated it.route, event := some sim.nextUid } :
        RouteTableRecord) :: post →
      (r ∈ pre ∨ r ∈ post) ∨
        r = { ptr := it.ptr, route := invalidated it.route, event := some sim.nextUid } := by
    intro r hr
    rw [List.mem_append, List.mem_cons] at hr
    tauto
  constructor
  · have hn := h.ptr_nodup
    simp only [List.map_append, List.map_cons] at hn ⊢
    exact hn
  · intro e he
    rw [invalidateRecord_nextUid]
    rcases hev e he with ⟨e0, he0, hu, _⟩ | ⟨hu, _⟩
    · have := h.uid_lt e0 he0
      omega
    · omega
  · intro r hr u hu
    rw [invalidateRecord_nextUid]
    rcases hmem r hr with hr | rfl
    · have := h.handle_lt r (hold r hr) u hu
      omega
    · simp only [Option.some.injEq] at hu
      omega
  · intro r hr e he hre
    rcases hmem r hr with hr | rfl
    · rcases hev e he with ⟨e0, he0, hu, ha⟩ | ⟨hu, _⟩
      · rw [ha]
        exact h.handle_own r (hold r hr) e0 he0 (by rw [← hu]; exact hre)
      · have := h.handle_lt r (hold r hr) e.uid hre
        omega
    · rcases hev e he with ⟨e0, he0, hu, _⟩ | ⟨_, ha⟩
      · simp only [Option.some.injEq] at hre
        have := h.uid_lt e0 he0
        omega
      · rw [ha]
        rfl

/-- Erasing a record of the table keeps the invariant. -/
theorem TableInv_delete (pre post : List RouteTableRecord) (it : RouteTableRecord)
    (sim : Simulator) (h : TableInv (pre ++ it :: post) sim) :
    TableInv (pre ++ post) sim := by
  have hold : ∀ r, r ∈ pre ++ post → r ∈ pre ++ it :: post := by
    intro r hr
    rw [List.mem_append] at hr
    rcases hr with hr | hr
    · simp [hr]
    · simp [hr]
  constructor
  · have hn := h.ptr_nodup
    rw [List.map_append, List.map_cons] at hn
    rw [List.map_append]
    have h1 := List.nodup_append.mp hn
    refine List.nodup_append.mpr ⟨h1.1, (List.nodup_cons.mp h1.2.1).2, ?_⟩
    intro a ha hb
    exact h1.2.2 ha (List.mem_cons_of_mem _ hb)
  · exact h.uid_lt
  · exact fun r hr => h.handle_lt r (hold r hr)
  · exact fun r hr => h.handle_own r (hold r hr)

/-- Dropping events and moving the clock keeps the invariant. -/
theorem TableInv_filter (tbl : List RouteTableRecord) (sim : Simulator) (t : Time)
    (f : ScheduledEvent → Bool) (h : TableInv tbl sim) :
    TableInv tbl { sim with now := t, events := sim.events.filter f } := by
  constructor
  · exact h.ptr_nodup
  · exact fun e he => h.uid_lt e (List.mem_filter.mp he).1
  · exact h.handle_lt
  · exact fun r hr e he => h.handle_own r hr e (List.mem_filter.mp he).1

/-- Moving the clock keeps the invariant. -/
theorem TableInv_now (tbl : List RouteTableRecord) (sim : Simulator) (t : Time)
    (h : TableInv tbl sim) : TableInv tbl { sim with now := t } :=
  ⟨h.ptr_nodup, h.uid_lt, h.handle_lt, h.handle_own⟩

/-- Pushing a record without handle, at an address that no record of the
table holds, without scheduling, keeps the invariant. -/
theorem TableInv_push (tbl : List RouteTableRecord) (sim : Simulator) (n : Nat)
    (route : PIORoutingEntry) (hfree : ∀ r ∈ tbl, r.ptr ≠ n) (h : TableInv tbl sim) :
    TableInv ({ ptr := n, route := route, event := none } :: tbl) sim := by
  constructor
  · rw [List.map_cons, List.nodup_cons]
    refine ⟨?_, h.ptr_nodup⟩
    intro hmem
    obtain ⟨r, hr, hrn⟩ := List.mem_map.mp hmem
    exact hfree r hr hrn
  · exact h.uid_lt
  · intro r hr u hu
    rcases List.mem_cons.mp hr with rfl | hr
    · cases hu
    · exact h.handle_lt r hr u hu
  · intro r hr e he hre
    rcases List.mem_cons.mp hr with rfl | hr
    · cases hre
    · exact h.handle_own r hr e he hre

/-- Pushing a record at an address that no record of the table holds and
scheduling an event on that address keeps the invariant, whether the record
keeps the handle of the event or an empty one. -/
theorem TableInv_push_schedule (tbl : List RouteTableRecord) (sim : Simulator) (n : Nat)
    (route : PIORoutingEntry) (ev : EventId) (delay : Time) (action : Action)
    (hact : action.route = n) (hev : ev = none ∨ ev = some sim.nextUid)
    (hfree : ∀ r ∈ tbl, r.ptr ≠ n) (h : TableInv tbl sim) :
    TableInv ({ ptr := n, route := route, event := ev } :: tbl)
      (sim.Schedule delay action).1 := by
  have hevs : ∀ e ∈ (sim.Schedule delay action).1.events,
      e ∈ sim.events ∨ (e.uid = sim.nextUid ∧ e.action = action) := by
    intro e he
    simp only [Simulator.Schedule, List.mem_append, List.mem_singleton] at he
    rcases he with he | rfl
    · exact Or.inl he
    · exact Or.inr ⟨rfl, rfl⟩
  have hnext : (sim.Schedule delay action).1.nextUid = sim.nextUid + 1 := rfl
  constructor
  · rw [List.map_cons, List.nodup_cons]
    refine ⟨?_, h.ptr_nodup⟩
    intro hmem
    obtain ⟨r, hr, hrn⟩ := List.mem_map.mp hmem
    exact hfree r hr hrn
  · intro e he
    rw [hnext]
    rcases hevs e he with he | ⟨hu, _⟩
    · exact Nat.lt_succ_of_lt (h.uid_lt e he)
    · omega
  · intro r hr u hu
    rw [hnext]
    rcases List.mem_cons.mp hr with rfl | hr
    · rcases hev with hev | hev
      · simp only at hu
        rw [hev] at hu
        cases hu
      · simp only at hu
        rw [hev] at hu
        simp only [Option.some.injEq] at hu
        omega
    · exact Nat.lt_succ_of_lt (h.handle_lt r hr u hu)
  · intro r hr e he hre
    rcases List.mem_cons.mp hr with rfl | hr
    · rcases hevs e he with he | ⟨_, ha⟩
      · rcases hev with hev | hev
        · simp only at hre
          rw [hev] at hre
          cases hre
        · simp only at hre
          rw [hev] at hre
          simp only [Option.some.injEq] at hre
          have := h.uid_lt e he
          omega
      · rw [ha, hact]
    · rcases hevs e he with he | ⟨hu, _⟩
      · exact h.handle_own r hr e he hre
      · have := h.handle_lt r hr e.uid hre
        omega

/-! `InvalidateRoute` and `DeleteRoute` on states. -/

/-- `InvalidateRoute` changes nothing when no record holds the pointer, and
otherwise invalidates the first record that holds it. -/
theorem InvalidateRoute_spec (p : PIORoutingProtocol) (route : Nat) :
    ((∀ r ∈ p.m_routing, r.ptr ≠ route) ∧ InvalidateRoute p route = p) ∨
      ∃ pre it post, p.m_routing = pre ++ it :: post ∧ (∀ r ∈ pre, r.ptr ≠ route) ∧
        it.ptr = route ∧
        InvalidateRoute p route =
          { p with
            m_routing := pre ++ (invalidateRecord p.m_garbageCollectionDelay p.sim it).1 :: post
            sim := (invalidateRecord p.m_garbageCollectionDelay p.sim it).2 } := by
  rcases invalidateRouteLoop_spec p.m_garbageCollectionDelay route p.sim p.m_routing with
    ⟨hall, hres⟩ | ⟨pre, it, post, htbl, hpre, hit, hres⟩
  · exact Or.inl ⟨hall, by simp [InvalidateRoute, hres]⟩
  · exact Or.inr ⟨pre, it, post, htbl, hpre, hit, by simp [InvalidateRoute, hres]⟩

/-- `DeleteRoute` changes nothing when no record holds the pointer, and
otherwise erases the first record that holds it. -/
theorem DeleteRoute_spec (p : PIORoutingProtocol) (route : Nat) :
    ((∀ r ∈ p.m_routing, r.ptr ≠ route) ∧ DeleteRoute p route = p) ∨
      ∃ pre it post, p.m_routing = pre ++ it :: post ∧ (∀ r ∈ pre, r.ptr ≠ route) ∧
        it.ptr = route ∧ DeleteRoute p route = { p with m_routing := pre ++ post } := by
  rcases deleteRouteLoop_spec route p.m_routing with
    ⟨hall, hres⟩ | ⟨pre, it, post, htbl, hpre, hit, hres⟩
  · exact Or.inl ⟨hall, by simp [DeleteRoute, hres]⟩
  · exact Or.inr ⟨pre, it, post, htbl, hpre, hit, by simp [DeleteRoute, hres]⟩

theorem WellFormed_InvalidateRoute (p : PIORoutingProtocol) (route : Nat)
    (h : WellFormed p) : WellFormed (InvalidateRoute p route) := by
  rcases InvalidateRoute_spec p route with ⟨_, hres⟩ | ⟨pre, it, post, htbl, _, _, hres⟩
  · rw [hres]
    exact h
  · rw [hres]
    unfold WellFormed at h ⊢
    rw [htbl] at h
    exact TableInv_invalidate pre post it p.sim p.m_garbageCollectionDelay h

theorem WellFormed_DeleteRoute (p : PIORoutingProtocol) (route : Nat)
    (h : WellFormed p) : WellFormed (DeleteRoute p route) := by
  rcases DeleteRoute_spec p route with ⟨_, hres⟩ | ⟨pre, it, post, htbl, _, _, hres⟩
  · rw [hres]
    exact h
  · rw [hres]
    unfold WellFormed at h ⊢
    rw [htbl] at h
    exact TableInv_delete pre post it p.sim h

theorem WellFormed_invalidateEach (routes : List Nat) (p : PIORoutingProtocol)
    (h : WellFormed p) : WellFormed (invalidateEach p routes) := by
  induction routes generalizing p with
  | nil => exact h
  | cons x xs ih => exact ih (InvalidateRoute p x) (WellFormed_InvalidateRoute p x h)

/-! A bulk invalidation is `InvalidateRoute` on each matching record. -/

theorem invalidateRouteStep_skip (gc : Time) (routes : List Nat) (it : RouteTableRecord)
    (rest : List RouteTableRecord) (sim : Simulator) (hne : ∀ x ∈ routes, x ≠ it.ptr) :
    routes.foldl (invalidateRouteStep gc) (it :: rest, sim) =
      (it :: (routes.foldl (invalidateRouteStep gc) (rest, sim)).1,
        (routes.foldl (invalidateRouteStep gc) (rest, sim)).2) := by
  induction routes generalizing rest sim with
  | nil => rfl
  | cons x xs ih =>
    have hx : it.ptr ≠ x := fun h => hne x (List.mem_cons_self _ _) h.symm
    have hstep : invalidateRouteStep gc (it :: rest, sim) x =
        (it :: (invalidateRouteStep gc (rest, sim) x).1,
          (invalidateRouteStep gc (rest, sim) x).2) := by
      simp [invalidateRouteStep, invalidateRouteLoop, hx]
    rw [List.foldl_cons, List.foldl_cons, hstep]
    exact ih _ _ (fun y hy => hne y (List.mem_cons_of_mem _ hy))

theorem matchingPtrs_ne (cond : PIORoutingEntry → Bool) (it : RouteTableRecord)
    (rest : List RouteTableRecord) (hnodup : ((it :: rest).map fun r => r.ptr).Nodup) :
    ∀ x ∈ matchingPtrs cond rest, x ≠ it.ptr := by
  intro x hx hxe
  rw [List.map_cons, List.nodup_cons] at hnodup
  obtain ⟨r, hr, hrx⟩ := List.mem_map.mp hx
  exact hnodup.1 (List.mem_map.mpr ⟨r, (List.mem_filter.mp hr).1, hrx.trans hxe⟩)

/-- On a table with pairwise distinct pointers, the loop of a bulk
invalidation leaves the table and the simulator that `InvalidateRoute`
leaves when applied, in table order, to the matching records. -/
theorem bulkInvalidateLoop_eq_foldl (gc : Time) (cond : PIORoutingEntry → Bool)
    (tbl : List RouteTableRecord) (sim : Simulator) (retVal : Bool)
    (hnodup : (tbl.map fun r => r.ptr).Nodup) :
    ((bulkInvalidateLoop gc cond tbl sim retVal).1,
        (bulkInvalidateLoop gc cond tbl sim retVal).2.1) =
      (matchingPtrs cond tbl).foldl (invalidateRouteStep gc) (tbl, sim) := by
  induction tbl generalizing sim retVal with
  | nil => rfl
  | cons it rest ih =>
    have hrest : (rest.map fun r => r.ptr).Nodup := by
      rw [List.map_cons, List.nodup_cons] at hnodup
      exact hnodup.2
    have hne := matchingPtrs_ne cond it rest hnodup
    by_cases hc : cond it.route = true
    · have hm : matchingPtrs cond (it :: rest) = it.ptr :: matchingPtrs cond rest := by
        simp [matchingPtrs, hc]
      have hstep : invalidateRouteStep gc (it :: rest, sim) it.ptr =
          ((invalidateRecord gc sim it).1 :: rest, (invalidateRecord gc sim it).2) := by
        simp [invalidateRouteStep, invalidateRouteLoop]
      have hptr : (invalidateRecord gc sim it).1.ptr = it.ptr := by
        rw [invalidateRecord_fst]
      rw [hm, List.foldl_cons, hstep,
        invalidateRouteStep_skip gc _ _ rest _ (fun x hx => by rw [hptr]; exact hne x hx),
        ← ih (invalidateRecord gc sim it).2 true hrest]
      simp [bulkInvalidateLoop, hc]
    · have hm : matchingPtrs cond (it :: rest) = matchingPtrs cond rest := by
        simp [matchingPtrs, hc]
      rw [hm, invalidateRouteStep_skip gc _ it rest sim hne, ← ih sim retVal hrest]
      simp [bulkInvalidateLoop, hc]

theorem invalidateEach_eq_foldl (routes : List Nat) (p : PIORoutingProtocol) :
    invalidateEach p routes =
      { p with
        m_routing :=
          (routes.foldl (invalidateRouteStep p.m_garbageCollectionDelay) (p.m_routing, p.sim)).1
        sim :=
          (routes.foldl (invalidateRouteStep p.m_garbageCollectionDelay) (p.m_routing, p.sim)).2 } := by
  induction routes generalizing p with
  | nil => rfl
  | cons x xs ih =>
    have h := ih (InvalidateRoute p x)
    simp only [invalidateEach, List.foldl_cons] at h ⊢
    rw [h]
    rfl

/-- On a state with pairwise distinct pointers, a bulk invalidation leaves
the state that `InvalidateRoute` leaves when applied, in table order, to the
records whose entry satisfies the condition. -/
theorem bulkInvalidate_eq_invalidateEach (p : PIORoutingProtocol)
    (cond : PIORoutingEntry → Bool) (hnodup : DistinctPtrs p) :
    (bulkInvalidate p cond).1 = invalidateEach p (matchingPtrs cond p.m_routing) := by
  have h := bulkInvalidateLoop_eq_foldl p.m_garbageCollectionDelay cond p.m_routing p.sim false
    hnodup
  rw [invalidateEach_eq_foldl, ← h]
  rfl

theorem WellFormed_bulkInvalidate (p : PIORoutingProtocol) (cond : PIORoutingEntry → Bool)
    (h : WellFormed p) : WellFormed (bulkInvalidate p cond).1 := by
  rw [bulkInvalidate_eq_invalidateEach p cond h.ptr_nodup]
  exact WellFormed_invalidateEach _ p h

/-! Every reachable state is well formed. -/

theorem WellFormed_AddHostRouteTo (p : PIORoutingProtocol) (host : Ipv4Address)
    (interface metric sequenceNo : Nat) (timeoutTime garbageCollectionTime rnd : Time)
    (h : WellFormed p) (hfree : ∀ r ∈ p.m_routing, r.ptr ≠ p.nextPtr) :
    WellFormed (AddHostRouteTo p host interface metric sequenceNo timeoutTime
      garbageCollectionTime rnd) := by
  unfold AddHostRouteTo
  split
  · exact TableInv_push p.m_routing p.sim p.nextPtr _ hfree h
  · exact TableInv_push_schedule p.m_routing p.sim p.nextPtr _ _ _ _ rfl (Or.inr rfl) hfree h

theorem WellFormed_AddNetworkRouteTo (p : PIORoutingProtocol) (network : Ipv4Address)
    (networkMask : Ipv4Mask) (nextHop : Ipv4Address) (interface metric sequenceNo : Nat)
    (timeoutTime garbageCollectionTime rnd : Time) (h : WellFormed p)
    (hfree : ∀ r ∈ p.m_routing, r.ptr ≠ p.nextPtr) :
    WellFormed (AddNetworkRouteTo p network networkMask nextHop interface metric sequenceNo
      timeoutTime garbageCollectionTime rnd) := by
  unfold AddNetworkRouteTo
  split
  · exact TableInv_push p.m_routing p.sim p.nextPtr _ hfree h
  · exact TableInv_push_schedule p.m_routing p.sim p.nextPtr _ _ _ _ rfl (Or.inr rfl) hfree h

theorem WellFormed_AddNetworkRouteToInterface (p : PIORoutingProtocol)
    (network : Ipv4Address) (networkMask : Ipv4Mask) (interface metric sequenceNo : Nat)
    (timeoutTime garbageCollectionTime rnd : Time) (h : WellFormed p)
    (hfree : ∀ r ∈ p.m_routing, r.ptr ≠ p.nextPtr) :
    WellFormed (AddNetworkRouteToInterface p network networkMask interface metric sequenceNo
      timeoutTime garbageCollectionTime rnd) := by
  unfold AddNetworkRouteToInterface
  split
  · exact TableInv_push p.m_routing p.sim p.nextPtr _ hfree h
  · exact TableInv_push_schedule p.m_routing p.sim p.nextPtr _ _ _ _ rfl (Or.inl rfl) hfree h

/-- The event the scheduler runs next is one of the events it holds. -/
theorem nextEvent_mem (es : List ScheduledEvent) (e : ScheduledEvent)
    (h : nextEvent es = some e) : e ∈ es := by
  induction es generalizing e with
  | nil => simp [nextEvent] at h
  | cons x xs ih =>
    simp only [nextEvent] at h
    cases hn : nextEvent xs with
    | none =>
      rw [hn] at h
      simp only [Option.some.injEq] at h
      simp [h]
    | some m =>
      rw [hn] at h
      simp only at h
      split at h
      · simp only [Option.some.injEq] at h
        simp [h]
      · simp only [Option.some.injEq] at h
        subst h
        exact List.mem_cons_of_mem _ (ih m hn)

/-- What one turn of the scheduler does: the next event `e` leaves the list,
the clock moves to its time, and the state is then left alone (cancelled
event) or handed to `InvalidateRoute` or `DeleteRoute` with the pointer the
event carries. -/
theorem ProcessOneEvent_spec (p q : PIORoutingProtocol) (h : ProcessOneEvent p = some q) :
    ∃ e ∈ p.sim.events,
      (e.cancelled = true ∧ q = dequeue p e) ∨
      (e.cancelled = false ∧ q = InvalidateRoute (dequeue p e) e.action.route ∧
        e.action = Action.InvalidateRoute e.action.route) ∨
      (e.cancelled = false ∧ q = DeleteRoute (dequeue p e) e.action.route ∧
        e.action = Action.DeleteRoute e.action.route) := by
  unfold ProcessOneEvent at h
  cases hn : nextEvent p.sim.events with
  | none =>
    rw [hn] at h
    cases h
  | some e =>
    rw [hn] at h
    refine ⟨e, nextEvent_mem _ _ hn, ?_⟩
    simp only at h
    by_cases hc : e.cancelled = true
    · rw [if_pos hc] at h
      simp only [Option.some.injEq] at h
      exact Or.inl ⟨hc, h.symm⟩
    · rw [if_neg hc] at h
      have hc' : e.cancelled = false := by simpa using hc
      cases ha : e.action with
      | InvalidateRoute route =>
        rw [ha] at h
        simp only [Option.some.injEq] at h
        exact Or.inr (Or.inl ⟨hc', by simp [Action.route, h], by simp [Action.route]⟩)
      | DeleteRoute route =>
        rw [ha] at h
        simp only [Option.some.injEq] at h
        exact Or.inr (Or.inr ⟨hc', by simp [Action.route, h], by simp [Action.route]⟩)

theorem WellFormed_dequeue (p : PIORoutingProtocol) (e : ScheduledEvent)
    (h : WellFormed p) : WellFormed (dequeue p e) :=
  TableInv_filter p.m_routing p.sim e.ts _ h

theorem WellFormed_ProcessOneEvent (p q : PIORoutingProtocol) (h : WellFormed p)
    (hq : ProcessOneEvent p = some q) : WellFormed q := by
  obtain ⟨e, _, hcase⟩ := ProcessOneEvent_spec p q hq
  have h1 := WellFormed_dequeue p e h
  rcases hcase with ⟨_, rfl⟩ | ⟨_, rfl, _⟩ | ⟨_, rfl, _⟩
  · exact h1
  · exact WellFormed_InvalidateRoute _ _ h1
  · exact WellFormed_DeleteRoute _ _ h1

theorem WellFormed_Step (p q : PIORoutingProtocol) (h : WellFormed p) (hs : Step p q) :
    WellFormed q := by
  cases hs with
  | addHost host interface metric sequenceNo timeoutTime garbageCollectionTime rnd _ _ hfree =>
    exact WellFormed_AddHostRouteTo p _ _ _ _ _ _ _ h hfree
  | addNetwork network networkMask nextHop interface metric sequenceNo timeoutTime
      garbageCollectionTime rnd _ _ hfree =>
    exact WellFormed_AddNetworkRouteTo p _ _ _ _ _ _ _ _ _ h hfree
  | addInterface network networkMask interface metric sequenceNo timeoutTime
      garbageCollectionTime rnd _ _ hfree =>
    exact WellFormed_AddNetworkRouteToInterface p _ _ _ _ _ _ _ _ h hfree
  | addDefault nextHop interface hfree =>
    exact WellFormed_AddNetworkRouteTo p _ _ _ _ _ _ _ _ _ h hfree
  | invalidateInterface interface => exact WellFormed_bulkInvalidate p _ h
  | invalidateBroken destination destinationMask => exact WellFormed_bulkInvalidate p _ h
  | invalidateGateway gateway => exact WellFormed_bulkInvalidate p _ h
  | fire _ hq => exact WellFormed_ProcessOneEvent p q h hq
  | elapse t _ _ => exact TableInv_now p.m_routing p.sim t h

theorem WellFormed_of_Initial (p : PIORoutingProtocol) (h : Initial p) : WellFormed p := by
  obtain ⟨htbl, hev⟩ := h
  unfold WellFormed
  constructor <;> simp [htbl, hev]

/-- Well-formedness is kept along every sequence of moves. -/
theorem WellFormed_of_Reachable (p q : PIORoutingProtocol) (h : WellFormed p)
    (hr : Reachable p q) : WellFormed q := by
  induction hr with
  | refl => exact h
  | step q r _ hs ih => exact WellFormed_Step q r ih hs

/-! The entries the add operations create. -/

theorem AddHostRouteTo_m_routing (p : PIORoutingProtocol) (host : Ipv4Address)
    (interface metric sequenceNo : Nat) (timeoutTime garbageCollectionTime rnd : Time)
    (hhost : host ≠ loopbackAddress) :
    (AddHostRouteTo p host interface metric sequenceNo timeoutTime garbageCollectionTime
      rnd).m_routing =
        { ptr := p.nextPtr
          route :=
            { m_dest := host, m_destNetworkMask := Ipv4Mask.GetOnes,
              m_gateway := Ipv4Address.GetZero, m_interface := interface,
              m_sequenceNo := sequenceNo, m_metric := metric, m_changed := true,
              m_validity := Validity.VALID }
          event := some p.sim.nextUid } :: p.m_routing := by
  simp [AddHostRouteTo, hhost, PIORoutingEntry.mkHost, Simulator.Schedule]

theorem AddHostRouteTo_loopback (p : PIORoutingProtocol) (interface metric sequenceNo : Nat)
    (timeoutTime garbageCollectionTime rnd : Time) :
    AddHostRouteTo p loopbackAddress interface metric sequenceNo timeoutTime
        garbageCollectionTime rnd =
      { p with
        heapCount := p.heapCount + 1
        m_routing := localHostRecord p.nextPtr interface :: p.m_routing } := by
  simp [AddHostRouteTo, localHostRecord, PIORoutingEntry.mkHost]

/-- C11. Every route added by `AddHostRouteTo` for a host other than
127.0.0.1, or by either overload of `AddNetworkRouteTo`, is the front record
of the table and starts with validity `VALID`, changed = true and the
metric and sequence number passed by the caller. -/
theorem C11_added_route_starts_valid (p : PIORoutingProtocol) (host network : Ipv4Address)
    (networkMask : Ipv4Mask) (nextHop : Ipv4Address) (interface metric sequenceNo : Nat)
    (timeoutTime garbageCollectionTime rnd : Time) (hhost : host ≠ loopbackAddress) :
    (∃ r, (AddHostRouteTo p host interface metric sequenceNo timeoutTime garbageCollectionTime
          rnd).m_routing = r :: p.m_routing ∧
        r.route.m_dest = host ∧ r.route.m_validity = Validity.VALID ∧
        r.route.m_changed = true ∧ r.route.m_metric = metric ∧
        r.route.m_sequenceNo = sequenceNo) ∧
      (∃ r, (AddNetworkRouteTo p network networkMask nextHop interface metric sequenceNo
          timeoutTime garbageCollectionTime rnd).m_routing = r :: p.m_routing ∧
        r.route.m_dest = network ∧ r.route.m_validity = Validity.VALID ∧
        r.route.m_changed = true ∧ r.route.m_metric = metric ∧
        r.route.m_sequenceNo = sequenceNo) ∧
      (∃ r, (AddNetworkRouteToInterface p network networkMask interface metric sequenceNo
          timeoutTime garbageCollectionTime rnd).m_routing = r :: p.m_routing ∧
        r.route.m_dest = network ∧ r.route.m_validity = Validity.VALID ∧
        r.route.m_changed = true ∧ r.route.m_metric = metric ∧
        r.route.m_sequenceNo = sequenceNo) := by
  refine ⟨⟨_, AddHostRouteTo_m_routing p host interface metric sequenceNo timeoutTime
    garbageCollectionTime rnd hhost, rfl, rfl, rfl, rfl, rfl⟩, ?_, ?_⟩
  · obtain ⟨ev, h⟩ := AddNetworkRouteTo_m_routing p network networkMask nextHop interface
      metric sequenceNo timeoutTime garbageCollectionTime rnd
    exact ⟨_, h, rfl, rfl, rfl, rfl, rfl⟩
  · exact ⟨_, AddNetworkRouteToInterface_m_routing p network networkMask interface metric
      sequenceNo timeoutTime garbageCollectionTime rnd, rfl, rfl, rfl, rfl, rfl⟩

/-- Witness of C11 on node 2: a host route to 10.10.10.9 on interface 2 with
metric 7 and sequence number 12. -/
theorem C11_added_route_starts_valid_witness :
    (0x0a0a0a09 : Ipv4Address) ≠ loopbackAddress ∧
      ∃ r, (AddHostRouteTo node2 0x0a0a0a09 2 7 12 180000000000 10000000000
          1000000000).m_routing = r :: node2.m_routing ∧
        r.route.m_dest = 0x0a0a0a09 ∧ r.route.m_validity = Validity.VALID ∧
        r.route.m_changed = true ∧ r.route.m_metric = 7 ∧ r.route.m_sequenceNo = 12 :=
  ⟨by decide,
    (C11_added_route_starts_valid node2 0x0a0a0a09 0 0 0 2 7 12 180000000000 10000000000
      1000000000 (by decide)).1⟩

/-! What a move does to a record of the table. -/

theorem mem_AddHostRouteTo (p : PIORoutingProtocol) (host : Ipv4Address)
    (interface metric sequenceNo : Nat) (timeoutTime garbageCollectionTime rnd : Time)
    (r : RouteTableRecord) (hr : r ∈ p.m_routing) :
    r ∈ (AddHostRouteTo p host interface metric sequenceNo timeoutTime garbageCollectionTime
      rnd).m_routing := by
  unfold AddHostRouteTo
  split <;> exact List.mem_cons_of_mem _ hr

theorem mem_AddNetworkRouteTo (p : PIORoutingProtocol) (network : Ipv4Address)
    (networkMask : Ipv4Mask) (nextHop : Ipv4Address) (interface metric sequenceNo : Nat)
    (timeoutTime garbageCollectionTime rnd : Time) (r : RouteTableRecord)
    (hr : r ∈ p.m_routing) :
    r ∈ (AddNetworkRouteTo p network networkMask nextHop interface metric sequenceNo
      timeoutTime garbageCollectionTime rnd).m_routing := by
  unfold AddNetworkRouteTo
  split <;> exact List.mem_cons_of_mem _ hr

theorem mem_AddNetworkRouteToInterface (p : PIORoutingProtocol) (network : Ipv4Address)
    (networkMask : Ipv4Mask) (interface metric sequenceNo : Nat)
    (timeoutTime garbageCollectionTime rnd : Time) (r : RouteTableRecord)
    (hr : r ∈ p.m_routing) :
    r ∈ (AddNetworkRouteToInterface p network networkMask interface metric sequenceNo
      timeoutTime garbageCollectionTime rnd).m_routing := by
  unfold AddNetworkRouteToInterface
  split <;> exact List.mem_cons_of_mem _ hr

/-- The loop of a bulk invalidation keeps a record whose entry fails the
condition and invalidates a record whose entry satisfies it. -/
theorem bulkInvalidateLoop_record (gc : Time) (cond : PIORoutingEntry → Bool)
    (tbl : List RouteTableRecord) (sim : Simulator) (retVal : Bool) (r : RouteTableRecord)
    (hr : r ∈ tbl) :
    (cond r.route = false ∧ r ∈ (bulkInvalidateLoop gc cond tbl sim retVal).1) ∨
      (cond r.route = true ∧
        ∃ u, { ptr := r.ptr, route := invalidated r.route, event := some u } ∈
          (bulkInvalidateLoop gc cond tbl sim retVal).1) := by
  induction tbl generalizing sim retVal with
  | nil => cases hr
  | cons it rest ih =>
    by_cases hc : cond it.route = true
    · rcases List.mem_cons.mp hr with rfl | hr
      · refine Or.inr ⟨hc, sim.nextUid, ?_⟩
        simp [bulkInvalidateLoop, hc, invalidateRecord_fst]
      · rcases ih (invalidateRecord gc sim it).2 true hr with ⟨h1, h2⟩ | ⟨h1, u, h2⟩
        · exact Or.inl ⟨h1, by simp [bulkInvalidateLoop, hc, h2]⟩
        · exact Or.inr ⟨h1, u, by simp [bulkInvalidateLoop, hc, h2]⟩
    · rcases List.mem_cons.mp hr with rfl | hr
      · refine Or.inl ⟨by simpa using hc, ?_⟩
        simp [bulkInvalidateLoop, hc]
      · rcases ih sim retVal hr with ⟨h1, h2⟩ | ⟨h1, u, h2⟩
        · exact Or.inl ⟨h1, by simp [bulkInvalidateLoop, hc, h2]⟩
        · exact Or.inr ⟨h1, u, by simp [bulkInvalidateLoop, hc, h2]⟩

/-- The three conditions of the bulk invalidations require `VALID`. -/
theorem cond_valid (cond : PIORoutingEntry → Bool) (e : PIORoutingEntry)
    (hcond : (∃ i, cond = condInterface i) ∨ (∃ d m, cond = condBroken d m) ∨
      (∃ g, cond = condGateway g)) (h : cond e = true) :
    e.m_validity = Validity.VALID := by
  rcases hcond with ⟨i, rfl⟩ | ⟨d, m, rfl⟩ | ⟨g, rfl⟩
  · simp only [condInterface, Bool.and_eq_true, decide_eq_true_eq] at h
    exact h.2
  · simp only [condBroken, Bool.and_eq_true, decide_eq_true_eq] at h
    exact h.2
  · simp only [condGateway, Bool.and_eq_true, decide_eq_true_eq] at h
    exact h.2

/-- The fate of a record under `InvalidateRoute`: kept as it is when its
pointer is another one, invalidated otherwise (in a table with pairwise
distinct pointers). -/
theorem InvalidateRoute_record (p : PIORoutingProtocol) (route : Nat) (r : RouteTableRecord)
    (hnodup : DistinctPtrs p) (hr : r ∈ p.m_routing) :
    (r.ptr ≠ route ∧ r ∈ (InvalidateRoute p route).m_routing) ∨
      (r.ptr = route ∧
        { ptr := r.ptr, route := invalidated r.route, event := some p.sim.nextUid } ∈
          (InvalidateRoute p route).m_routing) := by
  rcases InvalidateRoute_spec p route with ⟨hall, hres⟩ | ⟨pre, it, post, htbl, hpre, hit, hres⟩
  · exact Or.inl ⟨hall r hr, by rw [hres]; exact hr⟩
  · rw [hres]
    simp only
    rw [invalidateRecord_fst]
    by_cases hrp : r.ptr = route
    · right
      refine ⟨hrp, ?_⟩
      have hrit : r = it := by
        unfold DistinctPtrs at hnodup
        rw [htbl] at hnodup hr
        obtain ⟨h1, h2⟩ := ptr_ne_of_nodup pre post it hnodup
        rw [List.mem_append, List.mem_cons] at hr
        rcases hr with hr | hr | hr
        · exact absurd (hrp.trans hit.symm) (h1 r hr)
        · exact hr
        · exact absurd (hrp.trans hit.symm) (h2 r hr)
      subst hrit
      simp
    · left
      refine ⟨hrp, ?_⟩
      rw [htbl, List.mem_append, List.mem_cons] at hr
      rw [List.mem_append, List.mem_cons]
      rcases hr with hr | hr | hr
      · exact Or.inl hr
      · exact absurd (hr ▸ hit) hrp
      · exact Or.inr (Or.inr hr)

/-- The fate of a record under `DeleteRoute`: kept as it is when its pointer
is another one, and otherwise no record with its pointer is left (in a table
with pairwise distinct pointers). -/
theorem DeleteRoute_record (p : PIORoutingProtocol) (route : Nat) (r : RouteTableRecord)
    (hnodup : DistinctPtrs p) (hr : r ∈ p.m_routing) :
    (r.ptr ≠ route ∧ r ∈ (DeleteRoute p route).m_routing) ∨
      (r.ptr = route ∧ ∀ x ∈ (DeleteRoute p route).m_routing, x.ptr ≠ r.ptr) := by
  rcases DeleteRoute_spec p route with ⟨hall, hres⟩ | ⟨pre, it, post, htbl, hpre, hit, hres⟩
  · exact Or.inl ⟨hall r hr, by rw [hres]; exact hr⟩
  · rw [hres]
    simp only
    unfold DistinctPtrs at hnodup
    rw [htbl] at hnodup hr
    obtain ⟨h1, h2⟩ := ptr_ne_of_nodup pre post it hnodup
    by_cases hrp : r.ptr = route
    · right
      refine ⟨hrp, ?_⟩
      intro x hx
      rw [List.mem_append] at hx
      rw [hrp, ← hit]
      rcases hx with hx | hx
      · exact h1 x hx
      · exact h2 x hx
    · left
      refine ⟨hrp, ?_⟩
      rw [List.mem_append, List.mem_cons] at hr
      rw [List.mem_append]
      rcases hr with hr | hr | hr
      · exact Or.inl hr
      · exact absurd (hr ▸ hit) hrp
      · exact Or.inr hr

/-- Two records of a table with pairwise distinct pointers that hold the same
pointer are the same record. -/
theorem eq_of_ptr_eq (tbl : List RouteTableRecord) (a b : RouteTableRecord)
    (hnodup : (tbl.map fun r => r.ptr).Nodup) (ha : a ∈ tbl) (hb : b ∈ tbl)
    (hab : a.ptr = b.ptr) : a = b := by
  obtain ⟨pre, post, htbl, h1, h2⟩ := split_of_mem_nodup tbl a hnodup ha
  rw [htbl, List.mem_append, List.mem_cons] at hb
  rcases hb with hb | hb | hb
  · exact absurd hab.symm (h1 b hb)
  · exact hb.symm
  · exact absurd hab.symm (h2 b hb)

/-- The fate of a record of a well-formed state under one move: it is kept
as it is; or it is invalidated in place; or some event carried its pointer
and no record with its pointer is left. -/
theorem Step_record (p q : PIORoutingProtocol) (hwf : WellFormed p) (hs : Step p q)
    (r : RouteTableRecord) (hr : r ∈ p.m_routing) :
    r ∈ q.m_routing ∨
      (∃ u, { ptr := r.ptr, route := invalidated r.route, event := some u } ∈ q.m_routing) ∨
      ((∃ e ∈ p.sim.events, e.action.route = r.ptr) ∧ ∀ x ∈ q.m_routing, x.ptr ≠ r.ptr) := by
  have hbulk : ∀ cond : PIORoutingEntry → Bool,
      (r ∈ (bulkInvalidate p cond).1.m_routing ∨
        (∃ u, { ptr := r.ptr, route := invalidated r.route, event := some u } ∈
            (bulkInvalidate p cond).1.m_routing)) := by
    intro cond
    rcases bulkInvalidateLoop_record p.m_garbageCollectionDelay cond p.m_routing p.sim false r hr
      with ⟨_, h2⟩ | ⟨_, u, h2⟩
    · exact Or.inl h2
    · exact Or.inr ⟨u, h2⟩
  cases hs with
  | addHost host interface metric sequenceNo timeoutTime garbageCollectionTime rnd =>
    exact Or.inl (mem_AddHostRouteTo p _ _ _ _ _ _ _ r hr)
  | addNetwork network networkMask nextHop interface metric sequenceNo timeoutTime
      garbageCollectionTime rnd =>
    exact Or.inl (mem_AddNetworkRouteTo p _ _ _ _ _ _ _ _ _ r hr)
  | addInterface network networkMask interface metric sequenceNo timeoutTime
      garbageCollectionTime rnd =>
    exact Or.inl (mem_AddNetworkRouteToInterface p _ _ _ _ _ _ _ _ r hr)
  | addDefault nextHop interface =>
    exact Or.inl (mem_AddNetworkRouteTo p _ _ _ _ _ _ _ _ _ r hr)
  | invalidateInterface interface =>
    rcases hbulk (condInterface interface) with h | h
    · exact Or.inl h
    · exact Or.inr (Or.inl h)
  | invalidateBroken destination destinationMask =>
    rcases hbulk (condBroken destination destinationMask) with h | h
    · exact Or.inl h
    · exact Or.inr (Or.inl h)
  | invalidateGateway gateway =>
    rcases hbulk (condGateway gateway) with h | h
    · exact Or.inl h
    · exact Or.inr (Or.inl h)
  | fire _ hq =>
    obtain ⟨e, he, hcase⟩ := ProcessOneEvent_spec p q hq
    have hnd : DistinctPtrs (dequeue p e) := hwf.ptr_nodup
    have hr' : r ∈ (dequeue p e).m_routing := hr
    rcases hcase with ⟨_, rfl⟩ | ⟨_, rfl, _⟩ | ⟨_, rfl, _⟩
    · exact Or.inl hr
    · rcases InvalidateRoute_record (dequeue p e) e.action.route r hnd hr' with
        ⟨_, h⟩ | ⟨hp, h⟩
      · exact Or.inl h
      · exact Or.inr (Or.inl ⟨_, h⟩)
    · rcases DeleteRoute_record (dequeue p e) e.action.route r hnd hr' with
        ⟨_, h⟩ | ⟨hp, h⟩
      · exact Or.inl h
      · exact Or.inr (Or.inr ⟨⟨e, he, hp.symm⟩, h⟩)
  | elapse t _ _ => exact Or.inl hr

/-- No move takes an entry of the table back to `VALID`: a record of a
well-formed state that is still in the table after a move has the validity
it had, or is `INVALID`. -/
theorem Step_validity (p q : PIORoutingProtocol) (hwf : WellFormed p) (hs : Step p q)
    (r : RouteTableRecord) (hr : r ∈ p.m_routing) (r' : RouteTableRecord)
    (hr' : r' ∈ q.m_routing) (hptr : r'.ptr = r.ptr) :
    r'.route.m_validity = r.route.m_validity ∨ r'.route.m_validity = Validity.INVALID := by
  have hwfq := WellFormed_Step p q hwf hs
  rcases Step_record p q hwf hs r hr with h | ⟨u, h⟩ | ⟨_, h⟩
  · rw [eq_of_ptr_eq q.m_routing r' r hwfq.ptr_nodup hr' h hptr]
    exact Or.inl rfl
  · rw [eq_of_ptr_eq q.m_routing r' _ hwfq.ptr_nodup hr' h hptr]
    exact Or.inr rfl
  · exact absurd hptr (h r' hr')

/-- The next turn of the scheduler is a move whenever an event is left. -/
theorem Step_runNext (p : PIORoutingProtocol) (h : (ProcessOneEvent p).isSome = true) :
    Step p (runNext p) := by
  cases hq : ProcessOneEvent p with
  | none =>
    rw [hq] at h
    cases h
  | some q =>
    have hrun : runNext p = q := by
      unfold runNext
      rw [hq]
      rfl
    rw [hrun]
    exact Step.fire p q hq

/-- The state `staleState` is reached from the fresh instance on the
recycling heap by three moves: the add, the bulk invalidation and the firing
of the `DeleteRoute` event. -/
theorem staleState_Reachable : Reachable recyclingProtocol staleState := by
  unfold staleState
  apply Reachable.step _ _ ?_ (Step_runNext _ (by decide))
  apply Reachable.step _ _ ?_ (Step.invalidateInterface _ 1)
  apply Reachable.step _ _ ?_
    (Step.addInterface _ _ _ _ _ _ _ _ _ (by decide) (by decide) (by decide))
  exact Reachable.refl

/-- C12 fails in the code. From an empty table, the overload of
`AddNetworkRouteTo` without gateway is called with a timeout of 500 s (the
entry is allocated at address 0 and its `InvalidateRoute` event, uid 4, never
reaches the table), then `InvalidateRoutesForInterface (1)`, and at 10 s the
scheduler runs `DeleteRoute`: the table is empty, address 0 is freed and event
4, which carries that address, is still pending. `AddHostRouteTo` for
127.0.0.1 then gets address 0 from `new`: the record pushed is the `LHOST`
record with an empty handle and nothing is scheduled. At 500 s event 4 runs
`InvalidateRoute` on address 0: the loopback entry is `INVALID`, its changed
flag is set and a `DeleteRoute` event (uid 6, due at 510 s) is its timer; when
that event runs the loopback entry is removed from the table. -/
theorem C12_loopback_entry_invalidated_by_stale_timer :
    Initial recyclingProtocol ∧ Reachable recyclingProtocol staleState ∧
      staleState.m_routing = [] ∧
      staleState.sim.events = [⟨4, 500000000000, Action.InvalidateRoute 0, false⟩] ∧
      staleState.nextPtr = 0 ∧
      loopbackOnStale.m_routing = [localHostRecord 0 0] ∧
      loopbackOnStale.sim.events = staleState.sim.events ∧
      Reachable loopbackOnStale (runNext (runNext loopbackOnStale)) ∧
      (runNext loopbackOnStale).sim.now = 500000000000 ∧
      (runNext loopbackOnStale).m_routing.map
          (fun r => (r.ptr, r.route.m_dest, r.route.m_validity, r.route.m_changed, r.event)) =
        [(0, loopbackAddress, Validity.INVALID, true, some 6)] ∧
      (runNext loopbackOnStale).sim.events =
        [⟨6, 510000000000, Action.DeleteRoute 0, false⟩] ∧
      (runNext (runNext loopbackOnStale)).sim.now = 510000000000 ∧
      (runNext (runNext loopbackOnStale)).m_routing = [] := by
  refine ⟨⟨rfl, rfl⟩, staleState_Reachable, by decide, by decide, by decide, by decide,
    by decide, ?_, by decide, by decide, by decide, by decide, by decide⟩
  apply Reachable.step _ _ ?_ (Step_runNext _ (by decide))
  apply Reachable.step _ _ ?_ (Step_runNext _ (by decide))
  exact Reachable.refl

/-- The state `loopbackOnStale` is reached from the fresh instance on the
recycling heap. -/
theorem loopbackOnStale_Reachable : Reachable recyclingProtocol loopbackOnStale :=
  Reachable.step _ _ staleState_Reachable
    (Step.addHost _ _ _ _ _ _ _ _ (by decide) (by decide) (by decide))

/-- C20 fails in the code. In the state `loopbackOnStale`, reached from an
empty table, the one entry of the table is the loopback entry, `LHOST`, at
address 0, and the event the scheduler runs next is the `InvalidateRoute`
event on address 0 left pending by the entry that was at that address
before. The firing of that event is a move that takes the entry from `LHOST`
to `INVALID`, a change that is neither `VALID` to `INVALID` nor a removal:
`InvalidateRoute` does not test the validity of the entry it is called on. -/
theorem C20_local_host_entry_becomes_invalid :
    Initial recyclingProtocol ∧ Reachable recyclingProtocol loopbackOnStale ∧
      Step loopbackOnStale (runNext loopbackOnStale) ∧
      loopbackOnStale.m_routing.map (fun r => (r.ptr, r.route.m_validity)) =
        [(0, Validity.LHOST)] ∧
      nextEvent loopbackOnStale.sim.events =
        some ⟨4, 500000000000, Action.InvalidateRoute 0, false⟩ ∧
      (runNext loopbackOnStale).m_routing.map (fun r => (r.ptr, r.route.m_validity)) =
        [(0, Validity.INVALID)] ∧
      ¬ (∀ r ∈ loopbackOnStale.m_routing, ∀ r' ∈ (runNext loopbackOnStale).m_routing,
          r'.ptr = r.ptr →
            r'.route.m_validity = r.route.m_validity ∨
              (r.route.m_validity = Validity.VALID ∧
                r'.route.m_validity = Validity.INVALID)) :=
  ⟨⟨rfl, rfl⟩, loopbackOnStale_Reachable, Step_runNext _ (by decide), by decide, by decide,
    by decide, by decide⟩

/-- Node 2 is reached from the fresh attached instance by the eight calls of
`DoInitialize`. -/
theorem node2_Reachable : Reachable attachedProtocol node2 := by
  unfold node2
  simp only
  apply Reachable.step _ _ ?_
    (Step.addNetwork _ _ _ _ _ _ _ _ _ _ (by decide) (by decide) (by decide))
  apply Reachable.step _ _ ?_
    (Step.addNetwork _ _ _ _ _ _ _ _ _ _ (by decide) (by decide) (by decide))
  apply Reachable.step _ _ ?_
    (Step.addNetwork _ _ _ _ _ _ _ _ _ _ (by decide) (by decide) (by decide))
  apply Reachable.step _ _ ?_
    (Step.addNetwork _ _ _ _ _ _ _ _ _ _ (by decide) (by decide) (by decide))
  apply Reachable.step _ _ ?_
    (Step.addInterface _ _ _ _ _ _ _ _ _ (by decide) (by decide) (by decide))
  apply Reachable.step _ _ ?_
    (Step.addInterface _ _ _ _ _ _ _ _ _ (by decide) (by decide) (by decide))
  apply Reachable.step _ _ ?_
    (Step.addInterface _ _ _ _ _ _ _ _ _ (by decide) (by decide) (by decide))
  apply Reachable.step _ _ ?_
    (Step.addHost _ _ _ _ _ _ _ _ (by decide) (by decide) (by decide))
  exact Reachable.refl

theorem node2_WellFormed : WellFormed node2 :=
  WellFormed_of_Reachable attachedProtocol node2
    (WellFormed_of_Initial attachedProtocol ⟨rfl, rfl⟩) node2_Reachable

/-! `InvalidateRoute` and `DeleteRoute` on an entry of the table. -/

/-- In a well-formed state `InvalidateRoute` leaves alone every event that
carries another pointer, and adds none. -/
theorem InvalidateRoute_events_frame (p : PIORoutingProtocol) (route : Nat)
    (e : ScheduledEvent) (hwf : WellFormed p) (hne : e.action.route ≠ route) :
    e ∈ (InvalidateRoute p route).sim.events ↔ e ∈ p.sim.events := by
  rcases InvalidateRoute_spec p route with ⟨_, hres⟩ | ⟨pre, it, post, htbl, _, hit, hres⟩
  · rw [hres]
  · rw [hres]
    simp only
    rw [invalidateRecord_events, List.mem_append, List.mem_singleton]
    have hitm : it ∈ p.m_routing := by simp [htbl]
    constructor
    · rintro (h | h)
      · obtain ⟨e0, he0, _, _, ha, hcase⟩ := mem_Cancel p.sim it.event e h
        rcases hcase with rfl | ⟨hid, _⟩
        · exact he0
        · exfalso
          apply hne
          rw [ha, hwf.handle_own it hitm e0 he0 hid.symm, hit]
      · exfalso
        apply hne
        rw [h]
        exact hit
    · intro h
      left
      apply mem_Cancel_of_ne p.sim it.event e h
      intro hid
      apply hne
      rw [hwf.handle_own it hitm e h hid.symm, hit]

/-- C13. In a well-formed state (every reachable state is), for every
`VALID` entry `r` of the table, `InvalidateRoute` on its pointer leaves the
table with `r` replaced, at its place, by the same entry with validity
`INVALID` and changed = true and with the handle of a new event; the event
its former handle referred to is cancelled; exactly one event is appended to
the simulator, `DeleteRoute` on the pointer of `r`, due at now plus
`m_garbageCollectionDelay`, not cancelled; every other record is unchanged,
and so is every event that carries the pointer of another entry. -/
theorem C13_invalidate_route (p : PIORoutingProtocol) (r : RouteTableRecord)
    (hwf : WellFormed p) (hr : r ∈ p.m_routing)
    (hv : r.route.m_validity = Validity.VALID) :
    ∃ pre post, p.m_routing = pre ++ r :: post ∧
      (InvalidateRoute p r.ptr).m_routing =
        pre ++ ⟨r.ptr, invalidated r.route, some p.sim.nextUid⟩ :: post ∧
      r.route.m_validity = Validity.VALID ∧
      (invalidated r.route).m_validity = Validity.INVALID ∧
      (invalidated r.route).m_changed = true ∧
      (InvalidateRoute p r.ptr).sim.events =
        (p.sim.Cancel r.event).events ++
          [⟨p.sim.nextUid, p.sim.now + p.m_garbageCollectionDelay, Action.DeleteRoute r.ptr,
            false⟩] ∧
      (∀ e ∈ p.sim.events, some e.uid = r.event →
        e.action.route = r.ptr ∧
          { e with cancelled := true } ∈ (InvalidateRoute p r.ptr).sim.events) ∧
      (∀ e : ScheduledEvent, e.action.route ≠ r.ptr →
        (e ∈ (InvalidateRoute p r.ptr).sim.events ↔ e ∈ p.sim.events)) := by
  rcases InvalidateRoute_spec p r.ptr with ⟨hall, _⟩ | ⟨pre, it, post, htbl, _, hit, hres⟩
  · exact absurd rfl (hall r hr)
  have hitm : it ∈ p.m_routing := by simp [htbl]
  have hitr : r = it := (eq_of_ptr_eq p.m_routing it r hwf.ptr_nodup hitm hr hit).symm
  subst hitr
  refine ⟨pre, post, htbl, ?_, hv, rfl, rfl, ?_, ?_, ?_⟩
  · rw [hres]
    simp only
    rw [invalidateRecord_fst]
  · rw [hres]
    simp only
    rw [invalidateRecord_events]
  · intro e he hid
    refine ⟨hwf.handle_own r hr e he hid.symm, ?_⟩
    rw [hres]
    simp only
    rw [invalidateRecord_events, List.mem_append, Cancel_events, List.mem_map]
    exact Or.inl ⟨e, he, by simp [hid]⟩
  · intro e hne
    exact InvalidateRoute_events_frame p r.ptr e hwf hne

/-- Witness of C13 on node 2 for the entry 172.16.1.0/30 through
203.15.19.2. -/
theorem C13_invalidate_route_witness :
    WellFormed node2 ∧ node2GatewayRecord ∈ node2.m_routing ∧
      node2GatewayRecord.route.m_validity = Validity.VALID ∧
      ∃ pre post, node2.m_routing = pre ++ node2GatewayRecord :: post ∧
        (InvalidateRoute node2 node2GatewayRecord.ptr).m_routing =
          pre ++ ⟨node2GatewayRecord.ptr, invalidated node2GatewayRecord.route,
            some node2.sim.nextUid⟩ :: post :=
  ⟨node2_WellFormed, by decide, rfl,
    (C13_invalidate_route node2 node2GatewayRecord node2_WellFormed (by decide) rfl).imp
      fun _ h => h.imp fun _ h => ⟨h.1, h.2.1⟩⟩

/-- C14. `DeleteRoute` locates its entry by its pointer: in a table whose
records hold pairwise distinct pointers, for an entry `r` of the table the
table left is the previous one with that one record removed; every other
record, also one whose entry equals that of `r` field by field, stays, in
the same order and with the same entry and handle; no record with the
pointer of `r` is left; and the simulator, hence every timer, is untouched. -/
theorem C14_delete_route (p : PIORoutingProtocol) (r : RouteTableRecord)
    (hnodup : DistinctPtrs p) (hr : r ∈ p.m_routing) :
    ∃ pre post, p.m_routing = pre ++ r :: post ∧
      (DeleteRoute p r.ptr).m_routing = pre ++ post ∧
      (∀ x ∈ p.m_routing, x.ptr ≠ r.ptr → x ∈ (DeleteRoute p r.ptr).m_routing) ∧
      (∀ x ∈ (DeleteRoute p r.ptr).m_routing, x.ptr ≠ r.ptr) ∧
      (DeleteRoute p r.ptr).sim = p.sim := by
  rcases DeleteRoute_spec p r.ptr with ⟨hall, _⟩ | ⟨pre, it, post, htbl, _, hit, hres⟩
  · exact absurd rfl (hall r hr)
  have hitm : it ∈ p.m_routing := by simp [htbl]
  have hitr : r = it := (eq_of_ptr_eq p.m_routing it r hnodup hitm hr hit).symm
  subst hitr
  refine ⟨pre, post, htbl, by rw [hres], ?_, ?_, by rw [hres]⟩
  · intro x hx hne
    rcases DeleteRoute_record p r.ptr x hnodup hx with ⟨_, h⟩ | ⟨h, _⟩
    · exact h
    · exact absurd h hne
  · rcases DeleteRoute_record p r.ptr r hnodup hr with ⟨h, _⟩ | ⟨_, h⟩
    · exact absurd rfl h
    · exact h

theorem twinTable_DistinctPtrs : DistinctPtrs twinTable := by
  unfold DistinctPtrs
  decide

/-- Witness of C14 on a table holding twice the same route: deleting the
older record leaves the newer one, whose entry is equal field by field. -/
theorem C14_delete_route_witness :
    DistinctPtrs twinTable ∧ twinOlder ∈ twinTable.m_routing ∧
      twinTable.m_routing = [twinNewer, twinOlder] ∧
      twinNewer.route = twinOlder.route ∧
      (DeleteRoute twinTable twinOlder.ptr).m_routing = [twinNewer] ∧
      ∃ pre post, twinTable.m_routing = pre ++ twinOlder :: post ∧
        (DeleteRoute twinTable twinOlder.ptr).m_routing = pre ++ post :=
  ⟨twinTable_DistinctPtrs, by decide, rfl, rfl, rfl,
    (C14_delete_route twinTable twinOlder twinTable_DistinctPtrs (by decide)).imp
      fun _ h => h.imp fun _ h => ⟨h.1, h.2.1⟩⟩

/-- C15. `DeleteRoute` and `InvalidateRoute` called with a pointer that no
record of the table holds return the state they were given, unchanged; and
in a table whose records hold pairwise distinct pointers, `DeleteRoute`
called twice with the same pointer leaves the state that one call leaves.
Both functions are total: they end with a state on every input. -/
theorem C15_absent_entry_noop (p : PIORoutingProtocol) (route : Nat) :
    ((∀ r ∈ p.m_routing, r.ptr ≠ route) →
        DeleteRoute p route = p ∧ InvalidateRoute p route = p) ∧
      (DistinctPtrs p → DeleteRoute (DeleteRoute p route) route = DeleteRoute p route) := by
  constructor
  · intro habs
    constructor
    · rcases DeleteRoute_spec p route with ⟨_, hres⟩ | ⟨pre, it, post, htbl, _, hit, _⟩
      · exact hres
      · exact absurd hit (habs it (by simp [htbl]))
    · rcases InvalidateRoute_spec p route with ⟨_, hres⟩ | ⟨pre, it, post, htbl, _, hit, _⟩
      · exact hres
      · exact absurd hit (habs it (by simp [htbl]))
  · intro hnodup
    have habs : ∀ x ∈ (DeleteRoute p route).m_routing, x.ptr ≠ route := by
      rcases DeleteRoute_spec p route with ⟨hall, hres⟩ | ⟨pre, it, post, htbl, _, hit, _⟩
      · rw [hres]
        exact hall
      · have hitm : it ∈ p.m_routing := by simp [htbl]
        rcases DeleteRoute_record p route it hnodup hitm with ⟨h, _⟩ | ⟨_, h⟩
        · exact absurd hit h
        · rw [hit] at h
          exact h
    rcases DeleteRoute_spec (DeleteRoute p route) route with
      ⟨_, hres⟩ | ⟨pre, it, post, htbl, _, hit, _⟩
    · exact hres
    · exact absurd hit (habs it (by simp [htbl]))

/-- Witness of C15 on node 2: the pointer 99 is held by no record, and the
entry with pointer 4 is deleted twice. -/
theorem C15_absent_entry_noop_witness :
    (∀ r ∈ node2.m_routing, r.ptr ≠ 99) ∧ DistinctPtrs node2 ∧
      (DeleteRoute node2 99 = node2 ∧ InvalidateRoute node2 99 = node2) ∧
      DeleteRoute (DeleteRoute node2 4) 4 = DeleteRoute node2 4 :=
  ⟨by decide, node2_WellFormed.ptr_nodup,
    (C15_absent_entry_noop node2 99).1 (by decide),
    (C15_absent_entry_noop node2 4).2 node2_WellFormed.ptr_nodup⟩

/-! The bulk invalidations. -/

/-- The value a bulk invalidation returns: `retVal` is set once a record
satisfies the condition. -/
theorem bulkInvalidateLoop_retVal (gc : Time) (cond : PIORoutingEntry → Bool)
    (tbl : List RouteTableRecord) (sim : Simulator) (retVal : Bool) :
    (bulkInvalidateLoop gc cond tbl sim retVal).2.2 =
      (retVal || tbl.any fun r => cond r.route) := by
  induction tbl generalizing sim retVal with
  | nil => simp [bulkInvalidateLoop]
  | cons it rest ih =>
    by_cases hc : cond it.route = true
    · simp [bulkInvalidateLoop, hc, ih]
    · simp [bulkInvalidateLoop, hc, ih]

/-- When no record satisfies the condition the loop changes nothing. -/
theorem bulkInvalidateLoop_noop (gc : Time) (cond : PIORoutingEntry → Bool)
    (tbl : List RouteTableRecord) (sim : Simulator) (retVal : Bool)
    (h : ∀ r ∈ tbl, cond r.route = false) :
    bulkInvalidateLoop gc cond tbl sim retVal = (tbl, sim, retVal) := by
  induction tbl generalizing sim retVal with
  | nil => rfl
  | cons it rest ih =>
    have hit : cond it.route = false := h it (List.mem_cons_self _ _)
    have hrest := ih sim retVal (fun r hr => h r (List.mem_cons_of_mem _ hr))
    simp [bulkInvalidateLoop, hit, hrest]

/-- A bulk invalidation returns true iff some record satisfies its
condition, and when it returns false it leaves the state unchanged. -/
theorem bulkInvalidate_retVal (p : PIORoutingProtocol) (cond : PIORoutingEntry → Bool) :
    ((bulkInvalidate p cond).2 = true ↔ ∃ r ∈ p.m_routing, cond r.route = true) ∧
      ((bulkInvalidate p cond).2 = false → (bulkInvalidate p cond).1 = p) := by
  have hret : (bulkInvalidate p cond).2 = p.m_routing.any fun r => cond r.route := by
    simp [bulkInvalidate, bulkInvalidateLoop_retVal]
  constructor
  · rw [hret, List.any_eq_true]
  · intro hfalse
    rw [hret] at hfalse
    have hall : ∀ r ∈ p.m_routing, cond r.route = false := by
      intro r hr
      by_contra hc
      have : (p.m_routing.any fun r => cond r.route) = true :=
        List.any_eq_true.mpr ⟨r, hr, by simpa using hc⟩
      rw [hfalse] at this
      cases this
    simp [bulkInvalidate, bulkInvalidateLoop_noop _ _ _ _ _ hall]

/-- C18. Each of `InvalidateRoutesForInterface`, `InvalidateBrokenRoutes` and
`InvalidateRoutesForGateway` returns true iff, before the call, at least one
entry was `VALID` and matched its predicate (interface equal, destination
and mask both equal, gateway equal); when it returns false the whole state,
table and timers, is unchanged. The functions are total: no error is raised. -/
theorem C18_bulk_return_value (p : PIORoutingProtocol) (interface : Nat)
    (destination : Ipv4Address) (destinationMask : Ipv4Mask) (gateway : Ipv4Address) :
    (((InvalidateRoutesForInterface p interface).2 = true ↔
        ∃ r ∈ p.m_routing, r.route.m_validity = Validity.VALID ∧
          r.route.m_interface = interface) ∧
      ((InvalidateRoutesForInterface p interface).2 = false →
        (InvalidateRoutesForInterface p interface).1 = p)) ∧
    (((InvalidateBrokenRoutes p destination destinationMask).2 = true ↔
        ∃ r ∈ p.m_routing, r.route.m_validity = Validity.VALID ∧
          r.route.m_dest = destination ∧ r.route.m_destNetworkMask = destinationMask) ∧
      ((InvalidateBrokenRoutes p destination destinationMask).2 = false →
        (InvalidateBrokenRoutes p destination destinationMask).1 = p)) ∧
    (((InvalidateRoutesForGateway p gateway).2 = true ↔
        ∃ r ∈ p.m_routing, r.route.m_validity = Validity.VALID ∧
          r.route.m_gateway = gateway) ∧
      ((InvalidateRoutesForGateway p gateway).2 = false →
        (InvalidateRoutesForGateway p gateway).1 = p)) := by
  refine ⟨⟨?_, (bulkInvalidate_retVal p (condInterface interface)).2⟩,
    ⟨?_, (bulkInvalidate_retVal p (condBroken destination destinationMask)).2⟩,
    ⟨?_, (bulkInvalidate_retVal p (condGateway gateway)).2⟩⟩
  · rw [InvalidateRoutesForInterface, (bulkInvalidate_retVal p (condInterface interface)).1]
    simp only [condInterface, Bool.and_eq_true, decide_eq_true_eq]
    constructor
    · rintro ⟨r, hr, h1, h2⟩
      exact ⟨r, hr, h2, h1⟩
    · rintro ⟨r, hr, h1, h2⟩
      exact ⟨r, hr, h2, h1⟩
  · rw [InvalidateBrokenRoutes,
      (bulkInvalidate_retVal p (condBroken destination destinationMask)).1]
    simp only [condBroken, Bool.and_eq_true, decide_eq_true_eq]
    constructor
    · rintro ⟨r, hr, ⟨h1, h2⟩, h3⟩
      exact ⟨r, hr, h3, h1, h2⟩
    · rintro ⟨r, hr, h1, h2, h3⟩
      exact ⟨r, hr, ⟨h2, h3⟩, h1⟩
  · rw [InvalidateRoutesForGateway, (bulkInvalidate_retVal p (condGateway gateway)).1]
    simp only [condGateway, Bool.and_eq_true, decide_eq_true_eq]
    constructor
    · rintro ⟨r, hr, h1, h2⟩
      exact ⟨r, hr, h2, h1⟩
    · rintro ⟨r, hr, h1, h2⟩
      exact ⟨r, hr, h2, h1⟩

/-- Witness of C18 on node 2: four `VALID` entries sit on interface 2 and
the call returns true; no entry has the gateway 9.9.9.9 and the call returns
false and changes nothing. -/
theorem C18_bulk_return_value_witness :
    (InvalidateRoutesForInterface node2 2).2 = true ∧
      (InvalidateRoutesForGateway node2 0x09090909).2 = false ∧
      (InvalidateRoutesForGateway node2 0x09090909).1 = node2 :=
  ⟨rfl, rfl, (C18_bulk_return_value node2 2 0 0 0x09090909).2.2.2 rfl⟩

/-- The loop of a bulk invalidation keeps the length and the order of the
table: record by record, the pointer is kept, and the record is invalidated
when its entry satisfies the condition and unchanged when it does not. -/
theorem bulkInvalidateLoop_forall2 (gc : Time) (cond : PIORoutingEntry → Bool)
    (tbl : List RouteTableRecord) (sim : Simulator) (retVal : Bool) :
    List.Forall₂
      (fun r r' => r'.ptr = r.ptr ∧
        ((cond r.route = true ∧ r'.route = invalidated r.route) ∨
          (cond r.route = false ∧ r' = r)))
      tbl (bulkInvalidateLoop gc cond tbl sim retVal).1 := by
  induction tbl generalizing sim retVal with
  | nil => exact List.Forall₂.nil
  | cons it rest ih =>
    by_cases hc : cond it.route = true
    · have h : (bulkInvalidateLoop gc cond (it :: rest) sim retVal).1 =
          (invalidateRecord gc sim it).1 ::
            (bulkInvalidateLoop gc cond rest (invalidateRecord gc sim it).2 true).1 := by
        simp [bulkInvalidateLoop, hc]
      rw [h]
      refine List.Forall₂.cons ?_ (ih _ _)
      rw [invalidateRecord_fst]
      exact ⟨rfl, Or.inl ⟨hc, rfl⟩⟩
    · have h : (bulkInvalidateLoop gc cond (it :: rest) sim retVal).1 =
          it :: (bulkInvalidateLoop gc cond rest sim retVal).1 := by
        simp [bulkInvalidateLoop, hc]
      rw [h]
      exact List.Forall₂.cons ⟨rfl, Or.inr ⟨by simpa using hc, rfl⟩⟩ (ih _ _)

theorem InvalidateRoute_now (p : PIORoutingProtocol) (route : Nat) :
    (InvalidateRoute p route).sim.now = p.sim.now := by
  rcases InvalidateRoute_spec p route with ⟨_, hres⟩ | ⟨_, _, _, _, _, _, hres⟩
  · rw [hres]
  · rw [hres]
    exact invalidateRecord_now _ _ _

theorem InvalidateRoute_gc (p : PIORoutingProtocol) (route : Nat) :
    (InvalidateRoute p route).m_garbageCollectionDelay = p.m_garbageCollectionDelay := rfl

/-- In a table with pairwise distinct pointers, `InvalidateRoute` on the
pointer of a record leaves that record invalidated, with the handle of the
deletion event it schedules. -/
theorem InvalidateRoute_hit (p : PIORoutingProtocol) (r : RouteTableRecord)
    (hnodup : DistinctPtrs p) (hr : r ∈ p.m_routing) :
    (⟨r.ptr, invalidated r.route, some p.sim.nextUid⟩ : RouteTableRecord) ∈
        (InvalidateRoute p r.ptr).m_routing ∧
      (⟨p.sim.nextUid, p.sim.now + p.m_garbageCollectionDelay, Action.DeleteRoute r.ptr,
        false⟩ : ScheduledEvent) ∈ (InvalidateRoute p r.ptr).sim.events := by
  constructor
  · rcases InvalidateRoute_record p r.ptr r hnodup hr with ⟨h, _⟩ | ⟨_, h⟩
    · exact absurd rfl h
    · exact h
  · rcases InvalidateRoute_spec p r.ptr with ⟨hall, _⟩ | ⟨pre, it, post, htbl, _, hit, hres⟩
    · exact absurd rfl (hall r hr)
    · have hitm : it ∈ p.m_routing := by simp [htbl]
      have hitr : r = it := (eq_of_ptr_eq p.m_routing it r hnodup hitm hr hit).symm
      subst hitr
      rw [hres]
      simp only
      rw [invalidateRecord_events]
      simp

/-- `InvalidateRoute` applied to a list of pointers leaves alone the records
that hold none of them. -/
theorem invalidateEach_keeps_record (routes : List Nat) (p : PIORoutingProtocol)
    (r : RouteTableRecord) (hwf : WellFormed p) (hr : r ∈ p.m_routing)
    (hne : ∀ x ∈ routes, r.ptr ≠ x) : r ∈ (invalidateEach p routes).m_routing := by
  induction routes generalizing p with
  | nil => exact hr
  | cons y ys ih =>
    have hy : r.ptr ≠ y := hne y (List.mem_cons_self _ _)
    have hr1 : r ∈ (InvalidateRoute p y).m_routing := by
      rcases InvalidateRoute_record p y r hwf.ptr_nodup hr with ⟨_, h⟩ | ⟨h, _⟩
      · exact h
      · exact absurd h hy
    exact ih (InvalidateRoute p y) (WellFormed_InvalidateRoute p y hwf) hr1
      (fun x hx => hne x (List.mem_cons_of_mem _ hx))

/-- `InvalidateRoute` applied to a list of pointers leaves alone the events
that carry none of them, and adds no such event. -/
theorem invalidateEach_events_frame (routes : List Nat) (p : PIORoutingProtocol)
    (e : ScheduledEvent) (hwf : WellFormed p) (hne : ∀ x ∈ routes, e.action.route ≠ x) :
    e ∈ (invalidateEach p routes).sim.events ↔ e ∈ p.sim.events := by
  induction routes generalizing p with
  | nil => exact Iff.rfl
  | cons y ys ih =>
    have h1 := ih (InvalidateRoute p y) (WellFormed_InvalidateRoute p y hwf)
      (fun x hx => hne x (List.mem_cons_of_mem _ hx))
    have h2 := InvalidateRoute_events_frame p y e hwf (hne y (List.mem_cons_self _ _))
    exact h1.trans h2

theorem invalidateEach_now (routes : List Nat) (p : PIORoutingProtocol) :
    (invalidateEach p routes).sim.now = p.sim.now := by
  induction routes generalizing p with
  | nil => rfl
  | cons y ys ih => exact (ih (InvalidateRoute p y)).trans (InvalidateRoute_now p y)

theorem invalidateEach_gc (routes : List Nat) (p : PIORoutingProtocol) :
    (invalidateEach p routes).m_garbageCollectionDelay = p.m_garbageCollectionDelay := by
  induction routes generalizing p with
  | nil => rfl
  | cons y ys ih => exact (ih (InvalidateRoute p y)).trans (InvalidateRoute_gc p y)

/-- `InvalidateRoute` applied to a list of pairwise distinct pointers leaves
each record that holds one of them invalidated, with the handle of a
deletion event of its own. -/
theorem invalidateEach_hit (routes : List Nat) (p : PIORoutingProtocol)
    (r : RouteTableRecord) (hwf : WellFormed p) (hnd : routes.Nodup) (hr : r ∈ p.m_routing)
    (hx : r.ptr ∈ routes) :
    ∃ u, (⟨r.ptr, invalidated r.route, some u⟩ : RouteTableRecord) ∈
        (invalidateEach p routes).m_routing ∧
      (⟨u, p.sim.now + p.m_garbageCollectionDelay, Action.DeleteRoute r.ptr, false⟩ :
        ScheduledEvent) ∈ (invalidateEach p routes).sim.events := by
  induction routes generalizing p with
  | nil => cases hx
  | cons y ys ih =>
    obtain ⟨hy, hys⟩ := List.nodup_cons.mp hnd
    have hwf1 := WellFormed_InvalidateRoute p y hwf
    by_cases hry : r.ptr = y
    · subst hry
      obtain ⟨h1, h2⟩ := InvalidateRoute_hit p r hwf.ptr_nodup hr
      refine ⟨p.sim.nextUid, ?_, ?_⟩
      · exact invalidateEach_keeps_record ys (InvalidateRoute p r.ptr) _ hwf1 h1
          (fun x hx hc => hy (hc ▸ hx))
      · refine (invalidateEach_events_frame ys (InvalidateRoute p r.ptr) _ hwf1 ?_).mpr h2
        intro x hx hc
        have hrx : r.ptr = x := hc
        exact hy (hrx ▸ hx)
    · have hr1 : r ∈ (InvalidateRoute p y).m_routing := by
        rcases InvalidateRoute_record p y r hwf.ptr_nodup hr with ⟨_, h⟩ | ⟨h, _⟩
        · exact h
        · exact absurd h hry
      have hx1 : r.ptr ∈ ys := by
        rcases List.mem_cons.mp hx with h | h
        · exact absurd h hry
        · exact h
      obtain ⟨u, h1, h2⟩ := ih (InvalidateRoute p y) hwf1 hys hr1 hx1
      rw [InvalidateRoute_now, InvalidateRoute_gc] at h2
      exact ⟨u, h1, h2⟩

theorem matchingPtrs_nodup (cond : PIORoutingEntry → Bool) (tbl : List RouteTableRecord)
    (hnodup : (tbl.map fun r => r.ptr).Nodup) : (matchingPtrs cond tbl).Nodup :=
  List.Nodup.sublist (List.Sublist.map _ (List.filter_sublist _)) hnodup

/-- In a table with pairwise distinct pointers, the pointer of a record is
among the matching pointers iff its entry satisfies the condition. -/
theorem mem_matchingPtrs (cond : PIORoutingEntry → Bool) (tbl : List RouteTableRecord)
    (r : RouteTableRecord) (hnodup : (tbl.map fun r => r.ptr).Nodup) (hr : r ∈ tbl) :
    r.ptr ∈ matchingPtrs cond tbl ↔ cond r.route = true := by
  constructor
  · intro h
    obtain ⟨r2, hr2, hptr⟩ := List.mem_map.mp h
    obtain ⟨hr2m, hc⟩ := List.mem_filter.mp hr2
    rw [← eq_of_ptr_eq tbl r2 r hnodup hr2m hr hptr]
    exact hc
  · intro h
    exact List.mem_map.mpr ⟨r, List.mem_filter.mpr ⟨hr, h⟩, rfl⟩

/-- What a bulk invalidation does to each record of a well-formed state. -/
theorem bulkInvalidate_each (p : PIORoutingProtocol) (cond : PIORoutingEntry → Bool)
    (hwf : WellFormed p) : EachMatchInvalidated p (bulkInvalidate p cond).1 cond := by
  intro r hr
  rw [bulkInvalidate_eq_invalidateEach p cond hwf.ptr_nodup]
  constructor
  · intro hc
    exact invalidateEach_hit _ p r hwf (matchingPtrs_nodup cond _ hwf.ptr_nodup) hr
      ((mem_matchingPtrs cond _ r hwf.ptr_nodup hr).mpr hc)
  · intro hc
    apply invalidateEach_keeps_record _ p r hwf hr
    intro x hx hrx
    have := (mem_matchingPtrs cond _ r hwf.ptr_nodup hr).mp (hrx ▸ hx)
    rw [hc] at this
    cases this

/-- A bulk invalidation leaves alone the events that carry the pointer of a
record whose entry fails the condition, and adds no such event. -/
theorem bulkInvalidate_events_frame (p : PIORoutingProtocol) (cond : PIORoutingEntry → Bool)
    (r : RouteTableRecord) (e : ScheduledEvent) (hwf : WellFormed p) (hr : r ∈ p.m_routing)
    (hc : cond r.route = false) (he : e.action.route = r.ptr) :
    e ∈ (bulkInvalidate p cond).1.sim.events ↔ e ∈ p.sim.events := by
  rw [bulkInvalidate_eq_invalidateEach p cond hwf.ptr_nodup]
  apply invalidateEach_events_frame _ p e hwf
  intro x hx hex
  have := (mem_matchingPtrs cond _ r hwf.ptr_nodup hr).mp (by rw [← he, hex]; exact hx)
  rw [hc] at this
  cases this

/-- C16. In a well-formed state (every reachable state is), for every
interface id, `InvalidateRoutesForInterface` keeps the length and the order
of the table; record by record, an entry that is `VALID` on that interface
becomes `INVALID` (and changed), and any other record (other interface,
already `INVALID`, or `LHOST`) is left as it was, validity and timer handle
included; and the events that carry the pointer of such an other entry are
the same before and after. -/
theorem C16_invalidate_routes_for_interface (p : PIORoutingProtocol) (interface : Nat)
    (hwf : WellFormed p) :
    List.Forall₂
        (fun r r' => r'.ptr = r.ptr ∧
          ((r.route.m_validity = Validity.VALID ∧ r.route.m_interface = interface ∧
              r'.route.m_validity = Validity.INVALID ∧ r'.route = invalidated r.route) ∨
            (¬ (r.route.m_validity = Validity.VALID ∧ r.route.m_interface = interface) ∧
              r' = r)))
        p.m_routing (InvalidateRoutesForInterface p interface).1.m_routing ∧
      (InvalidateRoutesForInterface p interface).1.m_routing.length = p.m_routing.length ∧
      ∀ r ∈ p.m_routing,
        ¬ (r.route.m_validity = Validity.VALID ∧ r.route.m_interface = interface) →
        ∀ e : ScheduledEvent, e.action.route = r.ptr →
          (e ∈ (InvalidateRoutesForInterface p interface).1.sim.events ↔ e ∈ p.sim.events) := by
  have hcond : ∀ e : PIORoutingEntry, condInterface interface e = true ↔
      (e.m_validity = Validity.VALID ∧ e.m_interface = interface) := by
    intro e
    simp only [condInterface, Bool.and_eq_true, decide_eq_true_eq]
    exact And.comm
  have hf2 : List.Forall₂
      (fun r r' => r'.ptr = r.ptr ∧
        ((r.route.m_validity = Validity.VALID ∧ r.route.m_interface = interface ∧
            r'.route.m_validity = Validity.INVALID ∧ r'.route = invalidated r.route) ∨
          (¬ (r.route.m_validity = Validity.VALID ∧ r.route.m_interface = interface) ∧
            r' = r)))
      p.m_routing (InvalidateRoutesForInterface p interface).1.m_routing := by
    refine List.Forall₂.imp ?_ (bulkInvalidateLoop_forall2 p.m_garbageCollectionDelay
      (condInterface interface) p.m_routing p.sim false)
    rintro r r' ⟨hptr, ⟨hc, hroute⟩ | ⟨hc, heq⟩⟩
    · obtain ⟨hv, hi⟩ := (hcond r.route).mp hc
      exact ⟨hptr, Or.inl ⟨hv, hi, by rw [hroute]; rfl, hroute⟩⟩
    · refine ⟨hptr, Or.inr ⟨?_, heq⟩⟩
      intro h
      rw [(hcond r.route).mpr h] at hc
      cases hc
  refine ⟨hf2, hf2.length_eq.symm, ?_⟩
  intro r hr hnot e he
  apply bulkInvalidate_events_frame p (condInterface interface) r e hwf hr _ he
  rw [Bool.eq_false_iff]
  exact fun h => hnot ((hcond r.route).mp h)

/-- Witness of C16 on node 2 for interface 2. -/
theorem C16_invalidate_routes_for_interface_witness :
    WellFormed node2 ∧
      (InvalidateRoutesForInterface node2 2).1.m_routing.length = node2.m_routing.length ∧
      (InvalidateRoutesForInterface node2 2).1.m_routing.map
          (fun r => (r.ptr, r.route.m_interface, r.route.m_validity, r.event)) =
        [(7, 2, Validity.INVALID, some 8), (6, 2, Validity.INVALID, some 9),
          (5, 2, Validity.INVALID, some 10), (4, 3, Validity.VALID, some 4),
          (3, 3, Validity.VALID, none), (2, 2, Validity.INVALID, some 11),
          (1, 1, Validity.VALID, none), (0, 0, Validity.LHOST, none)] :=
  ⟨node2_WellFormed, (C16_invalidate_routes_for_interface node2 2 node2_WellFormed).2.1,
    by decide⟩

theorem condInterface_eq (interface : Nat) :
    condInterface interface = validOnInterface interface := by
  funext e
  simp only [condInterface, validOnInterface]
  rw [Bool.eq_iff_iff]
  simp only [Bool.and_eq_true, decide_eq_true_eq]
  exact And.comm

theorem condBroken_eq (destination : Ipv4Address) (destinationMask : Ipv4Mask) :
    condBroken destination destinationMask = validForPrefix destination destinationMask := by
  funext e
  simp only [condBroken, validForPrefix]
  rw [Bool.eq_iff_iff]
  simp only [Bool.and_eq_true, decide_eq_true_eq]
  exact ⟨fun h => ⟨h.2, h.1.1, h.1.2⟩, fun h => ⟨⟨h.2.1, h.2.2⟩, h.1⟩⟩

theorem condGateway_eq (gateway : Ipv4Address) :
    condGateway gateway = validViaGateway gateway := by
  funext e
  simp only [condGateway, validViaGateway]
  rw [Bool.eq_iff_iff]
  simp only [Bool.and_eq_true, decide_eq_true_eq]
  exact And.comm

/-- C17. In a well-formed state (every reachable state is), each bulk
invalidation leaves the state, table and simulator, that `InvalidateRoute`
leaves when applied in table order to exactly the entries that are `Valid`
and satisfy its predicate: interface equal to the given id for
`InvalidateRoutesForInterface`; destination network and mask both equal to
the given pair for `InvalidateBrokenRoutes`; gateway equal to the given
address for `InvalidateRoutesForGateway`. Each such entry ends `INVALID`
with changed = true and the handle of its own deletion event; every other
record, for instance one whose prefix only covers or is covered by the
given one, is left as it was. -/
theorem C17_bulk_is_invalidate_each (p : PIORoutingProtocol) (interface : Nat)
    (destination : Ipv4Address) (destinationMask : Ipv4Mask) (gateway : Ipv4Address)
    (hwf : WellFormed p) :
    ((InvalidateRoutesForInterface p interface).1 =
        invalidateMatching p (validOnInterface interface) ∧
      EachMatchInvalidated p (InvalidateRoutesForInterface p interface).1
        (validOnInterface interface)) ∧
    ((InvalidateBrokenRoutes p destination destinationMask).1 =
        invalidateMatching p (validForPrefix destination destinationMask) ∧
      EachMatchInvalidated p (InvalidateBrokenRoutes p destination destinationMask).1
        (validForPrefix destination destinationMask)) ∧
    ((InvalidateRoutesForGateway p gateway).1 =
        invalidateMatching p (validViaGateway gateway) ∧
      EachMatchInvalidated p (InvalidateRoutesForGateway p gateway).1
        (validViaGateway gateway)) := by
  refine ⟨⟨?_, ?_⟩, ⟨?_, ?_⟩, ⟨?_, ?_⟩⟩
  · rw [InvalidateRoutesForInterface, condInterface_eq]
    exact bulkInvalidate_eq_invalidateEach p _ hwf.ptr_nodup
  · rw [InvalidateRoutesForInterface, condInterface_eq]
    exact bulkInvalidate_each p _ hwf
  · rw [InvalidateBrokenRoutes, condBroken_eq]
    exact bulkInvalidate_eq_invalidateEach p _ hwf.ptr_nodup
  · rw [InvalidateBrokenRoutes, condBroken_eq]
    exact bulkInvalidate_each p _ hwf
  · rw [InvalidateRoutesForGateway, condGateway_eq]
    exact bulkInvalidate_eq_invalidateEach p _ hwf.ptr_nodup
  · rw [InvalidateRoutesForGateway, condGateway_eq]
    exact bulkInvalidate_each p _ hwf

/-- Witness of C17 on node 2, whose table holds 10.10.10.0/24: the call
`InvalidateBrokenRoutes (10.10.10.0, /24)` is `InvalidateRoute` on the one
entry with pointer 5. -/
theorem C17_bulk_is_invalidate_each_witness :
    WellFormed node2 ∧
      matchingPtrs (validForPrefix 0x0a0a0a00 0xffffff00) node2.m_routing = [5] ∧
      (InvalidateBrokenRoutes node2 0x0a0a0a00 0xffffff00).1 =
        invalidateMatching node2 (validForPrefix 0x0a0a0a00 0xffffff00) :=
  ⟨node2_WellFormed, by decide,
    (C17_bulk_is_invalidate_each node2 0 0x0a0a0a00 0xffffff00 0 node2_WellFormed).2.1.1⟩

/-- C19, evaluated where the code leaves it. From an empty table, the
overload of `AddNetworkRouteTo` without gateway is called with a timeout of
500 s and then `InvalidateRoutesForInterface (1)`: the one entry of the
table, now `INVALID`, has two outstanding events, the `InvalidateRoute`
scheduled when it was added (its handle never reached the table, so it was
not cancelled) and the `DeleteRoute` just scheduled. -/
theorem C19_leaked_timer_two_outstanding :
    Initial freshProtocol ∧ Reachable freshProtocol leakState ∧
      leakState.m_routing.map (fun r => (r.ptr, r.route.m_validity, r.event)) =
        [(0, Validity.INVALID, some 5)] ∧
      outstanding leakState 0 =
        [⟨4, 500000000000, Action.InvalidateRoute 0, false⟩,
          ⟨5, 10000000000, Action.DeleteRoute 0, false⟩] := by
  refine ⟨⟨rfl, rfl⟩, ?_, by decide, by decide⟩
  unfold leakState
  apply Reachable.step _ _ ?_ (Step.invalidateInterface _ 1)
  apply Reachable.step _ _ ?_
    (Step.addInterface _ _ _ _ _ _ _ _ _ (by decide) (by decide) (by decide))
  exact Reachable.refl

/-! The uids of the events. -/

theorem FreshUids_Cancel (sim : Simulator) (id : EventId) (h : FreshUids sim) :
    FreshUids (sim.Cancel id) := by
  have hmap : ((sim.Cancel id).events.map fun e => e.uid) = sim.events.map fun e => e.uid := by
    rw [Cancel_events, List.map_map]
    apply List.map_congr_left
    intro e _
    by_cases hc : some e.uid = id
    · simp [hc]
    · simp [hc]
  refine ⟨by rw [hmap]; exact h.1, ?_⟩
  intro e he
  obtain ⟨e0, he0, hu, _⟩ := mem_Cancel sim id e he
  rw [Cancel_nextUid, hu]
  exact h.2 e0 he0

theorem FreshUids_Schedule (sim : Simulator) (delay : Time) (action : Action)
    (h : FreshUids sim) : FreshUids (sim.Schedule delay action).1 := by
  constructor
  · simp only [Simulator.Schedule, List.map_append, List.map_cons, List.map_nil]
    rw [List.nodup_append]
    refine ⟨h.1, List.nodup_singleton _, ?_⟩
    intro a ha hb
    rw [List.mem_singleton] at hb
    obtain ⟨e, he, hea⟩ := List.mem_map.mp ha
    have := h.2 e he
    omega
  · intro e he
    simp only [Simulator.Schedule, List.mem_append, List.mem_singleton] at he ⊢
    rcases he with he | rfl
    · exact Nat.lt_succ_of_lt (h.2 e he)
    · exact Nat.lt_succ_self _

theorem FreshUids_filter (sim : Simulator) (t : Time) (f : ScheduledEvent → Bool)
    (h : FreshUids sim) :
    FreshUids { sim with now := t, events := sim.events.filter f } :=
  ⟨List.Nodup.sublist (List.Sublist.map _ (List.filter_sublist _)) h.1,
    fun e he => h.2 e (List.mem_filter.mp he).1⟩

theorem FreshUids_invalidateRecord (gc : Time) (sim : Simulator) (it : RouteTableRecord)
    (h : FreshUids sim) : FreshUids (invalidateRecord gc sim it).2 :=
  FreshUids_Schedule _ _ _ (FreshUids_Cancel sim it.event h)

theorem FreshUids_InvalidateRoute (p : PIORoutingProtocol) (route : Nat)
    (h : FreshUids p.sim) : FreshUids (InvalidateRoute p route).sim := by
  rcases InvalidateRoute_spec p route with ⟨_, hres⟩ | ⟨_, it, _, _, _, _, hres⟩
  · rw [hres]
    exact h
  · rw [hres]
    exact FreshUids_invalidateRecord _ _ it h

theorem FreshUids_invalidateEach (routes : List Nat) (p : PIORoutingProtocol)
    (h : FreshUids p.sim) : FreshUids (invalidateEach p routes).sim := by
  induction routes generalizing p with
  | nil => exact h
  | cons x xs ih => exact ih (InvalidateRoute p x) (FreshUids_InvalidateRoute p x h)

theorem FreshUids_bulkInvalidate (p : PIORoutingProtocol) (cond : PIORoutingEntry → Bool)
    (hnodup : DistinctPtrs p) (h : FreshUids p.sim) :
    FreshUids (bulkInvalidate p cond).1.sim := by
  rw [bulkInvalidate_eq_invalidateEach p cond hnodup]
  exact FreshUids_invalidateEach _ p h

/-- The simulator an add operation leaves: the one it found, or that one
after one `Schedule` of `InvalidateRoute` on the new pointer, due after the
timeout plus the random draw. -/
theorem AddHostRouteTo_sim (p : PIORoutingProtocol) (host : Ipv4Address)
    (interface metric sequenceNo : Nat) (timeoutTime garbageCollectionTime rnd : Time) :
    (host = loopbackAddress →
      (AddHostRouteTo p host interface metric sequenceNo timeoutTime garbageCollectionTime
        rnd).sim = p.sim) ∧
    (host ≠ loopbackAddress →
      (AddHostRouteTo p host interface metric sequenceNo timeoutTime garbageCollectionTime
        rnd).sim =
          (p.sim.Schedule (timeoutTime + rnd) (Action.InvalidateRoute p.nextPtr)).1) := by
  constructor
  · intro h
    simp [AddHostRouteTo, h]
  · intro h
    simp [AddHostRouteTo, h]

theorem AddNetworkRouteTo_sim (p : PIORoutingProtocol) (network : Ipv4Address)
    (networkMask : Ipv4Mask) (nextHop : Ipv4Address) (interface metric sequenceNo : Nat)
    (timeoutTime garbageCollectionTime rnd : Time) :
    ((network = 0 ∧ networkMask = Ipv4Mask.GetZero) →
      (AddNetworkRouteTo p network networkMask nextHop interface metric sequenceNo timeoutTime
        garbageCollectionTime rnd).sim = p.sim) ∧
    (¬ (network = 0 ∧ networkMask = Ipv4Mask.GetZero) →
      (AddNetworkRouteTo p network networkMask nextHop interface metric sequenceNo timeoutTime
        garbageCollectionTime rnd).sim =
          (p.sim.Schedule (timeoutTime + rnd) (Action.InvalidateRoute p.nextPtr)).1) := by
  constructor
  · intro h
    simp [AddNetworkRouteTo, h]
  · intro h
    simp [AddNetworkRouteTo, h]

theorem AddNetworkRouteToInterface_sim (p : PIORoutingProtocol) (network : Ipv4Address)
    (networkMask : Ipv4Mask) (interface metric sequenceNo : Nat)
    (timeoutTime garbageCollectionTime rnd : Time) :
    ((timeoutTime = 0 ∧ garbageCollectionTime = 0) →
      (AddNetworkRouteToInterface p network networkMask interface metric sequenceNo
        timeoutTime garbageCollectionTime rnd).sim = p.sim) ∧
    (¬ (timeoutTime = 0 ∧ garbageCollectionTime = 0) →
      (AddNetworkRouteToInterface p network networkMask interface metric sequenceNo
        timeoutTime garbageCollectionTime rnd).sim =
          (p.sim.Schedule (timeoutTime + rnd) (Action.InvalidateRoute p.nextPtr)).1) := by
  constructor
  · intro h
    simp [AddNetworkRouteToInterface, h]
  · intro h
    simp [AddNetworkRouteToInterface, h]

/-- A move that adds a route leaves the simulator it found, or that one after
one `Schedule` of an event on the pointer just handed out. -/
theorem add_sim_cases (p q : PIORoutingProtocol)
    (hq : (∃ host interface metric sequenceNo timeoutTime garbageCollectionTime rnd,
        q = AddHostRouteTo p host interface metric sequenceNo timeoutTime
          garbageCollectionTime rnd) ∨
      (∃ network networkMask nextHop interface metric sequenceNo timeoutTime
          garbageCollectionTime rnd,
        q = AddNetworkRouteTo p network networkMask nextHop interface metric sequenceNo
          timeoutTime garbageCollectionTime rnd) ∨
      (∃ network networkMask interface metric sequenceNo timeoutTime garbageCollectionTime rnd,
        q = AddNetworkRouteToInterface p network networkMask interface metric sequenceNo
          timeoutTime garbageCollectionTime rnd)) :
    q.sim = p.sim ∨
      ∃ delay, q.sim = (p.sim.Schedule delay (Action.InvalidateRoute p.nextPtr)).1 := by
  rcases hq with ⟨host, i, m, sq, T, G, rnd, rfl⟩ | ⟨n, nm, nh, i, m, sq, T, G, rnd, rfl⟩ |
    ⟨n, nm, i, m, sq, T, G, rnd, rfl⟩
  · by_cases h : host = loopbackAddress
    · exact Or.inl ((AddHostRouteTo_sim p host i m sq T G rnd).1 h)
    · exact Or.inr ⟨_, (AddHostRouteTo_sim p host i m sq T G rnd).2 h⟩
  · by_cases h : n = 0 ∧ nm = Ipv4Mask.GetZero
    · exact Or.inl ((AddNetworkRouteTo_sim p n nm nh i m sq T G rnd).1 h)
    · exact Or.inr ⟨_, (AddNetworkRouteTo_sim p n nm nh i m sq T G rnd).2 h⟩
  · by_cases h : T = 0 ∧ G = 0
    · exact Or.inl ((AddNetworkRouteToInterface_sim p n nm i m sq T G rnd).1 h)
    · exact Or.inr ⟨_, (AddNetworkRouteToInterface_sim p n nm i m sq T G rnd).2 h⟩

theorem FreshUids_Step (p q : PIORoutingProtocol) (hwf : WellFormed p)
    (h : FreshUids p.sim) (hs : Step p q) : FreshUids q.sim := by
  have hadd : ∀ q' : PIORoutingProtocol,
      (q'.sim = p.sim ∨
        ∃ delay, q'.sim = (p.sim.Schedule delay (Action.InvalidateRoute p.nextPtr)).1) →
      FreshUids q'.sim := by
    rintro q' (h1 | ⟨d, h1⟩)
    · rw [h1]
      exact h
    · rw [h1]
      exact FreshUids_Schedule _ _ _ h
  cases hs with
  | addHost host interface metric sequenceNo timeoutTime garbageCollectionTime rnd =>
    exact hadd _ (add_sim_cases p _ (Or.inl ⟨_, _, _, _, _, _, _, rfl⟩))
  | addNetwork network networkMask nextHop interface metric sequenceNo timeoutTime
      garbageCollectionTime rnd =>
    exact hadd _ (add_sim_cases p _ (Or.inr (Or.inl ⟨_, _, _, _, _, _, _, _, _, rfl⟩)))
  | addInterface network networkMask interface metric sequenceNo timeoutTime
      garbageCollectionTime rnd =>
    exact hadd _ (add_sim_cases p _ (Or.inr (Or.inr ⟨_, _, _, _, _, _, _, _, rfl⟩)))
  | addDefault nextHop interface =>
    exact hadd _ (add_sim_cases p _ (Or.inr (Or.inl ⟨_, _, _, _, _, _, _, _, _, rfl⟩)))
  | invalidateInterface interface => exact FreshUids_bulkInvalidate p _ hwf.ptr_nodup h
  | invalidateBroken destination destinationMask =>
    exact FreshUids_bulkInvalidate p _ hwf.ptr_nodup h
  | invalidateGateway gateway => exact FreshUids_bulkInvalidate p _ hwf.ptr_nodup h
  | fire _ hq =>
    obtain ⟨e, _, hcase⟩ := ProcessOneEvent_spec p q hq
    have h1 : FreshUids (dequeue p e).sim := FreshUids_filter p.sim e.ts _ h
    rcases hcase with ⟨_, rfl⟩ | ⟨_, rfl, _⟩ | ⟨_, rfl, _⟩
    · exact h1
    · exact FreshUids_InvalidateRoute _ _ h1
    · exact h1
  | elapse t _ _ => exact ⟨h.1, h.2⟩

theorem FreshUids_of_Initial (p : PIORoutingProtocol) (h : Initial p) : FreshUids p.sim := by
  obtain ⟨_, hev⟩ := h
  constructor <;> simp [hev]

/-- Along every sequence of moves from a well-formed state with fresh uids,
both properties are kept. -/
theorem WellFormed_FreshUids_of_Reachable (p q : PIORoutingProtocol) (hwf : WellFormed p)
    (hf : FreshUids p.sim) (hr : Reachable p q) : WellFormed q ∧ FreshUids q.sim := by
  induction hr with
  | refl => exact ⟨hwf, hf⟩
  | step q r _ hs ih => exact ⟨WellFormed_Step q r ih.1 hs, FreshUids_Step q r ih.1 ih.2 hs⟩

/-- Two events of a simulator with fresh uids that have the same uid are the
same event. -/
theorem eq_of_uid_eq (sim : Simulator) (a b : ScheduledEvent) (h : FreshUids sim)
    (ha : a ∈ sim.events) (hb : b ∈ sim.events) (hab : a.uid = b.uid) : a = b :=
  List.inj_on_of_nodup_map h.1 ha hb hab

/-- What a bulk invalidation leaves of a record whose entry fails its
condition, and of the events that carry the pointer of that record. -/
theorem bulkInvalidate_spares (p : PIORoutingProtocol) (cond : PIORoutingEntry → Bool)
    (r : RouteTableRecord) (hwf : WellFormed p) (hr : r ∈ p.m_routing)
    (hc : cond r.route = false) :
    r ∈ (bulkInvalidate p cond).1.m_routing ∧
      ∀ x : ScheduledEvent, x.action.route = r.ptr →
        (x ∈ (bulkInvalidate p cond).1.sim.events ↔ x ∈ p.sim.events) := by
  constructor
  · rcases bulkInvalidateLoop_record p.m_garbageCollectionDelay cond p.m_routing p.sim false r hr
      with ⟨_, h2⟩ | ⟨h1, _⟩
    · exact h2
    · rw [hc] at h1
      cases h1
  · intro x hx
    exact bulkInvalidate_events_frame p cond r x hwf hr hc hx

/-- One move and one record of a well-formed state with fresh uids, the move
not being a bulk invalidation whose condition the entry satisfies: either
the record is kept as it is and the events that carry its pointer are the
same before and after, or the move is the scheduler taking from the list an
event that carries its pointer. -/
theorem Step_frame (s t : PIORoutingProtocol) (r : RouteTableRecord) (hwf : WellFormed s)
    (hf : FreshUids s.sim) (hs : Step s t) (hr : r ∈ s.m_routing)
    (hspare : ¬ BulkMatch s t r.route) :
    (r ∈ t.m_routing ∧
        ∀ x : ScheduledEvent, x.action.route = r.ptr →
          (x ∈ t.sim.events ↔ x ∈ s.sim.events)) ∨
      ∃ e ∈ s.sim.events, e.action.route = r.ptr ∧
        ((e.cancelled = true ∧ t = dequeue s e) ∨
          (e.cancelled = false ∧ t = InvalidateRoute (dequeue s e) e.action.route ∧
            e.action = Action.InvalidateRoute e.action.route) ∨
          (e.cancelled = false ∧ t = DeleteRoute (dequeue s e) e.action.route ∧
            e.action = Action.DeleteRoute e.action.route)) := by
  have hadd : ∀ q' : PIORoutingProtocol, r.ptr ≠ s.nextPtr → r ∈ q'.m_routing →
      (q'.sim = s.sim ∨
        ∃ delay, q'.sim = (s.sim.Schedule delay (Action.InvalidateRoute s.nextPtr)).1) →
      (r ∈ q'.m_routing ∧
        ∀ x : ScheduledEvent, x.action.route = r.ptr →
          (x ∈ q'.sim.events ↔ x ∈ s.sim.events)) := by
    intro q' hne hrq hsim
    refine ⟨hrq, ?_⟩
    intro x hx
    rcases hsim with h1 | ⟨d, h1⟩
    · rw [h1]
    · rw [h1]
      simp only [Simulator.Schedule, List.mem_append, List.mem_singleton]
      constructor
      · rintro (h | h)
        · exact h
        · exfalso
          rw [h] at hx
          exact hne hx.symm
      · exact fun h => Or.inl h
  cases hs with
  | addHost host interface metric sequenceNo timeoutTime garbageCollectionTime rnd _ _ hfree =>
    exact Or.inl (hadd _ (hfree r hr) (mem_AddHostRouteTo s _ _ _ _ _ _ _ r hr)
      (add_sim_cases s _ (Or.inl ⟨_, _, _, _, _, _, _, rfl⟩)))
  | addNetwork network networkMask nextHop interface metric sequenceNo timeoutTime
      garbageCollectionTime rnd _ _ hfree =>
    exact Or.inl (hadd _ (hfree r hr) (mem_AddNetworkRouteTo s _ _ _ _ _ _ _ _ _ r hr)
      (add_sim_cases s _ (Or.inr (Or.inl ⟨_, _, _, _, _, _, _, _, _, rfl⟩))))
  | addInterface network networkMask interface metric sequenceNo timeoutTime
      garbageCollectionTime rnd _ _ hfree =>
    exact Or.inl (hadd _ (hfree r hr) (mem_AddNetworkRouteToInterface s _ _ _ _ _ _ _ _ r hr)
      (add_sim_cases s _ (Or.inr (Or.inr ⟨_, _, _, _, _, _, _, _, rfl⟩))))
  | addDefault nextHop interface hfree =>
    exact Or.inl (hadd _ (hfree r hr) (mem_AddNetworkRouteTo s _ _ _ _ _ _ _ _ _ r hr)
      (add_sim_cases s _ (Or.inr (Or.inl ⟨_, _, _, _, _, _, _, _, _, rfl⟩))))
  | invalidateInterface interface =>
    left
    apply bulkInvalidate_spares s (condInterface interface) r hwf hr
    rw [Bool.eq_false_iff]
    exact fun hc => hspare (Or.inl ⟨interface, hc, rfl⟩)
  | invalidateBroken destination destinationMask =>
    left
    apply bulkInvalidate_spares s (condBroken destination destinationMask) r hwf hr
    rw [Bool.eq_false_iff]
    exact fun hc => hspare (Or.inr (Or.inl ⟨destination, destinationMask, hc, rfl⟩))
  | invalidateGateway gateway =>
    left
    apply bulkInvalidate_spares s (condGateway gateway) r hwf hr
    rw [Bool.eq_false_iff]
    exact fun hc => hspare (Or.inr (Or.inr ⟨gateway, hc, rfl⟩))
  | fire _ hq =>
    obtain ⟨e, he, hcase⟩ := ProcessOneEvent_spec s t hq
    by_cases hroute : e.action.route = r.ptr
    · exact Or.inr ⟨e, he, hroute, hcase⟩
    · left
      have hwf1 := WellFormed_dequeue s e hwf
      have hdq : ∀ x : ScheduledEvent, x.action.route = r.ptr →
          (x ∈ (dequeue s e).sim.events ↔ x ∈ s.sim.events) := by
        intro x hx
        simp only [dequeue, List.mem_filter, decide_eq_true_eq]
        constructor
        · exact fun h => h.1
        · intro h
          refine ⟨h, ?_⟩
          intro hu
          have := eq_of_uid_eq s.sim x e hf h he hu
          rw [this] at hx
          exact hroute hx
      have hr1 : r ∈ (dequeue s e).m_routing := hr
      rcases hcase with ⟨_, rfl⟩ | ⟨_, rfl, _⟩ | ⟨_, rfl, _⟩
      · exact ⟨hr1, hdq⟩
      · refine ⟨?_, ?_⟩
        · rcases InvalidateRoute_record (dequeue s e) e.action.route r hwf1.ptr_nodup hr1 with
            ⟨_, h⟩ | ⟨h, _⟩
          · exact h
          · exact absurd h.symm hroute
        · intro x hx
          have hne : x.action.route ≠ e.action.route := by
            rw [hx]
            exact fun h => hroute h.symm
          exact (InvalidateRoute_events_frame (dequeue s e) e.action.route x hwf1 hne).trans
            (hdq x hx)
      · refine ⟨?_, hdq⟩
        rcases DeleteRoute_record (dequeue s e) e.action.route r hwf1.ptr_nodup hr1 with
          ⟨_, h⟩ | ⟨h, _⟩
        · exact h
        · exact absurd h.symm hroute
  | elapse t' _ _ => exact Or.inl ⟨hr, fun _ _ => Iff.rfl⟩

/-! Routes without a timer. -/

/-- An entry without timer stays in the table, unchanged and without timer,
along every sequence of moves none of which is a bulk invalidation whose
condition it satisfies. -/
theorem Untimed_of_ReachableSparing (q s : PIORoutingProtocol) (r : RouteTableRecord)
    (hwf : WellFormed q) (hf : FreshUids q.sim) (hu : Untimed q r)
    (hs : ReachableSparing r.route q s) :
    WellFormed s ∧ FreshUids s.sim ∧ Untimed s r := by
  induction hs with
  | refl => exact ⟨hwf, hf, hu⟩
  | step a b _ hstep hspare ih =>
    obtain ⟨hwfa, hfa, hra, hqa⟩ := ih
    refine ⟨WellFormed_Step a b hwfa hstep, FreshUids_Step a b hwfa hfa hstep, ?_⟩
    rcases Step_frame a b r hwfa hfa hstep hra hspare with ⟨hrb, hev⟩ | ⟨e, he, hroute, _⟩
    · exact ⟨hrb, fun x hx hxr => hqa x ((hev x hxr).mp hx) hxr⟩
    · exact absurd hroute (hqa e he)

/-- The clock is not moved by the loop of a bulk invalidation. -/
theorem bulkInvalidateLoop_now (gc : Time) (cond : PIORoutingEntry → Bool)
    (tbl : List RouteTableRecord) (sim : Simulator) (retVal : Bool) :
    (bulkInvalidateLoop gc cond tbl sim retVal).2.1.now = sim.now := by
  induction tbl generalizing sim retVal with
  | nil => rfl
  | cons it rest ih =>
    by_cases hc : cond it.route = true
    · have h : (bulkInvalidateLoop gc cond (it :: rest) sim retVal).2.1 =
          (bulkInvalidateLoop gc cond rest (invalidateRecord gc sim it).2 true).2.1 := by
        simp [bulkInvalidateLoop, hc]
      rw [h, ih]
      exact invalidateRecord_now gc sim it
    · have h : (bulkInvalidateLoop gc cond (it :: rest) sim retVal).2.1 =
          (bulkInvalidateLoop gc cond rest sim retVal).2.1 := by
        simp [bulkInvalidateLoop, hc]
      rw [h, ih]

/-- A move that changes the clock is not a bulk invalidation. -/
theorem not_BulkMatch_of_now (s t : PIORoutingProtocol) (e : PIORoutingEntry)
    (h : t.sim.now ≠ s.sim.now) : ¬ BulkMatch s t e := by
  have key : ∀ cond : PIORoutingEntry → Bool, t = (bulkInvalidate s cond).1 → False := by
    intro cond ht
    apply h
    rw [ht]
    exact bulkInvalidateLoop_now _ _ _ _ _
  rintro (⟨i, _, ht⟩ | ⟨d, m, _, ht⟩ | ⟨g, _, ht⟩)
  · exact key _ ht
  · exact key _ ht
  · exact key _ ht

/-- An entry allocated at an address that no record of the table holds and
no pending event carries, and pushed without a timer, stays in the table,
unchanged and without timer, along every sequence of moves none of which is
a bulk invalidation whose condition it satisfies. -/
theorem Untimed_of_quiet (p q s : PIORoutingProtocol) (r : RouteTableRecord)
    (hwf : WellFormed p) (hf : FreshUids p.sim)
    (hfree : ∀ x ∈ p.m_routing, x.ptr ≠ r.ptr)
    (hquiet : ∀ e ∈ p.sim.events, e.action.route ≠ r.ptr)
    (htbl : q.m_routing = r :: p.m_routing) (hsim : q.sim = p.sim) (hev : r.event = none)
    (hs : ReachableSparing r.route q s) :
    r ∈ s.m_routing ∧ ∀ e ∈ s.sim.events, e.action.route ≠ r.ptr := by
  have hwfq : WellFormed q := by
    unfold WellFormed
    rw [htbl, hsim]
    have h := TableInv_push p.m_routing p.sim r.ptr r.route hfree hwf
    rw [← hev] at h
    exact h
  have hu : Untimed q r := by
    refine ⟨by rw [htbl]; exact List.mem_cons_self _ _, ?_⟩
    intro e he
    rw [hsim] at he
    exact hquiet e he
  exact (Untimed_of_ReachableSparing q s r hwfq (by rw [hsim]; exact hf) hu hs).2.2

/-- An entry that is not `VALID` satisfies the condition of no bulk
invalidation: every sequence of moves spares it. -/
theorem ReachableSparing_of_not_VALID (e : PIORoutingEntry) (q s : PIORoutingProtocol)
    (hv : e.m_validity ≠ Validity.VALID) (hs : Reachable q s) : ReachableSparing e q s := by
  induction hs with
  | refl => exact ReachableSparing.refl
  | step a b _ hstep ih =>
    refine ReachableSparing.step a b ih hstep ?_
    rintro (⟨i, hc, _⟩ | ⟨d, m, hc, _⟩ | ⟨g, hc, _⟩)
    · exact hv (cond_valid _ e (Or.inl ⟨i, rfl⟩) hc)
    · exact hv (cond_valid _ e (Or.inr (Or.inl ⟨d, m, rfl⟩)) hc)
    · exact hv (cond_valid _ e (Or.inr (Or.inr ⟨g, rfl⟩)) hc)

/-- The loopback route, when `new` returns for it an address that no record
of the table holds and no pending event carries: in every state reached
afterwards by moves the `LHOST` record is still in the table, unchanged, and
no event carries its pointer. -/
theorem loopback_route_stays_of_quiet (init p : PIORoutingProtocol)
    (interface metric sequenceNo : Nat) (timeoutTime garbageCollectionTime rnd : Time)
    (hinit : Initial init) (hp : Reachable init p)
    (hfree : ∀ r ∈ p.m_routing, r.ptr ≠ p.nextPtr)
    (hquiet : ∀ e ∈ p.sim.events, e.action.route ≠ p.nextPtr) (s : PIORoutingProtocol)
    (hs : Reachable (AddHostRouteTo p loopbackAddress interface metric sequenceNo timeoutTime
      garbageCollectionTime rnd) s) :
    localHostRecord p.nextPtr interface ∈ s.m_routing ∧
      ∀ e ∈ s.sim.events, e.action.route ≠ p.nextPtr := by
  obtain ⟨hwf, hf⟩ := WellFormed_FreshUids_of_Reachable init p
    (WellFormed_of_Initial init hinit) (FreshUids_of_Initial init hinit) hp
  have hq := AddHostRouteTo_loopback p interface metric sequenceNo timeoutTime
    garbageCollectionTime rnd
  exact Untimed_of_quiet p _ s (localHostRecord p.nextPtr interface) hwf hf hfree hquiet
    (by rw [hq]) (by rw [hq]) rfl
    (ReachableSparing_of_not_VALID _ _ s (by simp [localHostRecord]) hs)

/-- The interface route added with both times zero, when `new` returns for
it an address that no record of the table holds and no pending event
carries: a `VALID` record with an empty handle is pushed, the simulator is
left as it was, and in every state reached afterwards by moves none of which
is a bulk invalidation whose predicate the entry matches, the record is still
in the table, unchanged, and no event carries its pointer. -/
theorem interface_route_stays_of_quiet (init p : PIORoutingProtocol)
    (network : Ipv4Address) (networkMask : Ipv4Mask) (interface metric sequenceNo : Nat)
    (rnd : Time) (hinit : Initial init) (hp : Reachable init p)
    (hfree : ∀ r ∈ p.m_routing, r.ptr ≠ p.nextPtr)
    (hquiet : ∀ e ∈ p.sim.events, e.action.route ≠ p.nextPtr) :
    (AddNetworkRouteToInterface p network networkMask interface metric sequenceNo 0 0
        rnd).m_routing =
      validRecord p.nextPtr network networkMask Ipv4Address.GetZero interface metric
        sequenceNo none :: p.m_routing ∧
    (AddNetworkRouteToInterface p network networkMask interface metric sequenceNo 0 0
        rnd).sim = p.sim ∧
    ∀ s, ReachableSparing
        (validRecord p.nextPtr network networkMask Ipv4Address.GetZero interface metric
          sequenceNo none).route
        (AddNetworkRouteToInterface p network networkMask interface metric sequenceNo 0 0 rnd)
        s →
      validRecord p.nextPtr network networkMask Ipv4Address.GetZero interface metric
          sequenceNo none ∈ s.m_routing ∧
        ∀ e ∈ s.sim.events, e.action.route ≠ p.nextPtr := by
  obtain ⟨hwf, hf⟩ := WellFormed_FreshUids_of_Reachable init p
    (WellFormed_of_Initial init hinit) (FreshUids_of_Initial init hinit) hp
  have htbl := AddNetworkRouteToInterface_m_routing p network networkMask interface metric
    sequenceNo 0 0 rnd
  have hsim := (AddNetworkRouteToInterface_sim p network networkMask interface metric
    sequenceNo 0 0 rnd).1 ⟨rfl, rfl⟩
  refine ⟨htbl, hsim, ?_⟩
  intro s hs
  exact Untimed_of_quiet p _ s _ hwf hf hfree hquiet htbl hsim rfl hs

/-- C21 fails in the code. In `staleState`, reached from an empty table, the
table is empty, address 0 is free and the `InvalidateRoute` event of the
entry that was at address 0 (uid 4, due at 500 s) is still pending. The
overload of `AddNetworkRouteTo` without gateway is called for 15.16.16.0/24
on interface 2 with `timeoutTime` = 0 and `garbageCollectionTime` = 0 and
`new` returns address 0: a `VALID` record with an empty handle is pushed and
no timer is scheduled. The next move, which is no bulk invalidation, is the
scheduler running event 4 at 500 s: `InvalidateRoute` on address 0 leaves the
new entry `INVALID`, with a `DeleteRoute` event as its timer. -/
theorem C21_zero_timeout_route_invalidated_by_stale_timer :
    Initial recyclingProtocol ∧ Reachable recyclingProtocol staleState ∧
      staleState.m_routing = [] ∧
      staleState.sim.events = [⟨4, 500000000000, Action.InvalidateRoute 0, false⟩] ∧
      staleState.nextPtr = 0 ∧
      interfaceOnStale.m_routing = [validRecord 0 0x0f101000 0xffffff00 0 2 0 2 none] ∧
      interfaceOnStale.sim.events = staleState.sim.events ∧
      interfaceOnStale.sim.nextUid = staleState.sim.nextUid ∧
      ReachableSparing (validRecord 0 0x0f101000 0xffffff00 0 2 0 2 none).route
        interfaceOnStale (runNext interfaceOnStale) ∧
      (runNext interfaceOnStale).sim.now = 500000000000 ∧
      (runNext interfaceOnStale).m_routing.map
          (fun r => (r.ptr, r.route.m_dest, r.route.m_validity, r.event)) =
        [(0, 0x0f101000, Validity.INVALID, some 6)] ∧
      (runNext interfaceOnStale).sim.events =
        [⟨6, 510000000000, Action.DeleteRoute 0, false⟩] :=
  ⟨⟨rfl, rfl⟩, staleState_Reachable, by decide, by decide, by decide, by decide, by decide,
    by decide,
    ReachableSparing.step _ _ ReachableSparing.refl (Step_runNext _ (by decide))
      (not_BulkMatch_of_now _ _ _ (by decide)),
    by decide, by decide, by decide⟩

/-- A move that leaves a `VALID` record of a well-formed state in the table
is not a bulk invalidation whose condition the entry satisfies. -/
theorem not_BulkMatch_of_mem (s t : PIORoutingProtocol) (r : RouteTableRecord)
    (hwf : WellFormed s) (hr : r ∈ s.m_routing) (hrt : r ∈ t.m_routing)
    (hv : r.route.m_validity = Validity.VALID) : ¬ BulkMatch s t r.route := by
  have key : ∀ cond : PIORoutingEntry → Bool, cond r.route = true →
      t = (bulkInvalidate s cond).1 → False := by
    intro cond hc ht
    rcases bulkInvalidateLoop_record s.m_garbageCollectionDelay cond s.m_routing s.sim false r hr
      with ⟨h1, _⟩ | ⟨_, u, h2⟩
    · rw [hc] at h1
      cases h1
    · have hwft : WellFormed t := by
        rw [ht]
        exact WellFormed_bulkInvalidate s cond hwf
      have h2' : (⟨r.ptr, invalidated r.route, some u⟩ : RouteTableRecord) ∈ t.m_routing := by
        rw [ht]
        exact h2
      have heq := eq_of_ptr_eq t.m_routing r _ hwft.ptr_nodup hrt h2' rfl
      have hval := congrArg (fun x => x.route.m_validity) heq
      simp only [invalidated] at hval
      rw [hv] at hval
      cases hval
  rintro (⟨i, hc, ht⟩ | ⟨d, m, hc, ht⟩ | ⟨g, hc, ht⟩)
  · exact key _ hc ht
  · exact key _ hc ht
  · exact key _ hc ht

/-- C22, as stated, fails. On a fresh instance the overload with gateway is
called for 10.10.10.0/24 with `timeoutTime` = 0 and `garbageCollectionTime`
= 0 (random draw 2 s): an `InvalidateRoute` event is scheduled at 2 s and
its handle is kept in the table; when the scheduler runs it the entry becomes
`INVALID`, no bulk invalidation having been applied. -/
theorem C22_counterexample_timer_for_zero_timeouts :
    zeroTimeoutState.m_routing =
        [validRecord 0 0x0a0a0a00 0xffffff00 0x0f101002 2 2 4 (some 4)] ∧
      zeroTimeoutState.sim.events = [⟨4, 2000000000, Action.InvalidateRoute 0, false⟩] ∧
      (ProcessOneEvent zeroTimeoutState).map
          (fun s => (s.sim.now, s.m_routing.map fun r => (r.ptr, r.route.m_validity))) =
        some (2000000000, [(0, Validity.INVALID)]) := by
  refine ⟨rfl, rfl, by decide⟩

/-- C22, amended. In a state reachable from an empty table, the overload of
`AddNetworkRouteTo` with gateway called for the destination 0.0.0.0/0,
whatever the timeouts, pushes a `VALID` record with an empty handle and
leaves the simulator as it was: no timer is scheduled; and when the address
`new` returns is held by no record of the table and carried by no pending
event, then in every state reached afterwards by moves none of which is a
bulk invalidation whose predicate the entry matches, the record is still in
the table, unchanged, and no event carries its pointer. For any other
destination the call schedules one `InvalidateRoute` event on the new entry,
due after `timeoutTime` plus the random draw, also when both times are
zero. -/
theorem C22_gateway_route_timer (init p : PIORoutingProtocol) (network : Ipv4Address)
    (networkMask : Ipv4Mask) (nextHop : Ipv4Address) (interface metric sequenceNo : Nat)
    (timeoutTime garbageCollectionTime rnd : Time) (hinit : Initial init)
    (hp : Reachable init p) :
    ((AddNetworkRouteTo p 0 Ipv4Mask.GetZero nextHop interface metric sequenceNo timeoutTime
          garbageCollectionTime rnd).m_routing =
        validRecord p.nextPtr 0 Ipv4Mask.GetZero nextHop interface metric sequenceNo none ::
          p.m_routing ∧
      (AddNetworkRouteTo p 0 Ipv4Mask.GetZero nextHop interface metric sequenceNo timeoutTime
          garbageCollectionTime rnd).sim = p.sim ∧
      ((∀ r ∈ p.m_routing, r.ptr ≠ p.nextPtr) →
        (∀ e ∈ p.sim.events, e.action.route ≠ p.nextPtr) →
        ∀ s, ReachableSparing
            (validRecord p.nextPtr 0 Ipv4Mask.GetZero nextHop interface metric sequenceNo
              none).route
            (AddNetworkRouteTo p 0 Ipv4Mask.GetZero nextHop interface metric sequenceNo
              timeoutTime garbageCollectionTime rnd) s →
          validRecord p.nextPtr 0 Ipv4Mask.GetZero nextHop interface metric sequenceNo none ∈
              s.m_routing ∧
            ∀ e ∈ s.sim.events, e.action.route ≠ p.nextPtr)) ∧
    (¬ (network = 0 ∧ networkMask = Ipv4Mask.GetZero) →
      (AddNetworkRouteTo p network networkMask nextHop interface metric sequenceNo timeoutTime
          garbageCollectionTime rnd).sim.events =
        p.sim.events ++ [⟨p.sim.nextUid, p.sim.now + (timeoutTime + rnd),
          Action.InvalidateRoute p.nextPtr, false⟩]) := by
  obtain ⟨hwf, hf⟩ := WellFormed_FreshUids_of_Reachable init p
    (WellFormed_of_Initial init hinit) (FreshUids_of_Initial init hinit) hp
  have htbl : (AddNetworkRouteTo p 0 Ipv4Mask.GetZero nextHop interface metric sequenceNo
      timeoutTime garbageCollectionTime rnd).m_routing =
      validRecord p.nextPtr 0 Ipv4Mask.GetZero nextHop interface metric sequenceNo none ::
        p.m_routing := by
    simp [AddNetworkRouteTo, validRecord, PIORoutingEntry.mkNetworkVia]
  have hsim := (AddNetworkRouteTo_sim p 0 Ipv4Mask.GetZero nextHop interface metric
    sequenceNo timeoutTime garbageCollectionTime rnd).1 ⟨rfl, rfl⟩
  refine ⟨⟨htbl, hsim, ?_⟩, ?_⟩
  · intro hfree hquiet s hs
    exact Untimed_of_quiet p _ s _ hwf hf hfree hquiet htbl hsim rfl hs
  · intro hnd
    rw [(AddNetworkRouteTo_sim p network networkMask nextHop interface metric sequenceNo
      timeoutTime garbageCollectionTime rnd).2 hnd]
    rfl

/-- Witness of C22: a default route through 15.16.16.2 on interface 2 is
added to node 2 with timeouts of 500 s; `new` returns address 8, which no
record holds and no pending event carries; and
`InvalidateRoutesForInterface (3)`, which the route does not match, is
applied. -/
theorem C22_gateway_route_timer_witness :
    Initial attachedProtocol ∧ Reachable attachedProtocol node2 ∧ node2.nextPtr = 8 ∧
      (∀ r ∈ node2.m_routing, r.ptr ≠ node2.nextPtr) ∧
      (∀ e ∈ node2.sim.events, e.action.route ≠ node2.nextPtr) ∧
      validRecord node2.nextPtr 0 Ipv4Mask.GetZero 0x0f101002 2 0 0 none ∈
        (InvalidateRoutesForInterface
          (AddNetworkRouteTo node2 0 Ipv4Mask.GetZero 0x0f101002 2 0 0
            500000000000 500000000000 0) 3).1.m_routing :=
  ⟨⟨rfl, rfl⟩, node2_Reachable, by decide, by decide, by decide,
    ((C22_gateway_route_timer attachedProtocol node2 0 0 0x0f101002 2 0 0
      500000000000 500000000000 0 ⟨rfl, rfl⟩ node2_Reachable).1.2.2 (by decide) (by decide) _
      (ReachableSparing.step _ _ ReachableSparing.refl (Step.invalidateInterface _ 3)
        (not_BulkMatch_of_mem _ _ _
          (WellFormed_AddNetworkRouteTo node2 0 Ipv4Mask.GetZero 0x0f101002 2 0 0
            500000000000 500000000000 0 node2_WellFormed (by decide))
          (by decide) (by decide) rfl))).1⟩

/-! The garbage-collection delay. -/

/-- C24 fails in the code. A fresh attached instance, whose
`m_garbageCollectionDelay` is the default 10 s, is given the route
172.16.1.0/30 with `timeoutTime` = 500 s and `garbageCollectionTime` = 500 s
(random draw 0). The invalidation event runs at 500 s and leaves the entry
`INVALID` with a `DeleteRoute` event due at 510 s, not at 1000 s; when
that event runs, at 510 s, the table is empty. -/
theorem C24_deletion_ignores_garbageCollectionTime :
    gcState.m_garbageCollectionDelay = 10000000000 ∧
      gcState.sim.events = [⟨4, 500000000000, Action.InvalidateRoute 0, false⟩] ∧
      (ProcessOneEvent gcState).map
          (fun s => (s.sim, s.m_routing.map fun r => (r.ptr, r.route.m_validity, r.event))) =
        some (⟨500000000000, 6, [⟨5, 510000000000, Action.DeleteRoute 0, false⟩]⟩,
          [(0, Validity.INVALID, some 5)]) ∧
      ((ProcessOneEvent gcState).bind ProcessOneEvent).map
          (fun s => (s.sim.now, s.m_routing, s.sim.events)) =
        some (510000000000, [], []) := by
  refine ⟨rfl, rfl, by decide, by decide⟩

/-! The default route. -/

/-- C25. `AddDefaultRouteTo (gateway, interface)` leaves the state that the
overload of `AddNetworkRouteTo` with gateway leaves for network 0.0.0.0, the
zero mask, metric 0, sequence number 0 and both times zero, whatever the
random source would return: the front of the table is a `VALID` record for
0.0.0.0/0 through that gateway and interface with metric 0, sequence number
0, changed = true and an empty handle, the rest of the table is the table
as it was, and the simulator is as it was (no event is scheduled). -/
theorem C25_default_route_is_network_route (p : PIORoutingProtocol) (gateway : Ipv4Address)
    (interface : Nat) (rnd : Time) :
    AddDefaultRouteTo p gateway interface =
        AddNetworkRouteTo p 0 Ipv4Mask.GetZero gateway interface 0 0 0 0 rnd ∧
      (AddDefaultRouteTo p gateway interface).m_routing =
        validRecord p.nextPtr 0 Ipv4Mask.GetZero gateway interface 0 0 none :: p.m_routing ∧
      (AddDefaultRouteTo p gateway interface).sim = p.sim := by
  refine ⟨?_, ?_, ?_⟩
  · simp [AddDefaultRouteTo, AddNetworkRouteTo]
  · simp [AddDefaultRouteTo, AddNetworkRouteTo, validRecord, PIORoutingEntry.mkNetworkVia]
  · simp [AddDefaultRouteTo, AddNetworkRouteTo]

/-- C26 fails in the code. Node 2 holds the `VALID` route for 172.16.1.0/30
through 203.15.19.2 on interface 3, and a lookup for 172.16.1.1 returns it.
After `AddDefaultRouteTo (15.16.16.2, 2)` that entry is still in the table,
`VALID`, with a non-zero mask that matches 172.16.1.1, yet the lookup for
172.16.1.1 returns the route of the default entry: destination 0.0.0.0,
gateway 15.16.16.2, device of interface 2. -/
theorem C26_default_route_shadows_specific :
    LookupRoute node2 0xac100101 none =
        Except.ok (some ⟨0, 0xac100100, 0xcb0f1302, some 103⟩) ∧
      node2GatewayRecord ∈ node2WithDefault.m_routing ∧
      node2GatewayRecord.route.m_validity = Validity.VALID ∧
      node2GatewayRecord.route.m_destNetworkMask ≠ 0 ∧
      IsMatch node2GatewayRecord.route.m_destNetworkMask 0xac100101
        node2GatewayRecord.route.m_dest = true ∧
      node2WithDefault.m_routing.head? =
        some (validRecord 8 0 Ipv4Mask.GetZero 0x0f101002 2 0 0 none) ∧
      LookupRoute node2WithDefault 0xac100101 none =
        Except.ok (some ⟨0, 0, 0x0f101002, some 102⟩) := by
  refine ⟨rfl, by decide, rfl, by decide, by decide, rfl, rfl⟩

/-! The helper. -/

/-- C27 fails in the code. On a node whose routing protocol is a PIO
instance, `SetDefRoute` puts the default route at the front of its table. On
a node whose routing protocol is a list routing protocol with a PIO member
(after any number of members that are not PIO instances), as the example
script installs it, the call dereferences the null pointer `PIO` at the first
PIO member of the list: it does not complete, and the member does not receive
the route. -/
theorem C27_SetDefRoute_list_null_dereference (nextHop : Ipv4Address) (interface n : Nat)
    (p : PIORoutingProtocol) (after : List ListedProtocol) :
    (SetDefRoute directNode 0x0f101002 2).toOption.bind Node.pioTable =
        some [validRecord 0 0 Ipv4Mask.GetZero 0x0f101002 2 0 0 none] ∧
      SetDefRoute
          ⟨some ⟨some (Ipv4RoutingProtocol.list
            (List.replicate n ListedProtocol.other ++ ListedProtocol.pio p :: after))⟩⟩
          nextHop interface =
        Except.error Fault.nullDeref ∧
      SetDefRoute listNode 0x0f101002 2 = Except.error Fault.nullDeref := by
  refine ⟨rfl, ?_, rfl⟩
  have hloop : setDefRouteLoop none nextHop interface
      (List.replicate n ListedProtocol.other ++ ListedProtocol.pio p :: after) =
      Except.error Fault.nullDeref := by
    induction n with
    | zero => rfl
    | succ k ih => simpa [List.replicate_succ, setDefRouteLoop] using ih
  simp [SetDefRoute, hloop]

/-! Teardown. -/

theorem Cancel_map_key (sim : Simulator) (id : EventId) :
    ((sim.Cancel id).events.map fun e => (e.uid, e.ts, e.action)) =
      sim.events.map fun e => (e.uid, e.ts, e.action) := by
  rw [Cancel_events, List.map_map]
  apply List.map_congr_left
  intro e _
  by_cases hc : some e.uid = id
  · simp [hc]
  · simp [hc]

/-- After `Cancel` the event the handle refers to is marked cancelled, and
every event that was marked cancelled still is. -/
theorem Cancel_cancelled (sim : Simulator) (id : EventId) (e : ScheduledEvent)
    (h : e ∈ (sim.Cancel id).events) :
    (some e.uid = id → e.cancelled = true) ∧
      ((∀ e0 ∈ sim.events, e0.uid = e.uid → e0.cancelled = true) → e.cancelled = true) := by
  rw [Cancel_events, List.mem_map] at h
  obtain ⟨e0, he0, rfl⟩ := h
  by_cases hc : some e0.uid = id
  · simp [hc]
  · rw [if_neg hc]
    exact ⟨fun h => absurd h hc, fun h => h e0 he0 rfl⟩

/-- C28 fails in the code. Node 2, with two send sockets and the receive
socket open, holds the `VALID` route for 172.16.1.0/30 whose
`InvalidateRoute` event (uid 4, due at 500 s) is pending, as are the events
of its other three routes with a timeout. `DoDispose` clears the table,
closes the three sockets and calls `Cancel` on the three handles of the
protocol, and on no handle of the table: after it the table is empty and the
four events of the entries are still scheduled, not cancelled, and the
scheduler runs the first of them at 500 s. -/
theorem C28_entry_timers_survive_dispose :
    node2GatewayRecord ∈ node2WithSockets.m_routing ∧
      node2GatewayRecord.event = some 4 ∧
      outstanding node2WithSockets 4 =
        [⟨4, 500000000000, Action.InvalidateRoute 4, false⟩] ∧
      (DoDispose node2WithSockets).1.m_routing = [] ∧
      (DoDispose node2WithSockets).2 =
        [DisposeEffect.tableCleared, DisposeEffect.socketClosed 7,
          DisposeEffect.socketClosed 8, DisposeEffect.socketClosed 9,
          DisposeEffect.timerCancelled none, DisposeEffect.timerCancelled none,
          DisposeEffect.timerCancelled none] ∧
      outstanding (DoDispose node2WithSockets).1 4 =
        [⟨4, 500000000000, Action.InvalidateRoute 4, false⟩] ∧
      (DoDispose node2WithSockets).1.sim.events = node2WithSockets.sim.events ∧
      (node2WithSockets.sim.events.map fun e => (e.uid, e.cancelled)) =
        [(4, false), (5, false), (6, false), (7, false)] ∧
      (ProcessOneEvent (DoDispose node2WithSockets).1).map
          (fun s => (s.sim.now, s.sim.events.map fun e => e.uid)) =
        some (500000000000, [5, 6, 7]) := by
  refine ⟨by decide, by decide, by decide, rfl, by decide, by decide, by decide, by decide,
    by decide⟩

/-- What `DoDispose` does. It first clears the table, then closes the send
sockets and the receive socket, then cancels the keep-alive, triggered-update
and periodic-update events, resets their handles, and drops the stack: after
it the table is empty; clearing the table is the first effect and every
socket is closed after it; no event leaves the event list (same uids, times
and actions, in the same order); an event to which one of the three handles
refers is marked cancelled; and every other event is in the event list as it
was. -/
theorem DoDispose_spec (p : PIORoutingProtocol) :
    (DoDispose p).1.m_routing = [] ∧
      (DoDispose p).1.m_ipv4 = none ∧
      (DoDispose p).1.m_sendSocketList = [] ∧
      (DoDispose p).1.m_recvSocket = none ∧
      (DoDispose p).1.m_nextKeepAliveMessage = none ∧
      (DoDispose p).1.m_nextTriggeredUpdate = none ∧
      (DoDispose p).1.m_nextPeriodicUpdate = none ∧
      (∃ rest, (DoDispose p).2 = DisposeEffect.tableCleared :: rest ∧
        DisposeEffect.tableCleared ∉ rest ∧
        ∀ s, DisposeEffect.socketClosed s ∈ rest ↔
          (s ∈ p.m_sendSocketList.map Prod.fst ∨ p.m_recvSocket = some s)) ∧
      ((DoDispose p).1.sim.events.map fun e => (e.uid, e.ts, e.action)) =
        (p.sim.events.map fun e => (e.uid, e.ts, e.action)) ∧
      (∀ e ∈ (DoDispose p).1.sim.events,
        (some e.uid = p.m_nextKeepAliveMessage ∨ some e.uid = p.m_nextTriggeredUpdate ∨
          some e.uid = p.m_nextPeriodicUpdate) → e.cancelled = true) ∧
      (∀ e ∈ p.sim.events, some e.uid ≠ p.m_nextKeepAliveMessage →
        some e.uid ≠ p.m_nextTriggeredUpdate → some e.uid ≠ p.m_nextPeriodicUpdate →
        e ∈ (DoDispose p).1.sim.events) := by
  refine ⟨rfl, rfl, rfl, rfl, rfl, rfl, rfl, ?_, ?_, ?_, ?_⟩
  · refine ⟨(DoDispose p).2.tail, rfl, ?_, ?_⟩
    · cases hrecv : p.m_recvSocket <;> simp [DoDispose, hrecv]
    · intro s
      cases hrecv : p.m_recvSocket <;> simp [DoDispose, hrecv, eq_comm]
  · show (((((p.sim.Cancel p.m_nextKeepAliveMessage).Cancel p.m_nextTriggeredUpdate).Cancel
      p.m_nextPeriodicUpdate).events.map fun e => (e.uid, e.ts, e.action)) = _)
    rw [Cancel_map_key, Cancel_map_key, Cancel_map_key]
  · intro e he hid
    have he3 : e ∈ (((p.sim.Cancel p.m_nextKeepAliveMessage).Cancel
        p.m_nextTriggeredUpdate).Cancel p.m_nextPeriodicUpdate).events := he
    have h3 := Cancel_cancelled _ p.m_nextPeriodicUpdate e he3
    rcases hid with hka | htr | hpe
    · apply h3.2
      intro e2 he2 hu2
      have h2 := Cancel_cancelled _ p.m_nextTriggeredUpdate e2 he2
      apply h2.2
      intro e1 he1 hu1
      exact (Cancel_cancelled _ p.m_nextKeepAliveMessage e1 he1).1
        (by rw [hu1, hu2]; exact hka)
    · apply h3.2
      intro e2 he2 hu2
      exact (Cancel_cancelled _ p.m_nextTriggeredUpdate e2 he2).1 (by rw [hu2]; exact htr)
    · exact h3.1 hpe
  · intro e he hka htr hpe
    exact mem_Cancel_of_ne _ _ e (mem_Cancel_of_ne _ _ e (mem_Cancel_of_ne _ _ e he hka) htr) hpe

/-! Attachment and notifications. -/

theorem SetIpv4_foldl (stack : Ipv4) (l : List Nat) (p : PIORoutingProtocol) :
    l.foldl (fun q i => if stack.IsUp i then NotifyInterfaceUp q i
      else NotifyInterfaceDown q i) p = p := by
  induction l with
  | nil => rfl
  | cons i l ih =>
    simp only [List.foldl_cons]
    cases stack.IsUp i <;> simp [NotifyInterfaceUp, NotifyInterfaceDown, ih]

/-- C29. `SetIpv4` fails its assertion exactly when the instance already
holds a stack or the stack given is null; otherwise it succeeds and the
state it leaves is the state it found with the stack stored in `m_ipv4`:
the route table, the simulator and every other member are unchanged. -/
theorem C29_SetIpv4 (p : PIORoutingProtocol) (ipv4 : Ptr Ipv4) :
    (SetIpv4 p ipv4 = Except.error Fault.assertFailed ↔
        (p.m_ipv4.isSome = true ∨ ipv4.isNone = true)) ∧
      (SetIpv4 p ipv4 = Except.error Fault.assertFailed ∨
        ∃ stack, ipv4 = some stack ∧ p.m_ipv4.isNone = true ∧
          SetIpv4 p ipv4 = Except.ok { p with m_ipv4 := some stack } ∧
          ((SetIpv4 p ipv4).toOption.map fun q => (q.m_routing, q.sim)) =
            some (p.m_routing, p.sim)) := by
  cases hp : p.m_ipv4 with
  | some old =>
    have h : SetIpv4 p ipv4 = Except.error Fault.assertFailed := by
      cases ipv4 <;> simp [SetIpv4, hp]
    exact ⟨by simp [h], Or.inl h⟩
  | none =>
    cases ipv4 with
    | none =>
      have h : SetIpv4 p none = Except.error Fault.assertFailed := by simp [SetIpv4, hp]
      exact ⟨by simp [h], Or.inl h⟩
    | some stack =>
      have h : SetIpv4 p (some stack) = Except.ok { p with m_ipv4 := some stack } := by
        simp only [SetIpv4, hp]
        rw [SetIpv4_foldl]
      refine ⟨by simp [h], Or.inr ⟨stack, rfl, rfl, h, ?_⟩⟩
      rw [h]
      rfl

/-- C30. `NotifyInterfaceUp`, `NotifyInterfaceDown`, `NotifyAddAddress` and
`NotifyRemoveAddress` return the state they were given, for every state and
every argument: the route table with the validity and changed flag of every
entry, the handles and the events of the simulator are unchanged; and after
`NotifyInterfaceDown (i)` every `VALID` entry on interface `i` is still
`VALID`. -/
theorem C30_notifications_change_nothing (p : PIORoutingProtocol) (interface : Nat)
    (address : Ipv4InterfaceAddress) :
    NotifyInterfaceUp p interface = p ∧
      NotifyInterfaceDown p interface = p ∧
      NotifyAddAddress p interface address = p ∧
      NotifyRemoveAddress p interface address = p ∧
      (NotifyInterfaceDown p interface).m_routing.filter
          (fun r => condInterface interface r.route) =
        p.m_routing.filter (fun r => condInterface interface r.route) ∧
      (NotifyInterfaceDown p interface).sim = p.sim :=
  ⟨rfl, rfl, rfl, rfl, rfl, rfl⟩

/-! The invalidation timer of an added route. -/

theorem UidOrigin_refl (a : Simulator) : UidOrigin a a :=
  ⟨le_refl _, fun x hx => Or.inl ⟨x, hx, rfl⟩⟩

theorem UidOrigin_trans (a b c : Simulator) (hab : UidOrigin a b) (hbc : UidOrigin b c) :
    UidOrigin a c := by
  refine ⟨le_trans hab.1 hbc.1, ?_⟩
  intro x hx
  rcases hbc.2 x hx with ⟨y, hy, hyx⟩ | h
  · rcases hab.2 y hy with ⟨z, hz, hzy⟩ | h'
    · exact Or.inl ⟨z, hz, hzy.trans hyx⟩
    · exact Or.inr (hyx ▸ h')
  · exact Or.inr (le_trans hab.1 h)

theorem UidOrigin_Cancel (sim : Simulator) (id : EventId) : UidOrigin sim (sim.Cancel id) := by
  refine ⟨by rw [Cancel_nextUid], ?_⟩
  intro x hx
  obtain ⟨e0, he0, hu, _⟩ := mem_Cancel sim id x hx
  exact Or.inl ⟨e0, he0, hu.symm⟩

theorem UidOrigin_Schedule (sim : Simulator) (delay : Time) (action : Action) :
    UidOrigin sim (sim.Schedule delay action).1 := by
  refine ⟨by simp [Simulator.Schedule], ?_⟩
  intro x hx
  simp only [Simulator.Schedule, List.mem_append, List.mem_singleton] at hx
  rcases hx with hx | rfl
  · exact Or.inl ⟨x, hx, rfl⟩
  · exact Or.inr (le_refl _)

theorem UidOrigin_invalidateRecord (gc : Time) (sim : Simulator) (it : RouteTableRecord) :
    UidOrigin sim (invalidateRecord gc sim it).2 :=
  UidOrigin_trans _ _ _ (UidOrigin_Cancel sim it.event) (UidOrigin_Schedule _ _ _)

theorem UidOrigin_InvalidateRoute (p : PIORoutingProtocol) (route : Nat) :
    UidOrigin p.sim (InvalidateRoute p route).sim := by
  rcases InvalidateRoute_spec p route with ⟨_, hres⟩ | ⟨_, it, _, _, _, _, hres⟩
  · rw [hres]
    exact UidOrigin_refl _
  · rw [hres]
    exact UidOrigin_invalidateRecord _ _ it

theorem UidOrigin_invalidateEach (routes : List Nat) (p : PIORoutingProtocol) :
    UidOrigin p.sim (invalidateEach p routes).sim := by
  induction routes generalizing p with
  | nil => exact UidOrigin_refl _
  | cons x xs ih =>
    exact UidOrigin_trans _ _ _ (UidOrigin_InvalidateRoute p x) (ih (InvalidateRoute p x))

theorem UidOrigin_bulkInvalidate (p : PIORoutingProtocol) (cond : PIORoutingEntry → Bool)
    (hnodup : DistinctPtrs p) : UidOrigin p.sim (bulkInvalidate p cond).1.sim := by
  rw [bulkInvalidate_eq_invalidateEach p cond hnodup]
  exact UidOrigin_invalidateEach _ p

theorem UidOrigin_dequeue (p : PIORoutingProtocol) (e : ScheduledEvent) :
    UidOrigin p.sim (dequeue p e).sim :=
  ⟨le_refl _, fun x hx => Or.inl ⟨x, (List.mem_filter.mp hx).1, rfl⟩⟩

/-- A move hands out new uids only: no event of the state it leaves has a
uid that was handed out before and is not the uid of an event the simulator
held. -/
theorem UidOrigin_Step (p q : PIORoutingProtocol) (hwf : WellFormed p) (hs : Step p q) :
    UidOrigin p.sim q.sim := by
  have hadd : ∀ q' : PIORoutingProtocol,
      (q'.sim = p.sim ∨
        ∃ delay, q'.sim = (p.sim.Schedule delay (Action.InvalidateRoute p.nextPtr)).1) →
      UidOrigin p.sim q'.sim := by
    rintro q' (h1 | ⟨d, h1⟩)
    · rw [h1]
      exact UidOrigin_refl _
    · rw [h1]
      exact UidOrigin_Schedule _ _ _
  cases hs with
  | addHost host interface metric sequenceNo timeoutTime garbageCollectionTime rnd =>
    exact hadd _ (add_sim_cases p _ (Or.inl ⟨_, _, _, _, _, _, _, rfl⟩))
  | addNetwork network networkMask nextHop interface metric sequenceNo timeoutTime
      garbageCollectionTime rnd =>
    exact hadd _ (add_sim_cases p _ (Or.inr (Or.inl ⟨_, _, _, _, _, _, _, _, _, rfl⟩)))
  | addInterface network networkMask interface metric sequenceNo timeoutTime
      garbageCollectionTime rnd =>
    exact hadd _ (add_sim_cases p _ (Or.inr (Or.inr ⟨_, _, _, _, _, _, _, _, rfl⟩)))
  | addDefault nextHop interface =>
    exact hadd _ (add_sim_cases p _ (Or.inr (Or.inl ⟨_, _, _, _, _, _, _, _, _, rfl⟩)))
  | invalidateInterface interface => exact UidOrigin_bulkInvalidate p _ hwf.ptr_nodup
  | invalidateBroken destination destinationMask =>
    exact UidOrigin_bulkInvalidate p _ hwf.ptr_nodup
  | invalidateGateway gateway => exact UidOrigin_bulkInvalidate p _ hwf.ptr_nodup
  | fire _ hq =>
    obtain ⟨e, _, hcase⟩ := ProcessOneEvent_spec p q hq
    rcases hcase with ⟨_, rfl⟩ | ⟨_, rfl, _⟩ | ⟨_, rfl, _⟩
    · exact UidOrigin_dequeue p e
    · exact UidOrigin_trans _ _ _ (UidOrigin_dequeue p e) (UidOrigin_InvalidateRoute _ _)
    · exact UidOrigin_dequeue p e
  | elapse t _ _ => exact ⟨le_refl _, fun x hx => Or.inl ⟨x, hx, rfl⟩⟩

/-- An event that has left the event list does not come back. -/
theorem Gone_of_UidOrigin (a b : Simulator) (u : Nat) (h : Gone a u) (hab : UidOrigin a b) :
    Gone b u := by
  refine ⟨lt_of_lt_of_le h.1 hab.1, ?_⟩
  intro e he heu
  rcases hab.2 e he with ⟨y, hy, hye⟩ | hle
  · exact h.2 y hy (hye.trans heu)
  · have := h.1
    omega

/-- One move from a state in which the invalidation event `e0` of the record
`r` is pending, the move not being a bulk invalidation whose condition the
entry satisfies: either the timer is still pending, the record unchanged,
or the move is the scheduler running `e0`. -/
theorem Step_pending (s t : PIORoutingProtocol) (r : RouteTableRecord) (e0 : ScheduledEvent)
    (hpend : TimerPending s r e0) (hc : e0.cancelled = false)
    (ha : e0.action = Action.InvalidateRoute r.ptr) (hs : Step s t)
    (hspare : ¬ BulkMatch s t r.route) :
    TimerPending t r e0 ∨ t = InvalidateRoute (dequeue s e0) r.ptr := by
  obtain ⟨hwf, hf, hr, he0, huniq⟩ := hpend
  have hroute0 : e0.action.route = r.ptr := by rw [ha]; rfl
  rcases Step_frame s t r hwf hf hs hr hspare with ⟨hrt, hev⟩ | ⟨e, he, hroute, hcase⟩
  · left
    refine ⟨WellFormed_Step s t hwf hs, FreshUids_Step s t hwf hf hs, hrt,
      (hev e0 hroute0).mpr he0, ?_⟩
    intro x hx hxr
    exact huniq x ((hev x hxr).mp hx) hxr
  · have hee : e = e0 := huniq e he hroute
    subst hee
    rcases hcase with ⟨hcan, _⟩ | ⟨_, ht, _⟩ | ⟨_, _, hdel⟩
    · rw [hc] at hcan
      cases hcan
    · right
      rw [ht, hroute]
    · rw [ha] at hdel
      cases hdel

/-- What the scheduler running the pending invalidation event `e0` of the
record `r` leaves: the clock at the time of `e0`, the record invalidated,
and `e0` gone from the event list. -/
theorem fired_spec (s : PIORoutingProtocol) (r : RouteTableRecord) (e0 : ScheduledEvent)
    (hpend : TimerPending s r e0) :
    (InvalidateRoute (dequeue s e0) r.ptr).sim.now = e0.ts ∧
      (⟨r.ptr, invalidated r.route, some s.sim.nextUid⟩ : RouteTableRecord) ∈
        (InvalidateRoute (dequeue s e0) r.ptr).m_routing ∧
      Gone (InvalidateRoute (dequeue s e0) r.ptr).sim e0.uid := by
  obtain ⟨hwf, hf, hr, he0, _⟩ := hpend
  have hwf1 := WellFormed_dequeue s e0 hwf
  refine ⟨?_, ?_, ?_⟩
  · rw [InvalidateRoute_now]
    rfl
  · exact (InvalidateRoute_hit (dequeue s e0) r hwf1.ptr_nodup hr).1
  · apply Gone_of_UidOrigin (dequeue s e0).sim _ e0.uid ?_ (UidOrigin_InvalidateRoute _ _)
    refine ⟨hf.2 e0 he0, ?_⟩
    intro e he
    simp only [dequeue, List.mem_filter, decide_eq_true_eq] at he
    exact he.2

/-- Along every sequence of moves none of which is a bulk invalidation whose
condition the entry satisfies, from a state in which the invalidation event
of a record is pending: the timer is still pending, the record unchanged, or
the event has left the event list. -/
theorem Pending_or_Gone (q s : PIORoutingProtocol) (r : RouteTableRecord)
    (e0 : ScheduledEvent) (hpend : TimerPending q r e0) (hc : e0.cancelled = false)
    (ha : e0.action = Action.InvalidateRoute r.ptr) (hs : ReachableSparing r.route q s) :
    WellFormed s ∧ FreshUids s.sim ∧ (TimerPending s r e0 ∨ Gone s.sim e0.uid) := by
  induction hs with
  | refl => exact ⟨hpend.1, hpend.2.1, Or.inl hpend⟩
  | step a b _ hstep hspare ih =>
    obtain ⟨hwfa, hfa, hcase⟩ := ih
    refine ⟨WellFormed_Step a b hwfa hstep, FreshUids_Step a b hwfa hfa hstep, ?_⟩
    rcases hcase with hp | hg
    · rcases Step_pending a b r e0 hp hc ha hstep hspare with hp' | hfire
      · exact Or.inl hp'
      · right
        rw [hfire]
        exact (fired_spec a r e0 hp).2.2
    · exact Or.inr (Gone_of_UidOrigin _ _ _ hg (UidOrigin_Step a b hwfa hstep))

/-- What an add operation that schedules leaves: a `VALID` record with the
pointer just handed out at the front of the table, and the simulator after
one `Schedule` of `InvalidateRoute` on that pointer, due after the timeout
plus the random draw. -/
theorem SchedulingAdd_spec (p q : PIORoutingProtocol) (timeoutTime rnd : Time)
    (hwf : WellFormed p) (hfree : ∀ r ∈ p.m_routing, r.ptr ≠ p.nextPtr)
    (hq : SchedulingAdd p q timeoutTime rnd) :
    WellFormed q ∧
      q.sim = (p.sim.Schedule (timeoutTime + rnd) (Action.InvalidateRoute p.nextPtr)).1 ∧
      ∃ r, q.m_routing = r :: p.m_routing ∧ r.ptr = p.nextPtr ∧
        r.route.m_validity = Validity.VALID := by
  rcases hq with ⟨host, i, m, sq, G, hh, rfl⟩ | ⟨n, nm, nh, i, m, sq, G, hn, rfl⟩ |
    ⟨n, nm, i, m, sq, G, hz, rfl⟩
  · exact ⟨WellFormed_AddHostRouteTo p host i m sq timeoutTime G rnd hwf hfree,
      (AddHostRouteTo_sim p host i m sq timeoutTime G rnd).2 hh,
      _, AddHostRouteTo_m_routing p host i m sq timeoutTime G rnd hh, rfl, rfl⟩
  · obtain ⟨ev, hev⟩ := AddNetworkRouteTo_m_routing p n nm nh i m sq timeoutTime G rnd
    exact ⟨WellFormed_AddNetworkRouteTo p n nm nh i m sq timeoutTime G rnd hwf hfree,
      (AddNetworkRouteTo_sim p n nm nh i m sq timeoutTime G rnd).2 hn,
      _, hev, rfl, rfl⟩
  · exact ⟨WellFormed_AddNetworkRouteToInterface p n nm i m sq timeoutTime G rnd hwf hfree,
      (AddNetworkRouteToInterface_sim p n nm i m sq timeoutTime G rnd).2 hz,
      _, AddNetworkRouteToInterface_m_routing p n nm i m sq timeoutTime G rnd, rfl, rfl⟩

/-- The invalidation timer of a route allocated at an address that no record
of the table holds and no pending event carries. In a state reachable from an
empty table, let an add operation schedule an invalidation timer
(`AddHostRouteTo` for a host other than 127.0.0.1, the overload of
`AddNetworkRouteTo` with gateway for a destination other than 0.0.0.0/0, or
the overload without gateway with times not both zero) for a route with
timeout `timeoutTime`; `rnd` is `Seconds (m_rng->GetValue (0, 5))`, a whole
number of nanoseconds in [0, 5 s). Then the new record `r`, `VALID`, is at
the front of the table and one event `e0` joins the event list:
`InvalidateRoute` on `r`, not cancelled, due after a delay `d` with
`timeoutTime` ≤ `d` < `timeoutTime` + 5 s. Along every sequence of moves
none of which is a bulk invalidation whose predicate the entry matches: as
long as `e0` is in the event list the record is in the table, unchanged
(`VALID`); and the move after which `e0` is no longer in the event list
leaves the clock at the time of `e0`, that is `d` after the creation, and
the record `INVALID`. -/
theorem invalidation_timer_of_quiet (init p q : PIORoutingProtocol) (timeoutTime rnd : Time)
    (hinit : Initial init) (hp : Reachable init p) (h0 : 0 ≤ rnd) (h5 : rnd < 5000000000)
    (hfree : ∀ r ∈ p.m_routing, r.ptr ≠ p.nextPtr)
    (hquiet : ∀ e ∈ p.sim.events, e.action.route ≠ p.nextPtr)
    (hq : SchedulingAdd p q timeoutTime rnd) :
    ∃ r e0, q.m_routing = r :: p.m_routing ∧ r.ptr = p.nextPtr ∧
      r.route.m_validity = Validity.VALID ∧
      q.sim.events = p.sim.events ++ [e0] ∧ q.sim.now = p.sim.now ∧
      e0.action = Action.InvalidateRoute r.ptr ∧ e0.cancelled = false ∧
      timeoutTime ≤ e0.ts - p.sim.now ∧ e0.ts - p.sim.now < timeoutTime + 5000000000 ∧
      (∀ s, ReachableSparing r.route q s → e0 ∈ s.sim.events → r ∈ s.m_routing) ∧
      (∀ s t, ReachableSparing r.route q s → Step s t → ¬ BulkMatch s t r.route →
        e0 ∈ s.sim.events → e0 ∉ t.sim.events →
          t.sim.now = e0.ts ∧
            (⟨r.ptr, invalidated r.route, some s.sim.nextUid⟩ : RouteTableRecord) ∈
              t.m_routing) := by
  obtain ⟨hwf, hf⟩ := WellFormed_FreshUids_of_Reachable init p
    (WellFormed_of_Initial init hinit) (FreshUids_of_Initial init hinit) hp
  obtain ⟨hwfq, hsim, r, htbl, hptr, hval⟩ := SchedulingAdd_spec p q timeoutTime rnd hwf hfree hq
  have hev : q.sim.events = p.sim.events ++
      [⟨p.sim.nextUid, p.sim.now + (timeoutTime + rnd), Action.InvalidateRoute p.nextPtr,
        false⟩] := by
    rw [hsim]
    rfl
  have hnow : q.sim.now = p.sim.now := by
    rw [hsim]
    rfl
  have hpend : TimerPending q r ⟨p.sim.nextUid, p.sim.now + (timeoutTime + rnd),
      Action.InvalidateRoute p.nextPtr, false⟩ := by
    refine ⟨hwfq, ?_, ?_, ?_, ?_⟩
    · rw [hsim]
      exact FreshUids_Schedule _ _ _ hf
    · rw [htbl]
      exact List.mem_cons_self _ _
    · rw [hev]
      simp
    · intro e he her
      rw [hev, List.mem_append, List.mem_singleton] at he
      rcases he with he | he
      · rw [hptr] at her
        exact absurd her (hquiet e he)
      · exact he
  have hact : (⟨p.sim.nextUid, p.sim.now + (timeoutTime + rnd),
      Action.InvalidateRoute p.nextPtr, false⟩ : ScheduledEvent).action =
      Action.InvalidateRoute r.ptr := by
    rw [hptr]
  have key : ∀ now T d : Int, 0 ≤ d → d < 5000000000 →
      T ≤ now + (T + d) - now ∧ now + (T + d) - now < T + 5000000000 := by
    intro now T d hd0 hd5
    constructor <;> omega
  refine ⟨r, _, htbl, hptr, hval, hev, hnow, hact, rfl, ?_, ?_, ?_, ?_⟩
  · exact (key p.sim.now timeoutTime rnd h0 h5).1
  · exact (key p.sim.now timeoutTime rnd h0 h5).2
  · intro s hs he0
    rcases (Pending_or_Gone q s r _ hpend rfl hact hs).2.2 with hp' | hg
    · exact hp'.2.2.1
    · exact absurd rfl (hg.2 _ he0)
  · intro s t hs hstep hspare he0 hnot
    rcases (Pending_or_Gone q s r _ hpend rfl hact hs).2.2 with hp' | hg
    · rcases Step_pending s t r _ hp' rfl hact hstep hspare with hpt | hfire
      · exact absurd hpt.2.2.2.1 hnot
      · rw [hfire]
        exact ⟨(fired_spec s r _ hp').1, (fired_spec s r _ hp').2.1⟩
    · exact absurd rfl (hg.2 _ he0)

/-- C23 fails in the code. In `staleState`, reached from an empty table, the
clock is at 10 s, the table is empty, address 0 is free and the
`InvalidateRoute` event of the entry that was at address 0 (uid 4, due at
500 s) is still pending. The overload of `AddNetworkRouteTo` with gateway is
called for 10.10.10.0/24 with a timeout of 500 s (random draw 0) and `new`
returns address 0: the invalidation timer of the new route (uid 6) is
scheduled with a delay of 500 s, within [T, T + 5 s), and is due at 510 s.
The next move, which is no bulk invalidation, is the scheduler running event
4 at 500 s: `InvalidateRoute` on address 0 leaves the new entry `INVALID`
490 s after its creation, before its timeout has passed, and cancels the
timer of the entry. -/
theorem C23_route_invalidated_before_its_timeout :
    Initial recyclingProtocol ∧ Reachable recyclingProtocol staleState ∧
      staleState.sim.now = 10000000000 ∧ staleState.m_routing = [] ∧
      staleState.sim.events = [⟨4, 500000000000, Action.InvalidateRoute 0, false⟩] ∧
      staleState.nextPtr = 0 ∧
      SchedulingAdd staleState gatewayOnStale 500000000000 0 ∧
      gatewayOnStale.m_routing =
        [validRecord 0 0x0a0a0a00 0xffffff00 0x0f101002 2 2 4 (some 6)] ∧
      gatewayOnStale.sim.now = 10000000000 ∧
      gatewayOnStale.sim.events =
        [⟨4, 500000000000, Action.InvalidateRoute 0, false⟩,
          ⟨6, 510000000000, Action.InvalidateRoute 0, false⟩] ∧
      ReachableSparing (validRecord 0 0x0a0a0a00 0xffffff00 0x0f101002 2 2 4 (some 6)).route
        gatewayOnStale (runNext gatewayOnStale) ∧
      (runNext gatewayOnStale).sim.now = 500000000000 ∧
      (runNext gatewayOnStale).m_routing.map
          (fun r => (r.ptr, r.route.m_dest, r.route.m_validity, r.event)) =
        [(0, 0x0a0a0a00, Validity.INVALID, some 7)] ∧
      (runNext gatewayOnStale).sim.events =
        [⟨6, 510000000000, Action.InvalidateRoute 0, true⟩,
          ⟨7, 510000000000, Action.DeleteRoute 0, false⟩] ∧
      (runNext gatewayOnStale).sim.now - gatewayOnStale.sim.now < 500000000000 :=
  ⟨⟨rfl, rfl⟩, staleState_Reachable, by decide, by decide, by decide, by decide,
    Or.inr (Or.inl ⟨0x0a0a0a00, 0xffffff00, 0x0f101002, 2, 2, 4, 500000000000,
      by decide, rfl⟩),
    by decide, by decide, by decide,
    ReachableSparing.step _ _ ReachableSparing.refl (Step_runNext _ (by decide))
      (not_BulkMatch_of_now _ _ _ (by decide)),
    by decide, by decide, by decide, by decide⟩

/-! The changed flag. -/

/-- C31. In a state reachable from an empty table, no move (add operation,
bulk invalidation, firing of a timer, which is how `InvalidateRoute` and
`DeleteRoute` run, the clock advancing) clears the changed flag of an entry
of the table: a record that is still in the table after the move and whose
changed flag was true has it true. The same holds for `InvalidateRoute` and
`DeleteRoute` called directly on any pointer. `LookupRoute`, `RouteOutput`,
`RouteInput` and `PrintRoutingTable` return values and leave the state as it
is. -/
theorem C31_changed_flag_never_cleared (init p q : PIORoutingProtocol) (route : Nat)
    (hinit : Initial init) (hp : Reachable init p) (hs : Step p q) :
    (∀ r ∈ p.m_routing, r.route.m_changed = true →
      ∀ r' ∈ q.m_routing, r'.ptr = r.ptr → r'.route.m_changed = true) ∧
    (∀ r ∈ p.m_routing, r.route.m_changed = true →
      ∀ r' ∈ (InvalidateRoute p route).m_routing, r'.ptr = r.ptr →
        r'.route.m_changed = true) ∧
    (∀ r ∈ p.m_routing, r.route.m_changed = true →
      ∀ r' ∈ (DeleteRoute p route).m_routing, r'.ptr = r.ptr →
        r'.route.m_changed = true) := by
  have hwf : WellFormed p := WellFormed_of_Reachable init p (WellFormed_of_Initial init hinit) hp
  refine ⟨?_, ?_, ?_⟩
  · have hwfq := WellFormed_Step p q hwf hs
    intro r hr hch r' hr' hptr
    rcases Step_record p q hwf hs r hr with h | ⟨u, h⟩ | ⟨_, h⟩
    · rw [eq_of_ptr_eq q.m_routing r' r hwfq.ptr_nodup hr' h hptr]
      exact hch
    · rw [eq_of_ptr_eq q.m_routing r' _ hwfq.ptr_nodup hr' h hptr]
      rfl
    · exact absurd hptr (h r' hr')
  · have hwfq := WellFormed_InvalidateRoute p route hwf
    intro r hr hch r' hr' hptr
    rcases InvalidateRoute_record p route r hwf.ptr_nodup hr with ⟨_, h⟩ | ⟨_, h⟩
    · rw [eq_of_ptr_eq _ r' r hwfq.ptr_nodup hr' h hptr]
      exact hch
    · rw [eq_of_ptr_eq _ r' _ hwfq.ptr_nodup hr' h hptr]
      rfl
  · have hwfq := WellFormed_DeleteRoute p route hwf
    intro r hr hch r' hr' hptr
    rcases DeleteRoute_record p route r hwf.ptr_nodup hr with ⟨_, h⟩ | ⟨_, h⟩
    · rw [eq_of_ptr_eq _ r' r hwfq.ptr_nodup hr' h hptr]
      exact hch
    · exact absurd hptr (h r' hr')

/-- Witness of C31: on node 2, `InvalidateRoutesForInterface (3)` leaves the
changed flag of the route for 172.16.1.0/30 (pointer 4) true. -/
theorem C31_changed_flag_never_cleared_witness :
    Initial attachedProtocol ∧ Reachable attachedProtocol node2 ∧
      Step node2 (InvalidateRoutesForInterface node2 3).1 ∧
      ∀ r' ∈ (InvalidateRoutesForInterface node2 3).1.m_routing, r'.ptr = 4 →
        r'.route.m_changed = true :=
  ⟨⟨rfl, rfl⟩, node2_Reachable, Step.invalidateInterface _ 3,
    (C31_changed_flag_never_cleared attachedProtocol node2 _ 0 ⟨rfl, rfl⟩ node2_Reachable
      (Step.invalidateInterface _ 3)).1 node2GatewayRecord (by decide) rfl⟩

/-! The split-horizon policy. -/

/-- C32. The entries selected for advertisement out an interface, by mode:
`NO_SPLIT_HORIZON` selects every entry, whatever its interface;
`SPLIT_HORIZON` selects, in table order, exactly the entries whose interface
is another one; `POISON_REVERSE` selects as many entries as there are, in
order, each as it is when its interface is another one and with the poisoned
metric, its other fields unchanged, when its interface is the one
advertised on. Of five entries, two of them on interface 1, the three modes
select five, three and five. -/
theorem C32_split_horizon_selection (poisonedMetric interface : Nat)
    (entries : List PIORoutingEntry) :
    selectAdvertised SplitHorizonType.NO_SPLIT_HORIZON poisonedMetric interface entries =
        entries ∧
      (∀ e, e ∈ selectAdvertised SplitHorizonType.SPLIT_HORIZON poisonedMetric interface
          entries ↔ (e ∈ entries ∧ e.m_interface ≠ interface)) ∧
      (selectAdvertised SplitHorizonType.SPLIT_HORIZON poisonedMetric interface
        entries).Sublist entries ∧
      (selectAdvertised SplitHorizonType.POISON_REVERSE poisonedMetric interface
        entries).length = entries.length ∧
      (∀ k : Nat, (selectAdvertised SplitHorizonType.POISON_REVERSE poisonedMetric interface
          entries)[k]? =
        (entries[k]?).map fun (e : PIORoutingEntry) =>
          if e.m_interface = interface then { e with m_metric := poisonedMetric } else e) ∧
      ((selectAdvertised SplitHorizonType.NO_SPLIT_HORIZON 16 1 sampleEntries).map
          (fun e => (e.m_interface, e.m_metric)) = [(3, 3), (2, 2), (2, 1), (1, 0), (1, 1)] ∧
        (selectAdvertised SplitHorizonType.SPLIT_HORIZON 16 1 sampleEntries).map
          (fun e => (e.m_interface, e.m_metric)) = [(3, 3), (2, 2), (2, 1)] ∧
        (selectAdvertised SplitHorizonType.POISON_REVERSE 16 1 sampleEntries).map
          (fun e => (e.m_interface, e.m_metric)) =
            [(3, 3), (2, 2), (2, 1), (1, 16), (1, 16)]) := by
  refine ⟨rfl, ?_, ?_, ?_, ?_, by decide, by decide, by decide⟩
  · intro e
    simp [selectAdvertised]
  · exact List.filter_sublist _
  · simp [selectAdvertised]
  · intro k
    simp [selectAdvertised]

/-! The handle of a network route added without gateway. -/

/-- C34 fails in the code. On a fresh instance the overload of
`AddNetworkRouteTo` without gateway is called for 193.168.16.0/30 on
interface 1 with both times 500 s (random draw 0). The `InvalidateRoute`
event is scheduled (uid 4, due at 500 s), yet the handle paired with the new
entry is the empty one: the dump reports 0 as time remaining and
`InvalidateRoutesForInterface (1)` leaves the event not cancelled. The same
call of the overload with gateway pairs the entry with the handle of its
event, the dump reports 500 s and the bulk invalidation cancels the event. -/
theorem C34_interface_route_handle_empty :
    leakAdded.m_routing.map (fun r => (r.ptr, r.route.m_validity, r.event)) =
        [(0, Validity.VALID, none)] ∧
      leakAdded.sim.events = [⟨4, 500000000000, Action.InvalidateRoute 0, false⟩] ∧
      (PrintRoutingTable leakAdded).map (fun row => (row.validity, row.expireIn)) =
        [("VALID", 0)] ∧
      (InvalidateRoutesForInterface leakAdded 1).1.sim.events =
        [⟨4, 500000000000, Action.InvalidateRoute 0, false⟩,
          ⟨5, 10000000000, Action.DeleteRoute 0, false⟩] ∧
      keptAdded.m_routing.map (fun r => (r.ptr, r.route.m_validity, r.event)) =
        [(0, Validity.VALID, some 4)] ∧
      (PrintRoutingTable keptAdded).map (fun row => (row.validity, row.expireIn)) =
        [("VALID", 500000000000)] ∧
      (InvalidateRoutesForInterface keptAdded 1).1.sim.events =
        [⟨4, 500000000000, Action.InvalidateRoute 0, true⟩,
          ⟨5, 10000000000, Action.DeleteRoute 0, false⟩] := by
  refine ⟨by decide, by decide, by decide, by decide, by decide, by decide, by decide⟩

/-! Where the records of the table come from. -/

/-- A record of the table a bulk invalidation leaves was in the table with an
entry that fails the condition, or is `INVALID`. -/
theorem bulkInvalidateLoop_mem (gc : Time) (cond : PIORoutingEntry → Bool)
    (tbl : List RouteTableRecord) (sim : Simulator) (retVal : Bool) (r' : RouteTableRecord)
    (h : r' ∈ (bulkInvalidateLoop gc cond tbl sim retVal).1) :
    (r' ∈ tbl ∧ cond r'.route = false) ∨ r'.route.m_validity = Validity.INVALID := by
  induction tbl generalizing sim retVal with
  | nil => simp [bulkInvalidateLoop] at h
  | cons it rest ih =>
    by_cases hc : cond it.route = true
    · simp only [bulkInvalidateLoop, hc, if_true, List.mem_cons] at h
      rcases h with rfl | h
      · right
        rw [invalidateRecord_fst]
        rfl
      · rcases ih _ _ h with ⟨h1, h2⟩ | h1
        · exact Or.inl ⟨List.mem_cons_of_mem _ h1, h2⟩
        · exact Or.inr h1
    · have hcf : cond it.route = false := by simpa using hc
      simp only [bulkInvalidateLoop, hcf, Bool.false_eq_true, if_false, List.mem_cons] at h
      rcases h with rfl | h
      · exact Or.inl ⟨List.mem_cons_self _ _, hcf⟩
      · rcases ih _ _ h with ⟨h1, h2⟩ | h1
        · exact Or.inl ⟨List.mem_cons_of_mem _ h1, h2⟩
        · exact Or.inr h1

/-- After a bulk invalidation no entry of the table satisfies its
condition. -/
theorem bulkInvalidate_cond_false (p : PIORoutingProtocol) (cond : PIORoutingEntry → Bool)
    (hcond : (∃ i, cond = condInterface i) ∨ (∃ d m, cond = condBroken d m) ∨
      (∃ g, cond = condGateway g)) :
    ∀ r ∈ (bulkInvalidate p cond).1.m_routing, cond r.route = false := by
  intro r hr
  rcases bulkInvalidateLoop_mem p.m_garbageCollectionDelay cond p.m_routing p.sim false r hr
    with ⟨_, h⟩ | h
  · exact h
  · rw [Bool.eq_false_iff]
    intro hc
    have hv := cond_valid cond r.route hcond hc
    rw [h] at hv
    cases hv

/-- A bulk invalidation called again right after itself returns false and
changes nothing. -/
theorem bulkInvalidate_twice (p : PIORoutingProtocol) (cond : PIORoutingEntry → Bool)
    (hcond : (∃ i, cond = condInterface i) ∨ (∃ d m, cond = condBroken d m) ∨
      (∃ g, cond = condGateway g)) :
    bulkInvalidate (bulkInvalidate p cond).1 cond = ((bulkInvalidate p cond).1, false) := by
  have hall := bulkInvalidate_cond_false p cond hcond
  have hret : (bulkInvalidate (bulkInvalidate p cond).1 cond).2 = false := by
    rw [Bool.eq_false_iff]
    intro ht
    obtain ⟨r, hr, hc⟩ := ((bulkInvalidate_retVal (bulkInvalidate p cond).1 cond).1).mp ht
    rw [hall r hr] at hc
    cases hc
  exact Prod.ext ((bulkInvalidate_retVal (bulkInvalidate p cond).1 cond).2 hret) hret

/-- C36. For every state and every argument, each of
`InvalidateRoutesForInterface`, `InvalidateBrokenRoutes` and
`InvalidateRoutesForGateway` called a second time with the same argument
right after the first call returns false and leaves the state exactly as the
first call left it: the table with every entry's validity, changed flag and
handle, and the simulator with every event. -/
theorem C36_bulk_invalidation_idempotent (p : PIORoutingProtocol) (interface : Nat)
    (destination : Ipv4Address) (destinationMask : Ipv4Mask) (gateway : Ipv4Address) :
    InvalidateRoutesForInterface (InvalidateRoutesForInterface p interface).1 interface =
        ((InvalidateRoutesForInterface p interface).1, false) ∧
      InvalidateBrokenRoutes (InvalidateBrokenRoutes p destination destinationMask).1
          destination destinationMask =
        ((InvalidateBrokenRoutes p destination destinationMask).1, false) ∧
      InvalidateRoutesForGateway (InvalidateRoutesForGateway p gateway).1 gateway =
        ((InvalidateRoutesForGateway p gateway).1, false) :=
  ⟨bulkInvalidate_twice p _ (Or.inl ⟨interface, rfl⟩),
    bulkInvalidate_twice p _ (Or.inr (Or.inl ⟨destination, destinationMask, rfl⟩)),
    bulkInvalidate_twice p _ (Or.inr (Or.inr ⟨gateway, rfl⟩))⟩

/-! Lookups after `InvalidateRoutesForInterface`. -/

theorem mem_InvalidateRoute_inv (p : PIORoutingProtocol) (route : Nat) (r' : RouteTableRecord)
    (h : r' ∈ (InvalidateRoute p route).m_routing) :
    r' ∈ p.m_routing ∨ r'.route.m_validity = Validity.INVALID := by
  rcases InvalidateRoute_spec p route with ⟨_, hres⟩ | ⟨pre, it, post, htbl, _, _, hres⟩
  · rw [hres] at h
    exact Or.inl h
  · rw [hres] at h
    simp only [List.mem_append, List.mem_cons] at h
    rcases h with h | rfl | h
    · exact Or.inl (by rw [htbl]; simp [h])
    · right
      rw [invalidateRecord_fst]
      rfl
    · exact Or.inl (by rw [htbl]; simp [h])

theorem mem_DeleteRoute_inv (p : PIORoutingProtocol) (route : Nat) (r' : RouteTableRecord)
    (h : r' ∈ (DeleteRoute p route).m_routing) : r' ∈ p.m_routing := by
  rcases DeleteRoute_spec p route with ⟨_, hres⟩ | ⟨pre, it, post, htbl, _, _, hres⟩
  · rw [hres] at h
    exact h
  · rw [hres] at h
    simp only [List.mem_append] at h
    rw [htbl]
    rcases h with h | h
    · simp [h]
    · simp [h]

theorem mem_AddHostRouteTo_inv (p : PIORoutingProtocol) (host : Ipv4Address)
    (interface metric sequenceNo : Nat) (timeoutTime garbageCollectionTime rnd : Time)
    (r' : RouteTableRecord)
    (h : r' ∈ (AddHostRouteTo p host interface metric sequenceNo timeoutTime
      garbageCollectionTime rnd).m_routing) :
    r' ∈ p.m_routing ∨ r'.route.m_interface = interface := by
  unfold AddHostRouteTo at h
  split at h
  · simp only [List.mem_cons] at h
    rcases h with rfl | h
    · exact Or.inr rfl
    · exact Or.inl h
  · simp only [List.mem_cons] at h
    rcases h with rfl | h
    · exact Or.inr rfl
    · exact Or.inl h

theorem mem_AddNetworkRouteTo_inv (p : PIORoutingProtocol) (network : Ipv4Address)
    (networkMask : Ipv4Mask) (nextHop : Ipv4Address) (interface metric sequenceNo : Nat)
    (timeoutTime garbageCollectionTime rnd : Time) (r' : RouteTableRecord)
    (h : r' ∈ (AddNetworkRouteTo p network networkMask nextHop interface metric sequenceNo
      timeoutTime garbageCollectionTime rnd).m_routing) :
    r' ∈ p.m_routing ∨ r'.route.m_interface = interface := by
  obtain ⟨ev, hev⟩ := AddNetworkRouteTo_m_routing p network networkMask nextHop interface metric
    sequenceNo timeoutTime garbageCollectionTime rnd
  rw [hev, List.mem_cons] at h
  rcases h with rfl | h
  · exact Or.inr rfl
  · exact Or.inl h

theorem mem_AddNetworkRouteToInterface_inv (p : PIORoutingProtocol) (network : Ipv4Address)
    (networkMask : Ipv4Mask) (interface metric sequenceNo : Nat)
    (timeoutTime garbageCollectionTime rnd : Time) (r' : RouteTableRecord)
    (h : r' ∈ (AddNetworkRouteToInterface p network networkMask interface metric sequenceNo
      timeoutTime garbageCollectionTime rnd).m_routing) :
    r' ∈ p.m_routing ∨ r'.route.m_interface = interface := by
  rw [AddNetworkRouteToInterface_m_routing, List.mem_cons] at h
  rcases h with rfl | h
  · exact Or.inr rfl
  · exact Or.inl h

/-- A move that adds no route on the interface `i` leaves no `VALID` entry
on it when there was none. -/
theorem NoValidOn_Step (i : Nat) (s t : PIORoutingProtocol) (hs : Step s t)
    (havoid : ¬ AddsOn s t i) (h : NoValidOn i s) : NoValidOn i t := by
  have hbulk : ∀ cond : PIORoutingEntry → Bool, NoValidOn i (bulkInvalidate s cond).1 := by
    intro cond r hr hv
    rcases bulkInvalidateLoop_mem s.m_garbageCollectionDelay cond s.m_routing s.sim false r hr
      with ⟨h1, _⟩ | h1
    · exact h r h1 hv
    · rw [h1] at hv
      cases hv
  cases hs with
  | addHost host interface metric sequenceNo timeoutTime garbageCollectionTime rnd =>
    intro r hr hv
    rcases mem_AddHostRouteTo_inv s _ _ _ _ _ _ _ r hr with h1 | h1
    · exact h r h1 hv
    · rw [h1]
      rintro rfl
      exact havoid (Or.inl ⟨_, _, _, _, _, _, rfl⟩)
  | addNetwork network networkMask nextHop interface metric sequenceNo timeoutTime
      garbageCollectionTime rnd =>
    intro r hr hv
    rcases mem_AddNetworkRouteTo_inv s _ _ _ _ _ _ _ _ _ r hr with h1 | h1
    · exact h r h1 hv
    · rw [h1]
      rintro rfl
      exact havoid (Or.inr (Or.inl ⟨_, _, _, _, _, _, _, _, rfl⟩))
  | addInterface network networkMask interface metric sequenceNo timeoutTime
      garbageCollectionTime rnd =>
    intro r hr hv
    rcases mem_AddNetworkRouteToInterface_inv s _ _ _ _ _ _ _ _ r hr with h1 | h1
    · exact h r h1 hv
    · rw [h1]
      rintro rfl
      exact havoid (Or.inr (Or.inr (Or.inl ⟨_, _, _, _, _, _, _, rfl⟩)))
  | addDefault nextHop interface =>
    intro r hr hv
    rcases mem_AddNetworkRouteTo_inv s _ _ _ _ _ _ _ _ _ r hr with h1 | h1
    · exact h r h1 hv
    · rw [h1]
      rintro rfl
      exact havoid (Or.inr (Or.inr (Or.inr ⟨_, rfl⟩)))
  | invalidateInterface interface => exact hbulk _
  | invalidateBroken destination destinationMask => exact hbulk _
  | invalidateGateway gateway => exact hbulk _
  | fire _ hq =>
    obtain ⟨e, _, hcase⟩ := ProcessOneEvent_spec s t hq
    rcases hcase with ⟨_, rfl⟩ | ⟨_, rfl, _⟩ | ⟨_, rfl, _⟩
    · exact h
    · intro r hr hv
      rcases mem_InvalidateRoute_inv (dequeue s e) _ r hr with h1 | h1
      · exact h r h1 hv
      · rw [h1] at hv
        cases hv
    · intro r hr hv
      exact h r (mem_DeleteRoute_inv (dequeue s e) _ r hr) hv
  | elapse t' _ _ => exact h

/-- After `InvalidateRoutesForInterface (i)`, and as long as no route is
added on the interface `i`, no `VALID` entry of the table is on it. -/
theorem NoValidOn_of_ReachableAvoiding (p s : PIORoutingProtocol) (i : Nat)
    (hs : ReachableAvoiding i (InvalidateRoutesForInterface p i).1 s) : NoValidOn i s := by
  induction hs with
  | refl =>
    intro r hr hv
    have hc := bulkInvalidate_cond_false p (condInterface i) (Or.inl ⟨i, rfl⟩) r hr
    intro hi
    simp [condInterface, hv, hi] at hc
  | step a b _ hstep havoid ih => exact NoValidOn_Step i a b hstep havoid ih

/-- Without the stack the loop of `LookupRoute` returns no route. -/
theorem lookupLoop_detached (address : Ipv4Address) (dev : Ptr NetDevice)
    (tbl : List RouteTableRecord) (rt : Ipv4Route) :
    lookupLoop none address dev tbl ≠ Except.ok (some rt) := by
  induction tbl with
  | nil => simp [lookupLoop]
  | cons it rest ih =>
    by_cases hv : it.route.m_validity = Validity.VALID
    · by_cases hm : IsMatch it.route.m_destNetworkMask address it.route.m_dest = true
      · cases dev <;> simp [lookupLoop, hv, hm]
      · simpa [lookupLoop, hv, hm] using ih
    · simpa [lookupLoop, hv] using ih

/-- C35. For every table and every interface `i`: in the state
`InvalidateRoutesForInterface (i)` leaves, and in every state reached from
it by moves none of which adds a route on interface `i`, a lookup for an
address outside 224.0.0.0/24 (in particular for every address that is not
multicast), with or without a device hint, that returns a route returns the
route of a `VALID` entry whose interface is not `i`: its output device is the
device of that other interface, hence not the device of `i` when each
interface has its own device. -/
theorem C35_no_route_on_invalidated_interface (p s : PIORoutingProtocol) (i : Nat)
    (address : Ipv4Address) (dev : Ptr NetDevice) (rt : Ipv4Route)
    (hs : ReachableAvoiding i (InvalidateRoutesForInterface p i).1 s)
    (hm : IsLocalMulticast address = false)
    (hrt : LookupRoute s address dev = Except.ok (some rt)) :
    ∃ ipv4, s.m_ipv4 = some ipv4 ∧
      ∃ r ∈ s.m_routing, r.route.m_validity = Validity.VALID ∧ r.route.m_interface ≠ i ∧
        rt = routeOfEntry ipv4 r.route ∧
        rt.outputDevice = ipv4.GetNetDevice r.route.m_interface ∧
        ((∀ j, ipv4.GetNetDevice j = ipv4.GetNetDevice i → j = i) →
          rt.outputDevice ≠ ipv4.GetNetDevice i) := by
  have hno : NoValidOn i s := NoValidOn_of_ReachableAvoiding p s i hs
  cases hip : s.m_ipv4 with
  | none =>
    exfalso
    have hloop : LookupRoute s address dev = lookupLoop none address dev s.m_routing := by
      simp [LookupRoute, hm, hip]
    rw [hloop] at hrt
    exact lookupLoop_detached address dev s.m_routing rt hrt
  | some ipv4 =>
    refine ⟨ipv4, rfl, ?_⟩
    rw [LookupRoute_eq_loop s ipv4 address dev hip hm] at hrt
    rcases lookupLoop_spec ipv4 address dev s.m_routing with
      ⟨_, hres⟩ | ⟨pre, r, post, htbl, _, hstop, hres⟩
    · rw [hres] at hrt
      cases hrt
    · rw [hres] at hrt
      simp only [Except.ok.injEq, Option.some.injEq] at hrt
      have hr : r ∈ s.m_routing := by simp [htbl]
      have hi := hno r hr hstop.1
      refine ⟨r, hr, hstop.1, hi, hrt.symm, by rw [← hrt]; rfl, ?_⟩
      intro hinj hdev
      rw [← hrt] at hdev
      exact hi (hinj _ hdev)

/-- Witness of C35: on node 2 after `InvalidateRoutesForInterface (3)`, the
lookup for 10.10.10.1 returns the route through 15.16.16.2 on the device of
interface 2. -/
theorem C35_no_route_on_invalidated_interface_witness :
    LookupRoute (InvalidateRoutesForInterface node2 3).1 0x0a0a0a01 none =
        Except.ok (some ⟨0, 0x0a0a0a00, 0x0f101002, some 102⟩) ∧
      ∃ ipv4, (InvalidateRoutesForInterface node2 3).1.m_ipv4 = some ipv4 ∧
        ∃ r ∈ (InvalidateRoutesForInterface node2 3).1.m_routing,
          r.route.m_validity = Validity.VALID ∧ r.route.m_interface ≠ 3 ∧
            (⟨0, 0x0a0a0a00, 0x0f101002, some 102⟩ : Ipv4Route) =
              routeOfEntry ipv4 r.route := by
  have h : LookupRoute (InvalidateRoutesForInterface node2 3).1 0x0a0a0a01 none =
      Except.ok (some ⟨0, 0x0a0a0a00, 0x0f101002, some 102⟩) := rfl
  obtain ⟨ipv4, h1, r, h2, h3, h4, h5, _⟩ :=
    C35_no_route_on_invalidated_interface node2 _ 3 0x0a0a0a01 none _ ReachableAvoiding.refl
      (by decide) h
  exact ⟨h, ipv4, h1, r, h2, h3, h4, h5⟩

/-! The queue discipline. -/

/-- C40. For all 32-bit values `a` and `b` with `a` = `b` + `d` modulo 2^32
and 0 < `d` < 2^31, `AqmTimeAfter (a, b)` and `AqmTimeAfterEq (a, b)` are
true and `AqmTimeBefore (a, b)` and `AqmTimeBeforeEq (a, b)` are false, the
subtraction of the two `int`s being taken with two's-complement
wrap-around. The arguments are read as `uint32_t`, so the statement needs no
bound on `a` and `b`. -/
theorem C40_time_comparisons_wrap (a b d : Nat) (hd0 : 0 < d) (hd : d < 2 ^ 31)
    (hab : a = (b + d) % 2 ^ 32) :
    AqmTimeAfter a b = true ∧ AqmTimeAfterEq a b = true ∧
      AqmTimeBefore a b = false ∧ AqmTimeBeforeEq a b = false := by
  have key : wrapInt32 (toInt32 a - toInt32 b) = (d : Int) := by
    unfold wrapInt32 toInt32
    norm_num at hd hab ⊢
    split_ifs <;> omega
  simp only [AqmTimeAfter, AqmTimeAfterEq, AqmTimeBefore, AqmTimeBeforeEq, key]
  refine ⟨?_, ?_, ?_, ?_⟩ <;> simp <;> omega

/-- Witness of C40: `b` = 4294967290 and `a` = 5, eleven ticks later, across
the wrap-around of the timestamp. -/
theorem C40_time_comparisons_wrap_witness :
    AqmTimeAfter 5 4294967290 = true ∧ AqmTimeAfterEq 5 4294967290 = true ∧
      AqmTimeBefore 5 4294967290 = false ∧ AqmTimeBeforeEq 5 4294967290 = false :=
  C40_time_comparisons_wrap 5 4294967290 11 (by decide) (by decide) (by decide)

/-- C38. When the tag of the packet is found, the sojourn time is not below
the target (`AqmTimeBefore` of the two is false) and `m_bytesInQueue` is at
least `m_minBytes`, `OkToDrop` succeeds, leaves in `randv` the value
`randv * 1664525 + 1013904223` modulo 2^32, and returns true iff that value
is below 42949673: the value returned is a function of `randv` alone,
whatever `now`, `m_firstAboveTime` and the other members are. -/
theorem C38_OkToDrop_is_random (h : AqmHeader) (q : AqmQueue) (p : AqmPacket) (now : Nat)
    (simNow txTime : Time) (htag : p.packetTag = some txTime)
    (hsojourn : AqmTimeBefore (Time2Aqm h (simNow - txTime)) (Time2Aqm h q.m_target) = false)
    (hbytes : q.m_minBytes ≤ q.m_bytesInQueue) :
    ∃ q', OkToDrop h q p now simNow =
        Except.ok (q', { p with packetTag := none },
          decide (u32 (q.randv * 1664525 + 1013904223) < 42949673)) ∧
      q'.randv = u32 (q.randv * 1664525 + 1013904223) := by
  have hb : ¬ q.m_bytesInQueue < q.m_minBytes := Nat.not_lt.mpr hbytes
  simp only [OkToDrop, htag, hsojourn, hb, decide_False, Bool.or_self, Bool.false_eq_true,
    if_false]
  split_ifs <;> exact ⟨_, rfl, rfl⟩

/-- Witness of C38: the packet of `lastPacketQueue`, enqueued at time 0, is
examined at 1 s with `MinBytes` 0: `randv` goes from 3801544430 to 28987765
and the result is true. -/
theorem C38_OkToDrop_is_random_witness :
    ∃ q', OkToDrop sampleHeader lastPacketQueue ⟨7, 1000, some 0⟩ 976562 1000000000 =
        Except.ok (q', ⟨7, 1000, none⟩, true) ∧ q'.randv = 28987765 :=
  C38_OkToDrop_is_random sampleHeader lastPacketQueue ⟨7, 1000, some 0⟩ 976562 1000000000 0 rfl
    (by decide) (by decide)

/-- C33 fails in the code. In byte mode with `MaxBytes` 1500000, a packet of
1000000 bytes is enqueued in the empty queue and then a packet of 4294000000
bytes: the sum 4295000000 is 32704 in `uint32_t`, which is not above
`MaxBytes`, so the second packet is accepted too. The queue then holds
4295000000 bytes, more than `MaxBytes`, and `m_bytesInQueue` is 32704. -/
theorem C33_admission_test_overflows :
    emptyQueue.m_mode = QueueMode.QUEUE_MODE_BYTES ∧ emptyQueue.m_maxBytes = 1500000 ∧
      (DoEnqueue emptyQueue 0 ⟨1, 1000000, none⟩).2 = true ∧
      (DoEnqueue (DoEnqueue emptyQueue 0 ⟨1, 1000000, none⟩).1 0 ⟨2, 4294000000, none⟩).2 =
        true ∧
      (runCalls sampleHeader emptyQueue
          [AqmCall.enqueue ⟨1, 1000000, none⟩ 0,
            AqmCall.enqueue ⟨2, 4294000000, none⟩ 0]).toOption.map
          (fun q => (bytesHeld q, q.m_bytesInQueue, q.m_maxBytes,
            decide (bytesHeld q ≤ q.m_maxBytes))) =
        some (4295000000, 32704, 1500000, false) := by
  refine ⟨rfl, rfl, by decide, by decide, by decide⟩

/-- C37 fails in the code. The queue, not in the dropping state and with
`MinBytes` 0, holds one packet, enqueued at time 0; `DoDequeue` is called at
1 s with `randv` at 3801544430. `OkToDrop` returns true, the packet is passed
to `Drop` and counted in `m_dropCount`, the queue is empty, and the same
packet is returned. In the dropping state with the next drop due, the loop
drops the packet and returns 0. -/
theorem C37_last_packet_dropped_and_returned :
    lastPacketQueue.m_packets = [⟨7, 1000, some 0⟩] ∧
      (DoDequeue sampleHeader lastPacketQueue 1000000000).toOption.map
          (fun r => (r.2, r.1.dropped, r.1.m_dropCount, r.1.m_packets)) =
        some (some ⟨7, 1000, none⟩, [⟨7, 1000, none⟩], 1, []) ∧
      (DoDequeue sampleHeader { lastPacketQueue with m_dropping := true }
          1000000000).toOption.map
          (fun r => (r.2, r.1.dropped, r.1.m_dropCount, r.1.m_packets)) =
        some (none, [⟨7, 1000, none⟩], 1, []) := by
  refine ⟨by decide, by decide!, by decide!⟩

/-! The byte counter of the queue. -/

theorem u32sub_pop (size rest : Nat) : u32sub ((size + rest) % 2 ^ 32) size = rest % 2 ^ 32 := by
  unfold u32sub
  norm_num
  omega

/-- When the tag is found `OkToDrop` succeeds; it removes the tag and
leaves `m_packets` and `m_bytesInQueue` as they are. -/
theorem OkToDrop_ok (h : AqmHeader) (q : AqmQueue) (p : AqmPacket) (now : Nat)
    (simNow : Time) (htag : p.packetTag ≠ none) :
    ∃ q' b, OkToDrop h q p now simNow = Except.ok (q', { p with packetTag := none }, b) ∧
      q'.m_packets = q.m_packets ∧ q'.m_bytesInQueue = q.m_bytesInQueue := by
  cases hp : p.packetTag with
  | none => exact absurd hp htag
  | some txTime =>
    simp only [OkToDrop, hp]
    split_ifs <;> exact ⟨_, _, rfl, rfl, rfl⟩

theorem NewtonStep_queue (h : AqmHeader) (q : AqmQueue) :
    (NewtonStep h q).m_packets = q.m_packets ∧
      (NewtonStep h q).m_bytesInQueue = q.m_bytesInQueue :=
  ⟨rfl, rfl⟩

theorem enterDropping_queue (h : AqmHeader) (q : AqmQueue) (now : Nat) :
    (enterDropping h q now).m_packets = q.m_packets ∧
      (enterDropping h q now).m_bytesInQueue = q.m_bytesInQueue := by
  unfold enterDropping
  simp only
  split_ifs <;> exact ⟨rfl, rfl⟩

/-- The invariant is a statement about `m_packets` and `m_bytesInQueue`
only. -/
theorem QueueInv_congr (q q' : AqmQueue) (hp : q'.m_packets = q.m_packets)
    (hb : q'.m_bytesInQueue = q.m_bytesInQueue) (h : QueueInv q) : QueueInv q' := by
  unfold QueueInv bytesHeld at *
  rw [hp, hb]
  exact h

/-- Taking the front packet off the queue keeps the invariant. -/
theorem QueueInv_pop (q q' : AqmQueue) (front : AqmPacket) (rest : List AqmPacket)
    (hq : q.m_packets = front :: rest) (hp : q'.m_packets = rest)
    (hb : q'.m_bytesInQueue = u32sub q.m_bytesInQueue front.size) (h : QueueInv q) :
    QueueInv q' := by
  unfold QueueInv bytesHeld at *
  rw [hq] at h
  rw [hp, hb, h.2]
  refine ⟨fun p hpm => h.1 p (List.mem_cons_of_mem _ hpm), ?_⟩
  simp only [List.map_cons, List.sum_cons]
  exact u32sub_pop _ _

/-- With the invariant, the loop of `DoDequeue` ends without fault and keeps
the invariant. -/
theorem dropLoop_inv (h : AqmHeader) (simNow : Time) (now : Nat) :
    ∀ (packets : List AqmPacket) (q : AqmQueue) (p : AqmPacket),
      q.m_packets = packets → QueueInv q →
      ∃ q' r, dropLoop h simNow now packets q p = Except.ok (q', r) ∧ QueueInv q' := by
  intro packets
  induction packets with
  | nil =>
    intro q p hq hinv
    rw [dropLoop]
    split_ifs
    · exact ⟨_, _, rfl, QueueInv_congr q _ rfl rfl hinv⟩
    · exact ⟨_, _, rfl, hinv⟩
  | cons front rest ih =>
    intro q p hq hinv
    rw [dropLoop]
    split_ifs with hc
    · have htag : front.packetTag ≠ none := hinv.1 front (by rw [hq]; exact List.mem_cons_self _ _)
      simp only
      split
      · rename_i e heq
        obtain ⟨q3, b, hok, _, _⟩ := OkToDrop_ok h _ front now simNow htag
        rw [hok] at heq
        cases heq
      · rename_i q3 p3 b heq
        obtain ⟨q3', b', hok, hp3, hb3⟩ := OkToDrop_ok h _ front now simNow htag
        rw [hok] at heq
        simp only [Except.ok.injEq, Prod.mk.injEq] at heq
        obtain ⟨rfl, rfl, rfl⟩ := heq
        have hinv3 : QueueInv q3' := QueueInv_pop q q3' front rest hq hp3 hb3 hinv
        apply ih
        · cases b' <;> exact hp3
        · cases b'
          · exact QueueInv_congr q3' _ rfl rfl hinv3
          · exact QueueInv_congr q3' _ rfl rfl hinv3
    · exact ⟨_, _, rfl, hinv⟩

/-- With the invariant, `DoDequeue` returns without fault and keeps the
invariant. -/
theorem DoDequeue_inv (h : AqmHeader) (q : AqmQueue) (simNow : Time) (hinv : QueueInv q) :
    ∃ q' r, DoDequeue h q simNow = Except.ok (q', r) ∧ QueueInv q' := by
  unfold DoDequeue
  cases hq : q.m_packets with
  | nil =>
    refine ⟨_, _, rfl, ?_⟩
    exact QueueInv_congr q _ hq.symm rfl hinv
  | cons front rest =>
    have htag : front.packetTag ≠ none := hinv.1 front (by rw [hq]; exact List.mem_cons_self _ _)
    simp only
    obtain ⟨q2, b, hok, hp2, hb2⟩ := OkToDrop_ok h
      { q with m_packets := rest, m_bytesInQueue := u32sub q.m_bytesInQueue front.size }
      front (AqmGetTime h simNow) simNow htag
    rw [hok]
    have hinv2 : QueueInv q2 := QueueInv_pop q q2 front rest hq hp2 hb2 hinv
    simp only
    by_cases hd : q2.m_dropping = true
    · rw [if_pos hd]
      cases b with
      | false => exact ⟨_, _, rfl, QueueInv_congr q2 _ rfl rfl hinv2⟩
      | true =>
        simp only [Bool.not_true, Bool.false_eq_true, if_false]
        split_ifs
        · obtain ⟨q4, r, hl, hinv4⟩ := dropLoop_inv h simNow (AqmGetTime h simNow) q2.m_packets
            { q2 with m_state2 := u32 (q2.m_state2 + 1) }
            { front with packetTag := none } rfl (QueueInv_congr q2 _ rfl rfl hinv2)
          rw [hl]
          cases r with
          | none => exact ⟨_, _, rfl, hinv4⟩
          | some p' => exact ⟨_, _, rfl, QueueInv_congr q4 _ rfl rfl hinv4⟩
        · exact ⟨_, _, rfl, QueueInv_congr q2 _ rfl rfl hinv2⟩
    · rw [if_neg hd]
      cases b with
      | false => exact ⟨_, _, rfl, QueueInv_congr q2 _ rfl rfl hinv2⟩
      | true =>
        simp only [if_true]
        cases hq2 : q2.m_packets with
        | nil =>
          refine ⟨_, _, rfl, ?_⟩
          refine QueueInv_congr q2 _ ?_ ?_ hinv2
          · exact (enterDropping_queue h _ _).1.trans hq2.symm
          · exact (enterDropping_queue h _ _).2
        | cons next rest2 =>
          have htag2 : next.packetTag ≠ none :=
            hinv2.1 next (by rw [hq2]; exact List.mem_cons_self _ _)
          simp only
          obtain ⟨q5, b5, hok5, hp5, hb5⟩ := OkToDrop_ok h
            { q2 with
              m_dropCount := u32 (q2.m_dropCount + 1)
              dropped := q2.dropped ++ [{ front with packetTag := none }]
              m_packets := rest2
              m_bytesInQueue := u32sub q2.m_bytesInQueue next.size }
            next (AqmGetTime h simNow) simNow htag2
          rw [hok5]
          have hinv5 : QueueInv q5 := QueueInv_pop q2 q5 next rest2 hq2 hp5 hb5 hinv2
          refine ⟨_, _, rfl, ?_⟩
          refine QueueInv_congr q5 _ ?_ ?_ hinv5
          · exact (enterDropping_queue h _ _).1
          · exact (enterDropping_queue h _ _).2

/-- `DoEnqueue` keeps the invariant. -/
theorem DoEnqueue_inv (q : AqmQueue) (simNow : Time) (p : AqmPacket) (hinv : QueueInv q) :
    QueueInv (DoEnqueue q simNow p).1 := by
  unfold DoEnqueue
  simp only
  split_ifs
  · exact QueueInv_congr q _ rfl rfl hinv
  · exact QueueInv_congr q _ rfl rfl hinv
  · unfold QueueInv bytesHeld at *
    constructor
    · intro x hx
      simp only [List.mem_append, List.mem_singleton] at hx
      rcases hx with hx | rfl
      · exact hinv.1 x hx
      · simp
    · simp only [List.map_append, List.sum_append, List.map_cons, List.map_nil, List.sum_cons,
        List.sum_nil, u32]
      rw [hinv.2]
      norm_num

/-- A rejected `DoEnqueue` leaves `m_packets` and `m_bytesInQueue` as they
are. -/
theorem DoEnqueue_rejected (q : AqmQueue) (simNow : Time) (p : AqmPacket)
    (hr : (DoEnqueue q simNow p).2 = false) :
    (DoEnqueue q simNow p).1.m_packets = q.m_packets ∧
      (DoEnqueue q simNow p).1.m_bytesInQueue = q.m_bytesInQueue := by
  unfold DoEnqueue at hr ⊢
  simp only at hr ⊢
  split_ifs at hr ⊢
  · exact ⟨rfl, rfl⟩
  · exact ⟨rfl, rfl⟩

/-- From a state with the invariant, every sequence of calls runs without
fault and leaves a state with the invariant. -/
theorem runCalls_inv (h : AqmHeader) (calls : List AqmCall) :
    ∀ q, QueueInv q → ∃ q', runCalls h q calls = Except.ok q' ∧ QueueInv q' := by
  induction calls with
  | nil => exact fun q hinv => ⟨q, rfl, hinv⟩
  | cons c calls ih =>
    intro q hinv
    cases c with
    | enqueue p simNow => exact ih _ (DoEnqueue_inv q simNow p hinv)
    | dequeue simNow =>
      obtain ⟨q', r, hd, hinv'⟩ := DoDequeue_inv h q simNow hinv
      obtain ⟨q'', hrun, hinv''⟩ := ih q' hinv'
      refine ⟨q'', ?_, hinv''⟩
      simp only [runCalls, hd]
      exact hrun

/-- C39. From the empty queue (no packet, `m_bytesInQueue` = 0), every
sequence of calls of `DoEnqueue` and `DoDequeue` runs to its end, and in the
state it leaves `m_bytesInQueue` is the sum of the sizes of the packets in
`m_packets`, modulo 2^32. A `DoEnqueue` that returns false, and a `DoDequeue`
on a queue without packets (which returns 0), leave `m_packets` and
`m_bytesInQueue` as they are. -/
theorem C39_byte_counter (h : AqmHeader) (q0 : AqmQueue) (calls : List AqmCall)
    (hempty : q0.m_packets = []) (hzero : q0.m_bytesInQueue = 0) :
    (∃ q, runCalls h q0 calls = Except.ok q ∧ q.m_bytesInQueue = bytesHeld q % 2 ^ 32) ∧
      (∀ (q : AqmQueue) (simNow : Time) (p : AqmPacket), (DoEnqueue q simNow p).2 = false →
        (DoEnqueue q simNow p).1.m_packets = q.m_packets ∧
          (DoEnqueue q simNow p).1.m_bytesInQueue = q.m_bytesInQueue) ∧
      (∀ (q : AqmQueue) (simNow : Time), q.m_packets = [] →
        ∃ q', DoDequeue h q simNow = Except.ok (q', none) ∧ q'.m_packets = [] ∧
          q'.m_bytesInQueue = q.m_bytesInQueue) := by
  refine ⟨?_, DoEnqueue_rejected, ?_⟩
  · have hinv0 : QueueInv q0 := by
      unfold QueueInv bytesHeld
      rw [hempty, hzero]
      simp
    obtain ⟨q, hrun, hinv⟩ := runCalls_inv h calls q0 hinv0
    exact ⟨q, hrun, hinv.2⟩
  · intro q simNow hq
    unfold DoDequeue
    rw [hq]
    exact ⟨_, rfl, rfl, rfl⟩

/-- Witness of C39: three packets are enqueued in the empty queue, the third
one rejected, and two calls of `DoDequeue` follow. -/
theorem C39_byte_counter_witness :
    emptyQueue.m_packets = [] ∧ emptyQueue.m_bytesInQueue = 0 ∧
      ∃ q, runCalls sampleHeader emptyQueue
          [AqmCall.enqueue ⟨1, 1000000, none⟩ 0, AqmCall.enqueue ⟨2, 400000, none⟩ 1000,
            AqmCall.enqueue ⟨3, 200000, none⟩ 2000, AqmCall.dequeue 3000,
            AqmCall.dequeue 4000] = Except.ok q ∧
        q.m_bytesInQueue = bytesHeld q % 2 ^ 32 :=
  ⟨rfl, rfl,
    (C39_byte_counter sampleHeader emptyQueue
      [AqmCall.enqueue ⟨1, 1000000, none⟩ 0, AqmCall.enqueue ⟨2, 400000, none⟩ 1000,
        AqmCall.enqueue ⟨3, 200000, none⟩ 2000, AqmCall.dequeue 3000, AqmCall.dequeue 4000]
      rfl rfl).1⟩

end PIO
